import Mathlib

/-!
# Point-cloud viewer: loaders and viewport state

A shallow embedding of `pointcloudrenderer.cpp`, `viewportobject.cpp` and the
capture actions of `mainwindow.cpp`.

* A C++ `float` is a value of `Flt`: NaN, the two infinities, or a finite
  rational. Arithmetic on finite values is exact and overflows to an infinity
  beyond `FLT_MAX`; rounding inside the finite range is not modelled, and the
  two zeros are one value.
* The point count is an `int` of 32 bits, the size of the vertex container
  converted modulo `2 ^ 32`, and the `unsigned` counter of the snapshots wraps
  at `2 ^ 32`; the other integers of the code are not bounded here.
* A file is the list of its characters; in a `.ply` file each character stands
  for one byte.
* What the C++ and Qt libraries compute (text to number conversion, vector
  length, `pow`, the 4x4 matrix product, the contents of an uninitialised
  local) is a field of `Platform`; `refPlatform` is one concrete instance on
  which the scenarios are evaluated.
* OpenGL buffer uploads and repaint requests have no effect on the modelled
  state and are left out.
-/
namespace PCV

/-! ## Floats -/

/-- Values of a C++ `float`. -/
inductive Flt where
  | nan : Flt
  | ninf : Flt
  | fin (q : ℚ) : Flt
  | pinf : Flt
deriving DecidableEq

/-- The largest finite `float`, `std::numeric_limits<float>::max()`. -/
def FLT_MAX : ℚ := 340282346638528859811704183484516925440

namespace Flt

/-- The constant `std::numeric_limits<float>::max()`. -/
def max : Flt := fin FLT_MAX

/-- The constant `std::numeric_limits<float>::lowest()`. -/
def lowest : Flt := fin (-FLT_MAX)

/-- The float comparison `a < b`; false whenever an operand is NaN. -/
def lt : Flt → Flt → Bool
  | fin a, fin b => decide (a < b)
  | ninf, fin _ => true
  | ninf, pinf => true
  | fin _, pinf => true
  | _, _ => false

/-- The float comparison `a <= b`; false whenever an operand is NaN. -/
def le : Flt → Flt → Bool
  | fin a, fin b => decide (a ≤ b)
  | ninf, fin _ => true
  | ninf, pinf => true
  | fin _, pinf => true
  | ninf, ninf => true
  | pinf, pinf => true
  | _, _ => false

/-- A float that is neither NaN nor infinite and lies in the finite range. -/
def isFinite : Flt → Bool
  | fin q => decide (-FLT_MAX ≤ q) && decide (q ≤ FLT_MAX)
  | _ => false

/-- A float that is not NaN. -/
def isNumber : Flt → Bool
  | nan => false
  | _ => true

/-- The float nearest to a rational, as far as overflow goes. -/
def ofRat (q : ℚ) : Flt :=
  if FLT_MAX < q then pinf else if q < -FLT_MAX then ninf else fin q

/-- Float negation. -/
def neg : Flt → Flt
  | nan => nan
  | ninf => pinf
  | pinf => ninf
  | fin a => fin (-a)

/-- Float addition. -/
def add : Flt → Flt → Flt
  | nan, _ => nan
  | _, nan => nan
  | pinf, ninf => nan
  | ninf, pinf => nan
  | pinf, _ => pinf
  | _, pinf => pinf
  | ninf, _ => ninf
  | _, ninf => ninf
  | fin a, fin b => ofRat (a + b)

/-- Float subtraction. -/
def sub (a b : Flt) : Flt := add a (neg b)

/-- The infinity with the sign of `s`, NaN when `s` is zero. -/
def signedInf (s : ℚ) : Flt :=
  if s = 0 then nan else if 0 < s then pinf else ninf

/-- Float multiplication. -/
def mul : Flt → Flt → Flt
  | nan, _ => nan
  | _, nan => nan
  | pinf, pinf => pinf
  | pinf, ninf => ninf
  | ninf, pinf => ninf
  | ninf, ninf => pinf
  | pinf, fin b => signedInf b
  | ninf, fin b => signedInf (-b)
  | fin a, pinf => signedInf a
  | fin a, ninf => signedInf (-a)
  | fin a, fin b => ofRat (a * b)

/-- Float division; a zero divisor is taken as positive zero. -/
def div : Flt → Flt → Flt
  | nan, _ => nan
  | _, nan => nan
  | pinf, pinf => nan
  | pinf, ninf => nan
  | ninf, pinf => nan
  | ninf, ninf => nan
  | pinf, fin b => if 0 ≤ b then pinf else ninf
  | ninf, fin b => if 0 ≤ b then ninf else pinf
  | fin _, pinf => fin 0
  | fin _, ninf => fin 0
  | fin a, fin b => if b = 0 then signedInf a else ofRat (a / b)

end Flt

/-- The function `std::min(a, b)` on floats: `(b < a) ? b : a`. -/
def stdMin (a b : Flt) : Flt := if Flt.lt b a then b else a

/-- The function `std::max(a, b)` on floats: `(a < b) ? b : a`. -/
def stdMax (a b : Flt) : Flt := if Flt.lt a b then b else a

/-! ## Vectors -/

/-- A `QVector3D`. -/
structure Vec3 where
  x : Flt
  y : Flt
  z : Flt
deriving DecidableEq

namespace Vec3

/-- Componentwise sum, `operator+`. -/
def add (a b : Vec3) : Vec3 := ⟨Flt.add a.x b.x, Flt.add a.y b.y, Flt.add a.z b.z⟩

/-- Componentwise difference, `operator-`. -/
def sub (a b : Vec3) : Vec3 := ⟨Flt.sub a.x b.x, Flt.sub a.y b.y, Flt.sub a.z b.z⟩

/-- Product with a scalar, `operator*(vector, float)`. -/
def scale (a : Vec3) (f : Flt) : Vec3 := ⟨Flt.mul a.x f, Flt.mul a.y f, Flt.mul a.z f⟩

/-- Quotient by a scalar, `operator/(vector, float)`. -/
def divide (a : Vec3) (f : Flt) : Vec3 := ⟨Flt.div a.x f, Flt.div a.y f, Flt.div a.z f⟩

/-- Componentwise negation, unary `operator-`. -/
def neg (a : Vec3) : Vec3 := ⟨Flt.neg a.x, Flt.neg a.y, Flt.neg a.z⟩

/-- The three axes of a vector. -/
inductive Axis where
  | X : Axis
  | Y : Axis
  | Z : Axis
deriving DecidableEq

/-- The component of a vector on an axis. -/
def get (a : Vec3) : Axis → Flt
  | .X => a.x
  | .Y => a.y
  | .Z => a.z

end Vec3

/-! ## Text -/

/-- The test `QChar::isSpace`: ASCII white space, NEL, NBSP and the Unicode
separators. -/
def qIsSpace (c : Char) : Bool :=
  let n := c.toNat
  n == 0x20 || (0x09 ≤ n && n ≤ 0x0d) || n == 0x85 || n == 0xA0 || n == 0x1680 ||
    (0x2000 ≤ n && n ≤ 0x200A) || n == 0x2028 || n == 0x2029 || n == 0x202F ||
    n == 0x205F || n == 0x3000

/-- The characters matched by `\s` in a `QRegularExpression` without the
Unicode-properties option, which are also those of C `isspace`. -/
def isspace (c : Char) : Bool :=
  let n := c.toNat
  n == 0x20 || (0x09 ≤ n && n ≤ 0x0d)

/-- The function `QString::trimmed`. -/
def trimmed (s : List Char) : List Char :=
  ((s.dropWhile qIsSpace).reverse.dropWhile qIsSpace).reverse

/-- Splitting at runs of separator characters, empty parts skipped; `cur`
holds the part being read, reversed. -/
def splitAux (p : Char → Bool) : List Char → List Char → List (List Char)
  | [], cur => if cur.isEmpty then [] else [cur.reverse]
  | c :: cs, cur =>
    if p c then
      if cur.isEmpty then splitAux p cs [] else cur.reverse :: splitAux p cs []
    else splitAux p cs (c :: cur)

/-- The call `line.split(QRegularExpression("\\s+"), Qt::SkipEmptyParts)`. -/
def splitWs (line : List Char) : List (List Char) := splitAux isspace line []

/-- The lines `QTextStream::readLine` yields until `atEnd`; `cur` holds the
line being read, reversed. -/
def readLinesAux : List Char → List Char → List (List Char)
  | [], cur => if cur.isEmpty then [] else [cur.reverse]
  | c :: cs, cur =>
    if c = '\n' then cur.reverse :: readLinesAux cs [] else readLinesAux cs (c :: cur)

/-- The lines of a text, in order. -/
def readLines (text : List Char) : List (List Char) := readLinesAux text []

/-! ## Platform -/

/-- What the C++ and Qt libraries supply to the renderer. -/
structure Platform where
  /-- The type `QMatrix4x4`. -/
  Mat : Type
  /-- The function `QString::toFloat`. -/
  toFloat : List Char → Flt
  /-- Formatted extraction of a `float` from text that starts at a character
  that is not white space: the value stored, the text left, success. -/
  numGetFloat : List Char → Flt × List Char × Bool
  /-- Formatted extraction of an `int`, likewise. -/
  numGetInt : List Char → Int × List Char × Bool
  /-- The float an uninitialised local holds when field `j` of record `i` reads it. -/
  indeterminate : Nat → Nat → Flt
  /-- The function `QVector3D::length`. -/
  length : Vec3 → Flt
  /-- The function `std::pow` on floats. -/
  pow : Flt → Flt → Flt
  /-- The identity matrix. -/
  identity : Mat
  /-- The matrix product. -/
  mul : Mat → Mat → Mat
  /-- The matrix of a translation. -/
  translation : Flt → Flt → Flt → Mat
  /-- The matrix of a rotation by an angle in degrees about an axis. -/
  rotation : Flt → Flt → Flt → Flt → Mat

/-! ## Renderer state -/

/-- The struct `PointCloudRenderer::Vertex`. -/
structure Vertex where
  position : Vec3
  color : Vec3
deriving DecidableEq

/-- The struct `ViewportObject::ViewportParameters`. -/
structure ViewportParameters (P : Platform) where
  modelViewMatrix : P.Mat
  projectionMatrix : P.Mat
  cameraDistance : Flt
  rotation : Vec3
  modelCenter : Vec3
  pointSize : Flt
  boundingBoxMin : Vec3
  boundingBoxMax : Vec3

/-- The data members of `PointCloudRenderer` the modelled operations touch. -/
structure PointCloudRenderer (P : Platform) where
  m_vertices : List Vertex
  m_projection : P.Mat
  m_modelView : P.Mat
  m_distance : Flt
  m_rotation : Vec3
  m_lastMousePos : Int × Int
  m_pointSize : Flt
  m_boundingBoxMin : Vec3
  m_boundingBoxMax : Vec3
  m_modelCenter : Vec3

/-- The conversion of a container size to `int`: the value modulo `2 ^ 32`
that lies between `-2 ^ 31` and `2 ^ 31 - 1`. -/
def toInt32 (n : Nat) : Int := (((n + 2 ^ 31) % 2 ^ 32 : Nat) : Int) - 2 ^ 31

/-- The accessor `getPointCount`, `int getPointCount() const`, which returns
`m_vertices.size()` converted to `int`. -/
def getPointCount {P : Platform} (s : PointCloudRenderer P) : Int := toInt32 s.m_vertices.length

/-- The method `QMatrix4x4::translate`: the product with a translation. -/
def Platform.translate (P : Platform) (m : P.Mat) (x y z : Flt) : P.Mat :=
  P.mul m (P.translation x y z)

/-- The method `QMatrix4x4::rotate`: the product with a rotation. -/
def Platform.rotate (P : Platform) (m : P.Mat) (angle x y z : Flt) : P.Mat :=
  P.mul m (P.rotation angle x y z)

/-- The method `updateModelViewMatrix`. -/
def updateModelViewMatrix {P : Platform} (s : PointCloudRenderer P) : PointCloudRenderer P :=
  let m0 := P.identity
  let m1 := P.translate m0 (Flt.fin 0) (Flt.fin 0) (Flt.neg s.m_distance)
  let m2 := P.rotate m1 s.m_rotation.x (Flt.fin 1) (Flt.fin 0) (Flt.fin 0)
  let m3 := P.rotate m2 s.m_rotation.y (Flt.fin 0) (Flt.fin 1) (Flt.fin 0)
  let c := Vec3.neg s.m_modelCenter
  { s with m_modelView := P.translate m3 c.x c.y c.z }

/-- The method `resetView`. -/
def resetView {P : Platform} (s : PointCloudRenderer P) : PointCloudRenderer P :=
  updateModelViewMatrix { s with m_rotation := ⟨Flt.fin 0, Flt.fin 0, Flt.fin 0⟩ }

/-! ## The simple format -/

/-- The initial bounding-box minimum of a load: `max()` on every axis. -/
def sentinelMin : Vec3 := ⟨Flt.max, Flt.max, Flt.max⟩

/-- The initial bounding-box maximum of a load: `lowest()` on every axis. -/
def sentinelMax : Vec3 := ⟨Flt.lowest, Flt.lowest, Flt.lowest⟩

/-- The statements that end an accepted record in both loaders: the vertex is
appended and the bounding box is widened to its position. -/
def addVertex {P : Platform} (s : PointCloudRenderer P) (vertex : Vertex) :
    PointCloudRenderer P :=
  let mn := s.m_boundingBoxMin
  let mx := s.m_boundingBoxMax
  let p := vertex.position
  { s with
    m_vertices := s.m_vertices ++ [vertex]
    m_boundingBoxMin := ⟨stdMin mn.x p.x, stdMin mn.y p.y, stdMin mn.z p.z⟩
    m_boundingBoxMax := ⟨stdMax mx.x p.x, stdMax mx.y p.y, stdMax mx.z p.z⟩ }

/-- The vertex `loadPtsFile` builds from the parts of an accepted line. -/
def ptsVertex (P : Platform) (parts : List (List Char)) : Vertex :=
  let x := P.toFloat (parts.getD 0 [])
  let y := P.toFloat (parts.getD 1 [])
  let z := P.toFloat (parts.getD 2 [])
  let pos : Vec3 := ⟨x, y, z⟩
  let color : Vec3 :=
    if 6 ≤ parts.length then
      ⟨Flt.div (P.toFloat (parts.getD 3 [])) (Flt.fin 255),
       Flt.div (P.toFloat (parts.getD 4 [])) (Flt.fin 255),
       Flt.div (P.toFloat (parts.getD 5 [])) (Flt.fin 255)⟩
    else ⟨Flt.fin 1, Flt.fin 1, Flt.fin 1⟩
  ⟨pos, color⟩

/-- One pass through the body of the `while (!in.atEnd())` loop of `loadPtsFile`. -/
def ptsLine {P : Platform} (s : PointCloudRenderer P) (raw : List Char) :
    PointCloudRenderer P :=
  let line := trimmed raw
  if line.isEmpty || line.head? == some '#' then s
  else
    let parts := splitWs line
    if 3 ≤ parts.length then addVertex s (ptsVertex P parts)
    else s

/-- The tail of both loaders after the records are read: model centre,
camera distance, `resetView`. -/
def frameLoaded {P : Platform} (s : PointCloudRenderer P) : PointCloudRenderer P :=
  let s1 := { s with
    m_modelCenter := Vec3.scale (Vec3.add s.m_boundingBoxMin s.m_boundingBoxMax) (Flt.fin (1/2)) }
  let size := Vec3.sub s1.m_boundingBoxMax s1.m_boundingBoxMin
  let s2 := { s1 with m_distance := Flt.mul (P.length size) (Flt.fin (3/2)) }
  resetView s2

/-- The start of both loaders once the file is open: the vertices are cleared
and the bounding box is set to its sentinels. -/
def clearCloud {P : Platform} (s : PointCloudRenderer P) : PointCloudRenderer P :=
  { s with m_vertices := [], m_boundingBoxMin := sentinelMin, m_boundingBoxMax := sentinelMax }

/-- The method `loadPtsFile`; `file` is `none` when the file cannot be opened,
else the text the `QTextStream` decodes from it, line ends translated to
`\n`. -/
def loadPtsFile {P : Platform} (s : PointCloudRenderer P) (file : Option (List Char)) :
    Bool × PointCloudRenderer P :=
  match file with
  | none => (false, s)
  | some text =>
    let s1 := clearCloud s
    let s2 := (readLines text).foldl ptsLine s1
    (true, frameLoaded s2)

/-! ## The structured format -/

/-- An input stream: the characters left, `eofbit` and `failbit`. -/
structure IStream where
  rest : List Char
  eof : Bool
  fail : Bool
deriving DecidableEq

/-- The test `good()`: no state bit is set. -/
def IStream.good (f : IStream) : Bool := !f.eof && !f.fail

/-- A freshly opened stream over a text. -/
def IStream.open (text : List Char) : IStream := ⟨text, false, false⟩

/-- The call `std::getline(f, line)`: the new content of `line` and the stream
after it. A stream that is not good leaves `line` as it was. -/
def getline (f : IStream) (line : List Char) : List Char × IStream :=
  if !f.good then (line, { f with fail := true })
  else
    let l := f.rest.takeWhile (fun c => c != '\n')
    match f.rest.dropWhile (fun c => c != '\n') with
    | _ :: r => (l, ⟨r, false, false⟩)
    | [] => (l, ⟨[], true, l.isEmpty⟩)

/-- Extraction of a word, `stream >> word`: the word stored, if any. -/
def extractWord (f : IStream) : Option (List Char) × IStream :=
  if !f.good then (none, { f with fail := true })
  else
    let r := f.rest.dropWhile isspace
    if r.isEmpty then (none, ⟨[], true, true⟩)
    else
      let r1 := r.dropWhile (fun c => !isspace c)
      (some (r.takeWhile (fun c => !isspace c)), ⟨r1, r1.isEmpty, false⟩)

/-- Extraction of an `int`, `stream >> n`: the value stored, if any. -/
def extractInt (P : Platform) (f : IStream) : Option Int × IStream :=
  if !f.good then (none, { f with fail := true })
  else
    let r := f.rest.dropWhile isspace
    if r.isEmpty then (none, ⟨[], true, true⟩)
    else
      let res := P.numGetInt r
      (some res.1, ⟨res.2.1, res.2.1.isEmpty, !res.2.2⟩)

/-- Extraction of a `float`, `stream >> x`: the value stored, if any. -/
def extractFloat (P : Platform) (f : IStream) : Option Flt × IStream :=
  if !f.good then (none, { f with fail := true })
  else
    let r := f.rest.dropWhile isspace
    if r.isEmpty then (none, ⟨[], true, true⟩)
    else
      let res := P.numGetFloat r
      (some res.1, ⟨res.2.1, res.2.1.isEmpty, !res.2.2⟩)

/-- The call `f.read(buffer, n)`: the bytes read when all `n` are there. -/
def readBytes (f : IStream) (n : Nat) : Option (List Char) × IStream :=
  if !f.good then (none, { f with fail := true })
  else if n ≤ f.rest.length then (some (f.rest.take n), { f with rest := f.rest.drop n })
  else (none, ⟨[], true, true⟩)

/-- The test `line.find(word) != npos`. -/
def containsWord (word : List Char) : List Char → Bool
  | [] => word.isEmpty
  | c :: cs => word.isPrefixOf (c :: cs) || containsWord word cs

/-- The float whose IEEE-754 single-precision bit pattern is `n`. -/
def floatOfBits (n : Nat) : Flt :=
  let e : Nat := n / 2 ^ 23 % 256
  let m : Nat := n % 2 ^ 23
  let neg : Bool := n / 2 ^ 31 % 2 == 1
  if e = 255 then
    if m = 0 then (if neg then Flt.ninf else Flt.pinf) else Flt.nan
  else
    let v : ℚ :=
      if e = 0 then (m : ℚ) / (2 : ℚ) ^ 149
      else ((2 ^ 23 + m : ℕ) : ℚ) * (2 : ℚ) ^ e / (2 : ℚ) ^ 150
    Flt.fin (if neg then -v else v)

/-- The value of a byte. -/
def byteVal (c : Char) : Nat := c.toNat % 256

/-- The float stored in four consecutive bytes on a little-endian host. -/
def floatOfBytes (bs : List Char) : Flt :=
  floatOfBits (byteVal (bs.getD 0 default) + 2 ^ 8 * byteVal (bs.getD 1 default)
    + 2 ^ 16 * byteVal (bs.getD 2 default) + 2 ^ 24 * byteVal (bs.getD 3 default))

/-- The enumeration `PropertyType` of `loadPlyFile`. -/
inductive PropertyType where
  | PROP_NONE : PropertyType
  | PROP_FLOAT : PropertyType
  | PROP_UCHAR : PropertyType
deriving DecidableEq

/-- The struct `PropertyInfo` of `loadPlyFile`. -/
structure PropertyInfo where
  name : List Char
  type : PropertyType
deriving DecidableEq

/-- The locals of `loadPlyFile` that the header loop sets. -/
structure PlyHeader where
  numVertices : Int
  isBinary : Bool
  isBigEndian : Bool
  hasColors : Bool
  headerEnd : Bool
  properties : List PropertyInfo
  xIndex : Int
  yIndex : Int
  zIndex : Int
  redIndex : Int
  greenIndex : Int
  blueIndex : Int
deriving DecidableEq

/-- The locals as declared, before the header loop. -/
def PlyHeader.init : PlyHeader :=
  ⟨0, false, false, false, false, [], -1, -1, -1, -1, -1, -1⟩

/-- The type a `property` line declares. -/
def propertyTypeOf (type : List Char) : PropertyType :=
  if type = "float".toList ∨ type = "float32".toList then PropertyType.PROP_FLOAT
  else if type = "uchar".toList ∨ type = "uint8".toList then PropertyType.PROP_UCHAR
  else PropertyType.PROP_NONE

/-- The `property` branch of the header loop. -/
def headerProperty (h : PlyHeader) (type name : List Char) : PlyHeader :=
  let prop : PropertyInfo := ⟨name, propertyTypeOf type⟩
  if prop.type ≠ PropertyType.PROP_NONE then
    let propIndex : Int := h.properties.length
    let h1 :=
      if name = "x".toList then { h with xIndex := propIndex }
      else if name = "y".toList then { h with yIndex := propIndex }
      else if name = "z".toList then { h with zIndex := propIndex }
      else if name = "red".toList then { h with redIndex := propIndex, hasColors := true }
      else if name = "green".toList then { h with greenIndex := propIndex }
      else if name = "blue".toList then { h with blueIndex := propIndex }
      else h
    { h1 with properties := h1.properties ++ [prop] }
  else h

/-- The `format` branch of the header loop. -/
def headerFormat (h : PlyHeader) (format : List Char) : PlyHeader :=
  if format = "ascii".toList then { h with isBinary := false }
  else if format = "binary_little_endian".toList then
    { h with isBinary := true, isBigEndian := false }
  else if format = "binary_big_endian".toList then
    { h with isBinary := true, isBigEndian := true }
  else h

/-- One pass through the body of the header loop on the line just read;
`headerEnd` is set when the loop leaves through `break`. -/
def headerLine (P : Platform) (h : PlyHeader) (line : List Char) : PlyHeader :=
  let ls := IStream.open line
  let (kw, ls1) := extractWord ls
  let keyword := kw.getD []
  if keyword = "end_header".toList then { h with headerEnd := true }
  else if keyword = "format".toList then
    let (format, _) := extractWord ls1
    headerFormat h (format.getD [])
  else if keyword = "element".toList ∧ containsWord "vertex".toList line = true then
    let (_, ls2) := extractWord ls1
    let (n, _) := extractInt P ls2
    { h with numVertices := n.getD h.numVertices }
  else if keyword = "property".toList then
    let (type, ls2) := extractWord ls1
    let (name, _) := extractWord ls2
    headerProperty h (type.getD []) (name.getD [])
  else h

/-- The header loop `while (std::getline(file, line))`, at most `fuel` passes:
the locals, the stream and the content of `line` when the loop is left. -/
def readHeader (P : Platform) : Nat → IStream → List Char → PlyHeader →
    PlyHeader × IStream × List Char
  | 0, f, line, h => (h, f, line)
  | fuel + 1, f, line, h =>
    let (line1, f1) := getline f line
    if f1.fail then (h, f1, line1)
    else
      let h1 := headerLine P h line1
      if h1.headerEnd then (h1, f1, line1) else readHeader P fuel f1 line1 h1

/-- The vertex both branches of `loadPlyFile` build from the values of a record. -/
def plyVertex (h : PlyHeader) (values : List Flt) : Vertex :=
  let x := values.getD h.xIndex.toNat (Flt.fin 0)
  let y := values.getD h.yIndex.toNat (Flt.fin 0)
  let z := values.getD h.zIndex.toNat (Flt.fin 0)
  let pos : Vec3 := ⟨x, y, z⟩
  let color : Vec3 :=
    if h.hasColors = true ∧ h.redIndex ≠ -1 ∧ h.greenIndex ≠ -1 ∧ h.blueIndex ≠ -1 then
      let r := values.getD h.redIndex.toNat (Flt.fin 0)
      let g := values.getD h.greenIndex.toNat (Flt.fin 0)
      let b := values.getD h.blueIndex.toNat (Flt.fin 0)
      if (h.properties.getD h.redIndex.toNat ⟨[], PropertyType.PROP_NONE⟩).type
          = PropertyType.PROP_UCHAR then
        ⟨Flt.div r (Flt.fin 255), Flt.div g (Flt.fin 255), Flt.div b (Flt.fin 255)⟩
      else ⟨r, g, b⟩
    else ⟨Flt.fin 1, Flt.fin 1, Flt.fin 1⟩
  ⟨pos, color⟩

/-- The loop over the fields of record `i` in ASCII mode, from field `j` on:
the values stored for these fields. -/
def asciiFields (P : Platform) (i : Nat) : List PropertyInfo → Nat → IStream → List Flt
  | [], _, _ => []
  | p :: ps, j, ss =>
    match p.type with
    | PropertyType.PROP_FLOAT =>
      let (v, ss1) := extractFloat P ss
      v.getD (P.indeterminate i j) :: asciiFields P i ps (j + 1) ss1
    | PropertyType.PROP_UCHAR =>
      let (v, ss1) := extractInt P ss
      (match v with
        | some n => Flt.fin (n : ℚ)
        | none => P.indeterminate i j) :: asciiFields P i ps (j + 1) ss1
    | PropertyType.PROP_NONE => Flt.fin 0 :: asciiFields P i ps (j + 1) ss

/-- The ASCII loop `for (i = 0; i < numVertices; i++)` with `k` records to go. -/
def asciiBody {P : Platform} (h : PlyHeader) : Nat → Nat → IStream → List Char →
    PointCloudRenderer P → PointCloudRenderer P
  | 0, _, _, _, s => s
  | k + 1, i, f, line, s =>
    let (line1, f1) := getline f line
    let values := asciiFields P i h.properties 0 (IStream.open line1)
    asciiBody h k (i + 1) f1 line1 (addVertex s (plyVertex h values))

/-- The loop over the fields of record `i` in binary mode, from field `j` on:
the values stored and the stream after the reads. -/
def binaryFields (P : Platform) (i : Nat) : List PropertyInfo → Nat → IStream →
    List Flt × IStream
  | [], _, f => ([], f)
  | p :: ps, j, f =>
    match p.type with
    | PropertyType.PROP_FLOAT =>
      let (bs, f1) := readBytes f 4
      let v := match bs with
        | some b => floatOfBytes b
        | none => P.indeterminate i j
      let (vs, f2) := binaryFields P i ps (j + 1) f1
      (v :: vs, f2)
    | PropertyType.PROP_UCHAR =>
      let (bs, f1) := readBytes f 1
      let v := match bs with
        | some b => Flt.fin (byteVal (b.getD 0 default) : ℚ)
        | none => P.indeterminate i j
      let (vs, f2) := binaryFields P i ps (j + 1) f1
      (v :: vs, f2)
    | PropertyType.PROP_NONE =>
      let (vs, f2) := binaryFields P i ps (j + 1) f
      (Flt.fin 0 :: vs, f2)

/-- The binary loop with `k` records to go: false when a read failed, with
the state as the `return false` leaves it. -/
def binaryBody {P : Platform} (h : PlyHeader) : Nat → Nat → IStream →
    PointCloudRenderer P → Bool × PointCloudRenderer P
  | 0, _, _, s => (true, s)
  | k + 1, i, f, s =>
    let (values, f1) := binaryFields P i h.properties 0 f
    if f1.fail then (false, s)
    else binaryBody h k (i + 1) f1 (addVertex s (plyVertex h values))

/-- The header loop of `loadPlyFile` on a freshly opened file: the locals, the
stream and the content of `line` after it. The fuel exceeds the number of
lines of the file. -/
def readPlyHeader (P : Platform) (bytes : List Char) : PlyHeader × IStream × List Char :=
  readHeader P (bytes.length + 2) (IStream.open bytes) [] PlyHeader.init

/-- The method `loadPlyFile`; `file` is `none` when the file cannot be opened,
else its bytes. -/
def loadPlyFile {P : Platform} (s : PointCloudRenderer P) (file : Option (List Char)) :
    Bool × PointCloudRenderer P :=
  match file with
  | none => (false, s)
  | some bytes =>
    let s1 := clearCloud s
    let h := (readPlyHeader P bytes).1
    let f1 := (readPlyHeader P bytes).2.1
    let line := (readPlyHeader P bytes).2.2
    if !h.headerEnd || h.xIndex == -1 || h.yIndex == -1 || h.zIndex == -1 then (false, s1)
    else if !h.isBinary then
      (true, frameLoaded (asciiBody h h.numVertices.toNat 0 f1 line s1))
    else
      match binaryBody h h.numVertices.toNat 0 f1 s1 with
      | (false, s2) => (false, s2)
      | (true, s2) => (true, frameLoaded s2)

/-! ## Viewport operations -/

/-- The method `setViewport`. -/
def setViewport {P : Platform} (s : PointCloudRenderer P) (params : ViewportParameters P) :
    PointCloudRenderer P :=
  updateModelViewMatrix { s with
    m_modelView := params.modelViewMatrix
    m_projection := params.projectionMatrix
    m_distance := params.cameraDistance
    m_rotation := params.rotation
    m_modelCenter := params.modelCenter
    m_pointSize := params.pointSize
    m_boundingBoxMin := params.boundingBoxMin
    m_boundingBoxMax := params.boundingBoxMax }

/-- The method `getViewportParameters`. -/
def getViewportParameters {P : Platform} (s : PointCloudRenderer P) : ViewportParameters P where
  modelViewMatrix := s.m_modelView
  projectionMatrix := s.m_projection
  cameraDistance := s.m_distance
  rotation := s.m_rotation
  modelCenter := s.m_modelCenter
  pointSize := s.m_pointSize
  boundingBoxMin := s.m_boundingBoxMin
  boundingBoxMax := s.m_boundingBoxMax

/-- The method `mousePressEvent`. -/
def mousePressEvent {P : Platform} (s : PointCloudRenderer P) (pos : Int × Int) :
    PointCloudRenderer P :=
  { s with m_lastMousePos := pos }

/-- The method `mouseMoveEvent`; `left` tells whether the left button is held. -/
def mouseMoveEvent {P : Platform} (s : PointCloudRenderer P) (left : Bool) (pos : Int × Int) :
    PointCloudRenderer P :=
  let s1 :=
    if left then
      let dx : Int := pos.1 - s.m_lastMousePos.1
      let dy : Int := pos.2 - s.m_lastMousePos.2
      let r1 : Vec3 := { s.m_rotation with
        y := Flt.add s.m_rotation.y (Flt.mul (Flt.fin (dx : ℚ)) (Flt.fin (1/2))) }
      let r2 : Vec3 := { r1 with x := Flt.add r1.x (Flt.mul (Flt.fin (dy : ℚ)) (Flt.fin (1/2))) }
      updateModelViewMatrix { s with m_rotation := r2 }
    else s
  { s1 with m_lastMousePos := pos }

/-- The method `wheelEvent`; `angleDeltaY` is `event->angleDelta().y()`. -/
def wheelEvent {P : Platform} (s : PointCloudRenderer P) (angleDeltaY : Int) :
    PointCloudRenderer P :=
  let delta := Flt.div (Flt.fin (angleDeltaY : ℚ)) (Flt.fin 120)
  let d1 := Flt.mul s.m_distance (P.pow (Flt.fin (9/10)) delta)
  let d2 := stdMax (Flt.fin (1/10)) (stdMin d1 (Flt.fin 1000))
  updateModelViewMatrix { s with m_distance := d2 }

/-! ## A reference platform -/

/-- The value of a run of decimal digits. -/
def digitsVal (ds : List Char) : Nat := ds.foldl (fun n c => 10 * n + (c.toNat - 48)) 0

/-- An optional sign: the sign read (true for minus) and the text after it. -/
def readSign : List Char → Bool × List Char
  | '-' :: cs => (true, cs)
  | '+' :: cs => (false, cs)
  | cs => (false, cs)

/-- An optional exponent part `e[+-]digits`: the power of ten and the text after it. -/
def readExponent : List Char → Int × List Char
  | c :: cs =>
    if c = 'e' ∨ c = 'E' then
      let (neg, r) := readSign cs
      let ds := r.takeWhile Char.isDigit
      if ds.isEmpty then (0, c :: cs)
      else ((if neg then -(digitsVal ds : Int) else (digitsVal ds : Int)), r.dropWhile Char.isDigit)
    else (0, c :: cs)
  | [] => (0, [])

/-- The longest decimal literal `[+-]digits[.digits][e[+-]digits]` at the head
of a text, with its value and the text after it. -/
def readDecimal (input : List Char) : Option (ℚ × List Char) :=
  let (neg, r0) := readSign input
  let ip := r0.takeWhile Char.isDigit
  let r1 := r0.dropWhile Char.isDigit
  let (fp, r2) :=
    match r1 with
    | '.' :: r => (r.takeWhile Char.isDigit, r.dropWhile Char.isDigit)
    | r => ([], r)
  if ip.isEmpty && fp.isEmpty then none
  else
    let (e, r3) := readExponent r2
    let m : ℚ := (digitsVal ip : ℚ) + (digitsVal fp : ℚ) / (10 : ℚ) ^ fp.length
    let v : ℚ := m * (10 : ℚ) ^ e
    some ((if neg then -v else v), r3)

/-- A reading of `QString::toFloat`: the whole text must be a number, else 0. -/
def refToFloat (t : List Char) : Flt :=
  if t = "nan".toList then Flt.nan
  else if t = "inf".toList ∨ t = "+inf".toList then Flt.pinf
  else if t = "-inf".toList then Flt.ninf
  else
    match readDecimal t with
    | some (q, []) => Flt.ofRat q
    | _ => Flt.fin 0

/-- A reading of `num_get` for `float`: zero is stored when no number is found. -/
def refNumGetFloat (input : List Char) : Flt × List Char × Bool :=
  match readDecimal input with
  | some (q, r) => (Flt.ofRat q, r, true)
  | none => (Flt.fin 0, input, false)

/-- A reading of `num_get` for `int`: zero is stored when no number is found,
the nearest bound when the number does not fit 32 bits. -/
def refNumGetInt (input : List Char) : Int × List Char × Bool :=
  let (neg, r0) := readSign input
  let ds := r0.takeWhile Char.isDigit
  if ds.isEmpty then (0, input, false)
  else
    let v : Int := if neg then -(digitsVal ds : Int) else (digitsVal ds : Int)
    let r := r0.dropWhile Char.isDigit
    if v < -2147483648 then (-2147483648, r, false)
    else if 2147483647 < v then (2147483647, r, false)
    else (v, r, true)

/-- The integer square root, bit by bit from bit `b - 1` down; `acc` holds the
bits found. -/
def isqrtAux : Nat → Nat → Nat → Nat
  | 0, _, acc => acc
  | b + 1, n, acc => isqrtAux b n (if (acc + 2 ^ b) * (acc + 2 ^ b) ≤ n then acc + 2 ^ b else acc)

/-- The integer square root of a number below `2 ^ 320`, which covers the sum
of three squares of finite floats scaled by `2 ^ 48`. -/
def isqrt (n : Nat) : Nat := isqrtAux 160 n 0

/-- A rational square root, rounded down to 24 binary places. -/
def sqrtQ (q : ℚ) : ℚ := (isqrt (Int.toNat ⌊q * 2 ^ 48⌋) : ℚ) / 2 ^ 24

/-- A reading of `QVector3D::length`. -/
def refLength (v : Vec3) : Flt :=
  match v.x, v.y, v.z with
  | Flt.fin a, Flt.fin b, Flt.fin c => Flt.ofRat (sqrtQ (a * a + b * b + c * c))
  | x, y, z => if x = Flt.nan ∨ y = Flt.nan ∨ z = Flt.nan then Flt.nan else Flt.pinf

/-- A reading of `std::pow` that covers finite bases and whole exponents. -/
def refPow (a b : Flt) : Flt :=
  match a, b with
  | Flt.fin x, Flt.fin y => if y = (⌊y⌋ : ℚ) ∧ (x ≠ 0 ∨ 0 ≤ y) then Flt.ofRat (x ^ ⌊y⌋) else Flt.nan
  | _, _ => Flt.nan

/-- Bhaskara's rational approximation of the sine of an angle in degrees;
exact at the multiples of 30 and 90. -/
def sinDeg (a : ℚ) : ℚ :=
  let r := a - 360 * (⌊a / 360⌋ : ℚ)
  let f := fun d : ℚ => 4 * d * (180 - d) / (40500 - d * (180 - d))
  if r ≤ 180 then f r else -f (r - 180)

/-- The matching approximation of the cosine. -/
def cosDeg (a : ℚ) : ℚ := sinDeg (a + 90)

/-- A 4x4 matrix of floats, by row and column. -/
structure Mat4 where
  entry : Fin 4 → Fin 4 → Flt

/-- Two matrices are equal when their sixteen entries are. -/
instance : DecidableEq Mat4 := fun a b =>
  decidable_of_iff (∀ i j, a.entry i j = b.entry i j)
    ⟨fun h => by cases a; cases b; congr; funext i j; exact h i j, fun h i j => by rw [h]⟩

/-- The 4x4 identity. -/
def Mat4.identity : Mat4 := ⟨fun i j => if i = j then Flt.fin 1 else Flt.fin 0⟩

/-- The 4x4 product; an identity operand is returned as the other operand, as
Qt does for matrices it knows to be the identity. -/
def Mat4.mul (a b : Mat4) : Mat4 :=
  if a = Mat4.identity then b
  else if b = Mat4.identity then a
  else
    ⟨fun i j =>
      Flt.add (Flt.add (Flt.add (Flt.mul (a.entry i 0) (b.entry 0 j))
        (Flt.mul (a.entry i 1) (b.entry 1 j))) (Flt.mul (a.entry i 2) (b.entry 2 j)))
        (Flt.mul (a.entry i 3) (b.entry 3 j))⟩

/-- The matrix of the translation by `(x, y, z)`. -/
def Mat4.translation (x y z : Flt) : Mat4 :=
  ⟨fun i j =>
    if j = 3 then (if i = 0 then x else if i = 1 then y else if i = 2 then z else Flt.fin 1)
    else if i = j then Flt.fin 1 else Flt.fin 0⟩

/-- The matrix of the rotation by `angle` degrees about the axis `(x, y, z)`,
for the two axes the renderer uses; any other axis gives the identity. -/
def Mat4.rotation (angle x y z : Flt) : Mat4 :=
  match angle with
  | Flt.fin a =>
    let c := Flt.fin (cosDeg a)
    let s := Flt.fin (sinDeg a)
    let n := Flt.neg s
    let o := Flt.fin 1
    let u := Flt.fin 0
    if x = o ∧ y = u ∧ z = u then
      ⟨fun i j => (([[o, u, u, u], [u, c, n, u], [u, s, c, u], [u, u, u, o]].getD i.val []).getD j.val u)⟩
    else if x = u ∧ y = o ∧ z = u then
      ⟨fun i j => (([[c, u, s, u], [u, o, u, u], [n, u, c, u], [u, u, u, o]].getD i.val []).getD j.val u)⟩
    else Mat4.identity
  | _ => ⟨fun _ _ => Flt.nan⟩

/-- One concrete platform: decimal text conversion, rational approximations of
the square root, sine and cosine, and zero in uninitialised locals. -/
def refPlatform : Platform where
  Mat := Mat4
  toFloat := refToFloat
  numGetFloat := refNumGetFloat
  numGetInt := refNumGetInt
  indeterminate := fun _ _ => Flt.fin 0
  length := refLength
  pow := refPow
  identity := Mat4.identity
  mul := Mat4.mul
  translation := Mat4.translation
  rotation := Mat4.rotation

/-- The renderer as its constructor leaves it. -/
def newRenderer (P : Platform) : PointCloudRenderer P where
  m_vertices := []
  m_projection := P.identity
  m_modelView := P.identity
  m_distance := Flt.fin 5
  m_rotation := ⟨Flt.fin 0, Flt.fin 0, Flt.fin 0⟩
  m_lastMousePos := (0, 0)
  m_pointSize := Flt.fin 2
  m_boundingBoxMin := ⟨Flt.fin 0, Flt.fin 0, Flt.fin 0⟩
  m_boundingBoxMax := ⟨Flt.fin 0, Flt.fin 0, Flt.fin 0⟩
  m_modelCenter := ⟨Flt.fin 0, Flt.fin 0, Flt.fin 0⟩

/-! ## Reference inputs and reference predicates -/

/-- The acceptance test of the simple format: the trimmed line is not empty,
does not begin with `#`, and has at least 3 parts. -/
def ptsAccepted (raw : List Char) : Bool :=
  !(trimmed raw).isEmpty && !((trimmed raw).head? == some '#') &&
    decide (3 ≤ (splitWs (trimmed raw)).length)

/-- The text of Scenario A. -/
def scenarioA : List Char := "1.0 2.0 3.0 255 0 0\n4.0 5.0 6.0\n".toList

/-- A `.pts` text of `n` lines `0 0 0`. -/
def zeroLines (n : Nat) : List Char := (List.replicate n "0 0 0\n".toList).flatten

/-- The bounding box bounds a vertex on an axis. -/
def boxHolds {P : Platform} (r : PointCloudRenderer P) (v : Vertex) (ax : Vec3.Axis) : Prop :=
  Flt.le (r.m_boundingBoxMin.get ax) (v.position.get ax) = true ∧
  Flt.le (v.position.get ax) (r.m_boundingBoxMax.get ax) = true

/-- Both bounds of an axis are the coordinate of some vertex, and the lower
bound is at most the upper bound. -/
def boxAttained {P : Platform} (r : PointCloudRenderer P) (ax : Vec3.Axis) : Prop :=
  (∃ v ∈ r.m_vertices, v.position.get ax = r.m_boundingBoxMin.get ax) ∧
  (∃ v ∈ r.m_vertices, v.position.get ax = r.m_boundingBoxMax.get ax) ∧
  Flt.le (r.m_boundingBoxMin.get ax) (r.m_boundingBoxMax.get ax) = true

/-- The bounding-box property with no condition on the coordinates: every
vertex is bounded on every axis, and with at least one vertex every bound is
attained. -/
def boxExact {P : Platform} (r : PointCloudRenderer P) : Prop :=
  (∀ v ∈ r.m_vertices, ∀ ax, boxHolds r v ax) ∧
  (r.m_vertices ≠ [] → ∀ ax, boxAttained r ax)

/-- The bounding-box property of the loaders. Every coordinate that is not
NaN is bounded. The lower bound of an axis is the coordinate of some vertex
exactly when some coordinate of the axis is at most `FLT_MAX`, that is
neither NaN nor plus infinity; the upper bound exactly when some coordinate
is at least `-FLT_MAX`, that is neither NaN nor minus infinity. The lower
bound is at most the upper bound exactly when some coordinate of the axis is
not NaN. On an axis with a finite coordinate both bounds are attained and
the lower is at most the upper. -/
def boxSound {P : Platform} (r : PointCloudRenderer P) : Prop :=
  (∀ v ∈ r.m_vertices, ∀ ax, (v.position.get ax).isNumber = true → boxHolds r v ax) ∧
  (∀ ax, (∃ v ∈ r.m_vertices, v.position.get ax = r.m_boundingBoxMin.get ax) ↔
    ∃ v ∈ r.m_vertices, Flt.le (v.position.get ax) Flt.max = true) ∧
  (∀ ax, (∃ v ∈ r.m_vertices, v.position.get ax = r.m_boundingBoxMax.get ax) ↔
    ∃ v ∈ r.m_vertices, Flt.le Flt.lowest (v.position.get ax) = true) ∧
  (∀ ax, Flt.le (r.m_boundingBoxMin.get ax) (r.m_boundingBoxMax.get ax) = true ↔
    ∃ v ∈ r.m_vertices, (v.position.get ax).isNumber = true) ∧
  (∀ ax, (∃ v ∈ r.m_vertices, (v.position.get ax).isFinite = true) → boxAttained r ax)

/-- The header of a little-endian binary file with one vertex of three floats. -/
def binaryHeaderXYZ : List Char :=
  ("ply\nformat binary_little_endian 1.0\nelement vertex 1\nproperty float x\n" ++
    "property float y\nproperty float z\nend_header\n").toList

/-- A binary file whose only vertex has the bytes `00 00 C0 7F`, a NaN, as `x`. -/
def plyNaN : List Char :=
  binaryHeaderXYZ ++ [0, 0, 192, 127, 0, 0, 0, 0, 0, 0, 0, 0].map Char.ofNat

/-- A binary file whose only vertex has the bytes `00 00 80 7F`, plus
infinity, as `x`. -/
def plyInf : List Char :=
  binaryHeaderXYZ ++ [0, 0, 128, 127, 0, 0, 0, 0, 0, 0, 0, 0].map Char.ofNat

/-- A `.pts` text whose first point has the `x` coordinate `nan`. -/
def nanThenOne : List Char := "nan 0 0\n1 0 0\n".toList

/-- The text of Scenario B. -/
def scenarioB : List Char :=
  ("ply\nformat ascii 1.0\nelement vertex 1\nproperty float x\nproperty float y\n" ++
    "property float z\nproperty uchar red\nproperty uchar green\nproperty uchar blue\n" ++
    "end_header\n0 0 0 128 128 128").toList

/-- The invariant of the reading loops on one axis: the two bounds are
numbers between `-FLT_MAX` and `FLT_MAX` on their outer side, they bound every
coordinate that is a number, each bound is either attained or still the
sentinel with no coordinate on its side, and both are the sentinels while
every coordinate is NaN. -/
def boxInv {P : Platform} (r : PointCloudRenderer P) (ax : Vec3.Axis) : Prop :=
  (r.m_boundingBoxMin.get ax).isNumber = true ∧
  (r.m_boundingBoxMax.get ax).isNumber = true ∧
  (∀ v ∈ r.m_vertices, (v.position.get ax).isNumber = true → boxHolds r v ax) ∧
  ((∃ v ∈ r.m_vertices, v.position.get ax = r.m_boundingBoxMin.get ax) ∨
    (r.m_boundingBoxMin.get ax = Flt.max ∧
      ∀ v ∈ r.m_vertices, Flt.le (v.position.get ax) Flt.max = false)) ∧
  ((∃ v ∈ r.m_vertices, v.position.get ax = r.m_boundingBoxMax.get ax) ∨
    (r.m_boundingBoxMax.get ax = Flt.lowest ∧
      ∀ v ∈ r.m_vertices, Flt.le Flt.lowest (v.position.get ax) = false)) ∧
  Flt.le (r.m_boundingBoxMin.get ax) Flt.max = true ∧
  Flt.le Flt.lowest (r.m_boundingBoxMax.get ax) = true ∧
  ((∀ v ∈ r.m_vertices, (v.position.get ax).isNumber = false) →
    r.m_boundingBoxMin.get ax = Flt.max ∧ r.m_boundingBoxMax.get ax = Flt.lowest)

/-- The words of a line: its maximal runs of characters that are not white space. -/
def lineWords (line : List Char) : List (List Char) := splitAux isspace line []

/-- The words a stream still yields. -/
def streamWords (f : IStream) : List (List Char) := if f.good then lineWords f.rest else []

/-- A line that ends the header: its first word is `end_header`. -/
def isEndHeader (line : List Char) : Bool :=
  (lineWords line).getD 0 [] == "end_header".toList

/-- A line that binds `name`: its first word is `property`, its second word
is one of `float`, `float32`, `uchar`, `uint8`, and its third word is `name`. -/
def bindsName (name line : List Char) : Bool :=
  (lineWords line).getD 0 [] == "property".toList &&
    ((lineWords line).getD 1 [] == "float".toList ||
      (lineWords line).getD 1 [] == "float32".toList ||
      (lineWords line).getD 1 [] == "uchar".toList ||
      (lineWords line).getD 1 [] == "uint8".toList) &&
    (lineWords line).getD 2 [] == name

/-- The file has a line that ends the header. -/
def hasEndHeader (bytes : List Char) : Bool := (readLines bytes).any isEndHeader

/-- The lines of the header, up to the line that ends it. -/
def headerLines (bytes : List Char) : List (List Char) :=
  (readLines bytes).takeWhile (fun l => !isEndHeader l)

/-- The header binds `name`. -/
def headerBinds (bytes name : List Char) : Bool := (headerLines bytes).any (bindsName name)

/-- The header loop over the lines of a file, as a list. -/
def headerFold (P : Platform) : List (List Char) → PlyHeader → PlyHeader
  | [], h => h
  | l :: ls, h =>
    if (headerLine P h l).headerEnd then headerLine P h l else headerFold P ls (headerLine P h l)

/-- An ASCII file whose header declares only `x` and `y`. -/
def plyNoZ : List Char :=
  ("ply\nformat ascii 1.0\nelement vertex 1\nproperty float x\nproperty float y\n" ++
    "end_header\n0 0\n").toList

/-- An ASCII file whose header declares `z` with the type `double`. -/
def plyZDouble : List Char :=
  ("ply\nformat ascii 1.0\nelement vertex 1\nproperty float x\nproperty float y\n" ++
    "property double z\nend_header\n0 0 0\n").toList

/-- An ASCII file that declares `x`, `y`, `z` and has no `end_header` line. -/
def plyNoEnd : List Char :=
  ("ply\nformat ascii 1.0\nelement vertex 1\nproperty float x\nproperty float y\n" ++
    "property float z\n0 0 0\n").toList

/-- A renderer that holds the cloud of Scenario A. -/
def loadedA : PointCloudRenderer refPlatform :=
  (loadPtsFile (newRenderer refPlatform) (some scenarioA)).2

/-- A little-endian binary file that declares 2 vertices of three floats, 24
bytes, and holds 16: the record (1, 2, 3) and four bytes of a second one. -/
def plyTruncated : List Char :=
  ("ply\nformat binary_little_endian 1.0\nelement vertex 2\nproperty float x\n" ++
    "property float y\nproperty float z\nend_header\n").toList ++
  [0, 0, 128, 63, 0, 0, 0, 64, 0, 0, 64, 64, 0, 0, 128, 63].map Char.ofNat

/-- An ASCII file whose header declares `int id` before `x`, `y`, `z`, with
the body line `7 1 2 3`. -/
def plyIntId : List Char :=
  ("ply\nformat ascii 1.0\nelement vertex 1\nproperty int id\nproperty float x\n" ++
    "property float y\nproperty float z\nend_header\n7 1 2 3\n").toList

/-- The point cloud store of a renderer: vertices and bounding box. -/
def cloudOf {P : Platform} (r : PointCloudRenderer P) : List Vertex × Vec3 × Vec3 :=
  (r.m_vertices, r.m_boundingBoxMin, r.m_boundingBoxMax)

/-- The model centre and the camera distance that frame a bounding box: the
midpoint of the box, and 1.5 times the length of its diagonal. -/
def framingOf (P : Platform) (mn mx : Vec3) : Vec3 × Flt :=
  (Vec3.divide (Vec3.add mn mx) (Flt.fin 2), Flt.mul (Flt.fin (3/2)) (P.length (Vec3.sub mx mn)))

/-- The view matrix of a camera distance, a rotation and a model centre:
`translate(0,0,-distance) . rotateX(rotation.x) . rotateY(rotation.y) .
translate(-modelCenter)`, the dot being the matrix product. -/
def viewMatrix (P : Platform) (distance : Flt) (rotation modelCenter : Vec3) : P.Mat :=
  P.mul
    (P.mul
      (P.mul (P.translation (Flt.fin 0) (Flt.fin 0) (Flt.neg distance))
        (P.rotation rotation.x (Flt.fin 1) (Flt.fin 0) (Flt.fin 0)))
      (P.rotation rotation.y (Flt.fin 0) (Flt.fin 1) (Flt.fin 0)))
    (P.translation (Flt.neg modelCenter.x) (Flt.neg modelCenter.y) (Flt.neg modelCenter.z))

/-- The view-matrix invariant: the stored model-view matrix is the view matrix
of the stored distance, rotation and model centre. -/
def viewValid {P : Platform} (s : PointCloudRenderer P) : Prop :=
  s.m_modelView = viewMatrix P s.m_distance s.m_rotation s.m_modelCenter

/-- The bytes of one binary record: 4 for each float field and 1 for each
uchar field of the field list. -/
def recordSize (ps : List PropertyInfo) : Nat :=
  4 * (ps.filter (fun p => p.type == PropertyType.PROP_FLOAT)).length +
    (ps.filter (fun p => p.type == PropertyType.PROP_UCHAR)).length

/-- A stream as reading lines leaves it: `failbit` is clear, and `eofbit` is
set only when nothing is left. -/
def streamOk (f : IStream) : Prop := f.fail = false ∧ (f.eof = true → f.rest = [])


/-! ## Snapshots -/

/-- The data members of `ViewportObject`; `m_display` is the pointer to the
renderer the snapshot was taken from, null or the one renderer of the window. -/
structure ViewportObject (P : Platform) where
  m_params : ViewportParameters P
  m_display : Option Unit
  m_name : List Char

/-- The constructor `ViewportObject(name)`; `persp` is the matrix that
`perspective(45, 1, 0.01, 1000)` makes of the identity. -/
def ViewportObject.create {P : Platform} (persp : P.Mat) (name : List Char) : ViewportObject P where
  m_display := none
  m_name := name
  m_params :=
    { projectionMatrix := persp
      modelViewMatrix := P.identity
      cameraDistance := Flt.fin 5
      rotation := ⟨Flt.fin 0, Flt.fin 0, Flt.fin 0⟩
      modelCenter := ⟨Flt.fin 0, Flt.fin 0, Flt.fin 0⟩
      pointSize := Flt.fin 2
      boundingBoxMin := ⟨Flt.fin 0, Flt.fin 0, Flt.fin 0⟩
      boundingBoxMax := ⟨Flt.fin 0, Flt.fin 0, Flt.fin 0⟩ }

/-- The method `ViewportObject::setParameters`. -/
def setParameters {P : Platform} (v : ViewportObject P) (params : ViewportParameters P) :
    ViewportObject P :=
  { v with m_params := params }

/-- The method `ViewportObject::setDisplay`. -/
def setDisplay {P : Platform} (v : ViewportObject P) (display : Option Unit) : ViewportObject P :=
  { v with m_display := display }

/-- The accessor `ViewportObject::getParameters`. -/
def getParameters {P : Platform} (v : ViewportObject P) : ViewportParameters P := v.m_params

/-- The accessor `ViewportObject::getName`. -/
def getName {P : Platform} (v : ViewportObject P) : List Char := v.m_name

/-- The method `ViewportObject::applyViewport`, which is `const`: the renderer
pointed to after the call, `none` for a null pointer. -/
def applyViewport {P : Platform} (v : ViewportObject P) (renderer : Option (PointCloudRenderer P)) :
    Option (PointCloudRenderer P) :=
  match renderer with
  | some r => some (setViewport r v.m_params)
  | none => none

/-! ## Operations on a renderer -/

/-- The method `initializeGL`, as far as the modelled state goes: `resetView`. -/
def initializeGL {P : Platform} (s : PointCloudRenderer P) : PointCloudRenderer P := resetView s

/-- An operation on the renderer. -/
inductive Op (P : Platform) where
  | loadPts (file : Option (List Char)) : Op P
  | loadPly (file : Option (List Char)) : Op P
  | setViewport (params : ViewportParameters P) : Op P
  | replay (v : ViewportObject P) : Op P
  | resetView : Op P
  | mousePress (pos : Int × Int) : Op P
  | mouseMove (left : Bool) (pos : Int × Int) : Op P
  | wheel (angleDeltaY : Int) : Op P

/-- The renderer after an operation. -/
def step {P : Platform} (s : PointCloudRenderer P) : Op P → PointCloudRenderer P
  | Op.loadPts file => (loadPtsFile s file).2
  | Op.loadPly file => (loadPlyFile s file).2
  | Op.setViewport params => setViewport s params
  | Op.replay v => (applyViewport v (some s)).getD s
  | Op.resetView => resetView s
  | Op.mousePress pos => mousePressEvent s pos
  | Op.mouseMove left pos => mouseMoveEvent s left pos
  | Op.wheel angleDeltaY => wheelEvent s angleDeltaY

/-- The renderer after a sequence of operations. -/
def run {P : Platform} (s : PointCloudRenderer P) (ops : List (Op P)) : PointCloudRenderer P :=
  ops.foldl step s

/-- The operations that mutate the viewport state: a load that succeeds,
`setViewport`, a replay, `resetView`, a move with the left button held, a
wheel event. -/
def Op.mutates {P : Platform} (s : PointCloudRenderer P) : Op P → Bool
  | Op.loadPts file => (loadPtsFile s file).1
  | Op.loadPly file => (loadPlyFile s file).1
  | Op.setViewport _ => true
  | Op.replay _ => true
  | Op.resetView => true
  | Op.mousePress _ => false
  | Op.mouseMove left _ => left
  | Op.wheel _ => true

/-- A distance in the range of the zoom clamp, `[0.1, 1000.0]`. -/
def inRange (d : Flt) : Prop :=
  Flt.le (Flt.fin (1/10)) d = true ∧ Flt.le d (Flt.fin 1000) = true

/-- An operation that brings no distance from outside the range: a load that
succeeds frames a bounding box whose 1.5-fold diagonal is in range, and
`setViewport` or a replay carries a camera distance in range. -/
def Op.keepsRange {P : Platform} (s : PointCloudRenderer P) : Op P → Prop
  | Op.loadPts file => (loadPtsFile s file).1 = true →
      inRange (framingOf P (loadPtsFile s file).2.m_boundingBoxMin
        (loadPtsFile s file).2.m_boundingBoxMax).2
  | Op.loadPly file => (loadPlyFile s file).1 = true →
      inRange (framingOf P (loadPlyFile s file).2.m_boundingBoxMin
        (loadPlyFile s file).2.m_boundingBoxMax).2
  | Op.setViewport params => inRange params.cameraDistance
  | Op.replay v => inRange v.m_params.cameraDistance
  | _ => True

/-- A sequence of operations each of which brings no distance from outside
the range, in the state it is applied to. -/
def keepsRangeAll {P : Platform} : PointCloudRenderer P → List (Op P) → Prop
  | _, [] => True
  | s, op :: ops => Op.keepsRange s op ∧ keepsRangeAll (step s op) ops

/-- The camera distance an operation assigns in the state `s`, if it assigns
one: a wheel event the distance of `s` times 0.9 to the power of the number
of notches, clamped into [0.1, 1000.0]; a load that succeeds 1.5 times the
diagonal of the new bounding box; `setViewport` and a replay the camera
distance they carry. A load that fails, `resetView`, a press and a move
assign none. -/
def Op.assigns {P : Platform} (s : PointCloudRenderer P) : Op P → Option Flt
  | Op.loadPts file =>
    if (loadPtsFile s file).1 = true then
      some (framingOf P (loadPtsFile s file).2.m_boundingBoxMin
        (loadPtsFile s file).2.m_boundingBoxMax).2
    else none
  | Op.loadPly file =>
    if (loadPlyFile s file).1 = true then
      some (framingOf P (loadPlyFile s file).2.m_boundingBoxMin
        (loadPlyFile s file).2.m_boundingBoxMax).2
    else none
  | Op.setViewport params => some params.cameraDistance
  | Op.replay v => some v.m_params.cameraDistance
  | Op.wheel angleDeltaY =>
    some (stdMax (Flt.fin (1/10))
      (stdMin (Flt.mul s.m_distance
        (P.pow (Flt.fin (9/10)) (Flt.div (Flt.fin (angleDeltaY : ℚ)) (Flt.fin 120))))
        (Flt.fin 1000)))
  | _ => none

/-- The camera distance last assigned along a sequence of operations that
starts in the state `s`; `d` when no operation assigns one. -/
def lastAssigned {P : Platform} : PointCloudRenderer P → Flt → List (Op P) → Flt
  | _, d, [] => d
  | s, d, op :: ops => lastAssigned (step s op) ((Op.assigns s op).getD d) ops

/-- The view fields of a renderer: model-view matrix, distance, rotation and
model centre. -/
def viewOf {P : Platform} (r : PointCloudRenderer P) : P.Mat × Flt × Vec3 × Vec3 :=
  (r.m_modelView, r.m_distance, r.m_rotation, r.m_modelCenter)

/-- The accessor `getBoundingBoxSize`. -/
def getBoundingBoxSize {P : Platform} (s : PointCloudRenderer P) : Vec3 :=
  Vec3.sub s.m_boundingBoxMax s.m_boundingBoxMin

/-! ## The main window -/

/-- The data members of `MainWindow` that the actions touch, with the static
counter `s_viewportIndex` of `mainwindow.cpp`, an `unsigned` of 32 bits.
`m_dbTreeWidget` holds the texts of the items of the tree, in order; item `k`
carries the pointer to the `k`-th snapshot of `m_viewportList`. -/
structure MainWindow (P : Platform) where
  m_renderer : PointCloudRenderer P
  m_viewportList : List (ViewportObject P)
  m_dbTreeWidget : List (List Char)
  s_viewportIndex : Nat

/-- A fresh session: the renderer as constructed and initialised, no
snapshot, the counter at 0. -/
def MainWindow.create (P : Platform) : MainWindow P where
  m_renderer := initializeGL (newRenderer P)
  m_viewportList := []
  m_dbTreeWidget := []
  s_viewportIndex := 0

/-- The name `QString("Viewport #%1").arg(n)`. -/
def viewportName (n : Nat) : List Char := "Viewport #".toList ++ (Nat.repr n).toList

/-- The method `updateTreeWidget`. -/
def updateTreeWidget {P : Platform} (w : MainWindow P) (viewport : ViewportObject P) :
    MainWindow P :=
  { w with m_dbTreeWidget := w.m_dbTreeWidget ++ [getName viewport] }

/-- The method `addToDB`. -/
def addToDB {P : Platform} (w : MainWindow P) (viewport : ViewportObject P) : MainWindow P :=
  updateTreeWidget { w with m_viewportList := w.m_viewportList ++ [viewport] } viewport

/-- The pre-increment `++s_viewportIndex` on an `unsigned`. -/
def incrViewportIndex {P : Platform} (w : MainWindow P) : MainWindow P :=
  { w with s_viewportIndex := (w.s_viewportIndex + 1) % 2 ^ 32 }

/-- The slot `doActionSaveViewportAsObject`. -/
def doActionSaveViewportAsObject {P : Platform} (persp : P.Mat) (w : MainWindow P) :
    MainWindow P :=
  if getPointCount w.m_renderer = 0 then w
  else
    let w1 := incrViewportIndex w
    let v0 : ViewportObject P := ViewportObject.create persp (viewportName w1.s_viewportIndex)
    let v1 := setParameters v0 (getViewportParameters w1.m_renderer)
    let v2 := setDisplay v1 (some ())
    addToDB w1 v2

/-- The slot `doActionSaveViewportWithUserCoords`; `x`, `y`, `z` are what the
three input dialogs return, `none` when the dialog is cancelled, else a
value between -10000 and 10000. -/
def doActionSaveViewportWithUserCoords {P : Platform} (persp : P.Mat) (w : MainWindow P)
    (x y z : Option ℚ) : MainWindow P :=
  if getPointCount w.m_renderer = 0 then w
  else
    let params := getViewportParameters w.m_renderer
    let bboxSize := getBoundingBoxSize w.m_renderer
    let sceneSize := P.length bboxSize
    if Flt.le sceneSize (Flt.fin 0) then w
    else
      match x with
      | none => w
      | some xv =>
        match y with
        | none => w
        | some yv =>
          match z with
          | none => w
          | some zv =>
            let params1 := { params with modelCenter := ⟨Flt.ofRat xv, Flt.ofRat yv, Flt.ofRat zv⟩ }
            let params2 := { params1 with cameraDistance := Flt.mul sceneSize (Flt.fin (3/2)) }
            let w1 := { w with m_renderer := setViewport w.m_renderer params2 }
            let w2 := incrViewportIndex w1
            let v0 : ViewportObject P :=
              ViewportObject.create persp (viewportName w2.s_viewportIndex)
            let v1 := setParameters v0 params2
            let v2 := setDisplay v1 (some ())
            addToDB w2 v2

/-- The slot `onTreeWidgetItemDoubleClicked` on item `k` of the tree. -/
def onTreeWidgetItemDoubleClicked {P : Platform} (w : MainWindow P) (k : Nat) : MainWindow P :=
  match w.m_viewportList[k]? with
  | some viewport =>
    { w with m_renderer := (applyViewport viewport (some w.m_renderer)).getD w.m_renderer }
  | none => w

/-- What the file dialog of `openPointCloudFile` returns: nothing, a name that
ends in `.pts` or in `.ply` with what opening the file gives, or another name. -/
inductive FileChoice where
  | cancelled : FileChoice
  | pts (file : Option (List Char)) : FileChoice
  | ply (file : Option (List Char)) : FileChoice
  | unsupported : FileChoice

/-- The slot `openPointCloudFile`. -/
def openPointCloudFile {P : Platform} (w : MainWindow P) : FileChoice → MainWindow P
  | FileChoice.cancelled => w
  | FileChoice.pts file => { w with m_renderer := (loadPtsFile w.m_renderer file).2 }
  | FileChoice.ply file => { w with m_renderer := (loadPlyFile w.m_renderer file).2 }
  | FileChoice.unsupported => w

/-- The slot `MainWindow::resetView`. -/
def MainWindow.resetView {P : Platform} (w : MainWindow P) : MainWindow P :=
  { w with m_renderer := PCV.resetView w.m_renderer }

/-- An action on the main window: a slot, or an operation on its renderer. -/
inductive Action (P : Platform) where
  | openFile (choice : FileChoice) : Action P
  | resetView : Action P
  | saveAsObject : Action P
  | saveWithUserCoords (x y z : Option ℚ) : Action P
  | doubleClick (k : Nat) : Action P
  | render (op : Op P) : Action P

/-- The main window after an action. -/
def act {P : Platform} (persp : P.Mat) (w : MainWindow P) : Action P → MainWindow P
  | Action.openFile choice => openPointCloudFile w choice
  | Action.resetView => MainWindow.resetView w
  | Action.saveAsObject => doActionSaveViewportAsObject persp w
  | Action.saveWithUserCoords x y z => doActionSaveViewportWithUserCoords persp w x y z
  | Action.doubleClick k => onTreeWidgetItemDoubleClicked w k
  | Action.render op => { w with m_renderer := step w.m_renderer op }

/-- The main window after a sequence of actions. -/
def session {P : Platform} (persp : P.Mat) (w : MainWindow P) (acts : List (Action P)) :
    MainWindow P :=
  acts.foldl (act persp) w

/-- A snapshot that is a valid viewport state: its stored model-view matrix is
the view matrix of its stored distance, rotation and model centre. -/
def snapshotValid {P : Platform} (v : ViewportObject P) : Prop :=
  v.m_params.modelViewMatrix
    = viewMatrix P v.m_params.cameraDistance v.m_params.rotation v.m_params.modelCenter

/-- The invariant of the registry: the counter is the number of snapshots
modulo `2 ^ 32`, the `k`-th snapshot, counted from 1, is named after `k`
modulo `2 ^ 32`, and the tree shows the names in the order of the list. -/
def registryInv {P : Platform} (w : MainWindow P) : Prop :=
  w.s_viewportIndex = w.m_viewportList.length % 2 ^ 32 ∧
  (∀ k v, w.m_viewportList[k]? = some v → v.m_name = viewportName ((k + 1) % 2 ^ 32)) ∧
  w.m_dbTreeWidget = w.m_viewportList.map (fun v => v.m_name)

/-- A `.pts` text with a single point. -/
def onePoint : List Char := "1 2 3\n".toList

/-- A `.pts` text with two points 1000 apart. -/
def widePoints : List Char := "0 0 0\n1000 0 0\n".toList

/-- The parameters of a renderer with the camera distance replaced. -/
def withDistance {P : Platform} (s : PointCloudRenderer P) (d : Flt) : ViewportParameters P :=
  { getViewportParameters s with cameraDistance := d }

/-- The main window after a sequence of actions on a fresh session. -/
def freshSession {P : Platform} (persp : P.Mat) (acts : List (Action P)) : MainWindow P :=
  session persp (MainWindow.create P) acts

/-- A session on the reference platform: a capture with no cloud loaded,
Scenario A opened, a capture, a capture with user coordinates cancelled at
the second dialog, and a capture with the user coordinates (0, 0, 0). -/
def twoCaptures : List (Action refPlatform) :=
  [Action.saveAsObject, Action.openFile (FileChoice.pts (some scenarioA)), Action.saveAsObject,
   Action.saveWithUserCoords (some 1) none none,
   Action.saveWithUserCoords (some 0) (some 0) (some 0)]

/-- A session on the reference platform: Scenario A opened, then `2 ^ 32`
captures. -/
def manyCaptures : List (Action refPlatform) :=
  Action.openFile (FileChoice.pts (some scenarioA)) :: List.replicate 4294967296 Action.saveAsObject

/-- A session on the reference platform: Scenario A opened, then a capture
with the user coordinates (0, 0, 0). -/
def userCapture : List (Action refPlatform) :=
  [Action.openFile (FileChoice.pts (some scenarioA)),
   Action.saveWithUserCoords (some 0) (some 0) (some 0)]

/-- An ASCII file that declares 2 vertices of three floats and holds one
line, `1 2 3`, with no line end after it. -/
def plyShort : List Char :=
  ("ply\nformat ascii 1.0\nelement vertex 2\nproperty float x\nproperty float y\n" ++
    "property float z\nend_header\n1 2 3").toList

end PCV

namespace PCV

/-! # Theorems -/

/-! ## Reading the simple format -/

theorem readLinesAux_acc (s cur : List Char) :
    readLinesAux s cur =
      match s.dropWhile (fun c => c != '\n') with
      | [] => if (cur.reverse ++ s).isEmpty then [] else [cur.reverse ++ s]
      | _ :: r => (cur.reverse ++ s.takeWhile (fun c => c != '\n')) :: readLinesAux r [] := by
  induction s generalizing cur with
  | nil => simp [readLinesAux]
  | cons c cs ih =>
    by_cases hc : c = '\n'
    · subst hc
      simp [readLinesAux, List.dropWhile_cons, List.takeWhile_cons]
    · rw [readLinesAux, if_neg hc, ih]
      have hb : (c != '\n') = true := by simpa using hc
      simp only [List.dropWhile_cons, List.takeWhile_cons, hb, if_true]
      cases List.dropWhile (fun c => c != '\n') cs <;> simp

theorem readLines_nil : readLines [] = [] := rfl

theorem readLines_of_no_newline (s : List Char)
    (h : s.dropWhile (fun c => c != '\n') = []) (hs : s ≠ []) : readLines s = [s] := by
  unfold readLines
  rw [readLinesAux_acc, h]
  simp [hs]

theorem readLines_of_newline (s : List Char) (c : Char) (r : List Char)
    (h : s.dropWhile (fun c => c != '\n') = c :: r) :
    readLines s = s.takeWhile (fun c => c != '\n') :: readLines r := by
  unfold readLines
  rw [readLinesAux_acc, h]
  simp

theorem frameLoaded_vertices {P : Platform} (s : PointCloudRenderer P) :
    (frameLoaded s).m_vertices = s.m_vertices := rfl

theorem frameLoaded_boundingBoxMin {P : Platform} (s : PointCloudRenderer P) :
    (frameLoaded s).m_boundingBoxMin = s.m_boundingBoxMin := rfl

theorem frameLoaded_boundingBoxMax {P : Platform} (s : PointCloudRenderer P) :
    (frameLoaded s).m_boundingBoxMax = s.m_boundingBoxMax := rfl

theorem ptsLine_of_accepted {P : Platform} (s : PointCloudRenderer P) (raw : List Char)
    (h : ptsAccepted raw = true) :
    ptsLine s raw = addVertex s (ptsVertex P (splitWs (trimmed raw))) := by
  simp only [ptsAccepted, Bool.and_eq_true, Bool.not_eq_true', decide_eq_true_eq] at h
  obtain ⟨⟨h1, h2⟩, h3⟩ := h
  simp [ptsLine, h1, h2, h3]

theorem ptsLine_of_not_accepted {P : Platform} (s : PointCloudRenderer P) (raw : List Char)
    (h : ptsAccepted raw = false) : ptsLine s raw = s := by
  unfold ptsLine
  by_cases h1 : (trimmed raw).isEmpty = true
  · simp [h1]
  · by_cases h2 : ((trimmed raw).head? == some '#') = true
    · simp [h2]
    · have h3 : ¬ 3 ≤ (splitWs (trimmed raw)).length := by
        intro h3
        simp [ptsAccepted, h1, h2, h3] at h
      simp [h1, h2, h3]

/-- The vertices after the reading loop: those before it, then one per
accepted line, in line order. -/
theorem foldl_ptsLine_vertices {P : Platform} (lines : List (List Char))
    (s : PointCloudRenderer P) :
    (lines.foldl ptsLine s).m_vertices =
      s.m_vertices ++ (lines.filter ptsAccepted).map
        (fun raw => ptsVertex P (splitWs (trimmed raw))) := by
  induction lines generalizing s with
  | nil => simp
  | cons l ls ih =>
    rw [List.foldl_cons, ih]
    cases h : ptsAccepted l
    · rw [ptsLine_of_not_accepted s l h]
      simp [List.filter_cons, h]
    · rw [ptsLine_of_accepted s l h]
      simp [List.filter_cons, h, addVertex]

theorem loadPtsFile_vertices {P : Platform} (s : PointCloudRenderer P) (text : List Char) :
    (loadPtsFile s (some text)).2.m_vertices =
      ((readLines text).filter ptsAccepted).map
        (fun raw => ptsVertex P (splitWs (trimmed raw))) := by
  simp [loadPtsFile, frameLoaded_vertices, foldl_ptsLine_vertices, clearCloud]

/-- The point count after `loadPtsFile` is the number of accepted lines,
converted to `int`. -/
theorem loadPtsFile_count {P : Platform} (s : PointCloudRenderer P) (text : List Char) :
    getPointCount (loadPtsFile s (some text)).2
      = toInt32 ((readLines text).filter ptsAccepted).length := by
  simp [getPointCount, loadPtsFile_vertices]

theorem toInt32_of_lt (n : Nat) (h : n < 2 ^ 31) : toInt32 n = (n : Int) := by
  unfold toInt32
  rw [Nat.mod_eq_of_lt (by omega)]
  push_cast
  ring

theorem readLines_zeroLines (n : Nat) :
    readLines (zeroLines n) = List.replicate n "0 0 0".toList := by
  induction n with
  | zero => rfl
  | succ n ih =>
    have h : zeroLines (n + 1) = "0 0 0\n".toList ++ zeroLines n := by
      simp [zeroLines, List.replicate_succ]
    rw [h, readLines_of_newline _ '\n' (zeroLines n) (by simp [List.dropWhile]), ih,
      List.replicate_succ]
    simp [List.takeWhile]

/-- C1 (amended). Every `.pts` text that can be opened loads with success;
when fewer than `2 ^ 31` of its lines are, once trimmed, not empty, not
begun by `#` and split into at least 3 parts, the point count equals the
number of these lines; the vertices are built from these lines in line
order. -/
theorem C1_pts_count_is_accepted_lines (P : Platform) (s : PointCloudRenderer P)
    (text : List Char) (hlt : ((readLines text).filter ptsAccepted).length < 2 ^ 31) :
    (loadPtsFile s (some text)).1 = true ∧
    getPointCount (loadPtsFile s (some text)).2
      = (((readLines text).filter ptsAccepted).length : Int) ∧
    (loadPtsFile s (some text)).2.m_vertices
      = ((readLines text).filter ptsAccepted).map
          (fun raw => ptsVertex P (splitWs (trimmed raw))) := by
  refine ⟨rfl, ?_, loadPtsFile_vertices s text⟩
  rw [loadPtsFile_count, toInt32_of_lt _ hlt]

/-- Witness of C1. Scenario A has 2 accepted lines and loads with count 2. -/
theorem C1_pts_count_is_accepted_lines_witness :
    ((readLines scenarioA).filter ptsAccepted).length < 2 ^ 31 ∧
    ((readLines scenarioA).filter ptsAccepted).length = 2 ∧
    (loadPtsFile (newRenderer refPlatform) (some scenarioA)).1 = true ∧
    getPointCount (loadPtsFile (newRenderer refPlatform) (some scenarioA)).2 = 2 := by
  have hlen : ((readLines scenarioA).filter ptsAccepted).length = 2 := by decide!
  have h := C1_pts_count_is_accepted_lines refPlatform (newRenderer refPlatform) scenarioA
    (by rw [hlen]; norm_num)
  refine ⟨by rw [hlen]; norm_num, hlen, h.1, ?_⟩
  rw [h.2.1, hlen]
  rfl

/-- Counterexample to C1 as stated. A text of `2 ^ 31` lines `0 0 0` has
2147483648 accepted lines and as many vertices after the load, while the
point count, an `int`, is -2147483648. -/
theorem C1_counterexample :
    ((readLines (zeroLines 2147483648)).filter ptsAccepted).length = 2147483648 ∧
    (loadPtsFile (newRenderer refPlatform) (some (zeroLines 2147483648))).1 = true ∧
    (loadPtsFile (newRenderer refPlatform) (some (zeroLines 2147483648))).2.m_vertices.length
      = 2147483648 ∧
    getPointCount (loadPtsFile (newRenderer refPlatform) (some (zeroLines 2147483648))).2
      = -2147483648 ∧
    getPointCount (loadPtsFile (newRenderer refPlatform) (some (zeroLines 2147483648))).2
      ≠ (((readLines (zeroLines 2147483648)).filter ptsAccepted).length : Int) := by
  have hacc : ptsAccepted "0 0 0".toList = true := by decide
  have hlen : ((readLines (zeroLines 2147483648)).filter ptsAccepted).length = 2147483648 := by
    rw [readLines_zeroLines, List.filter_replicate, if_pos hacc, List.length_replicate]
  have hcount : getPointCount
      (loadPtsFile (newRenderer refPlatform) (some (zeroLines 2147483648))).2 = -2147483648 := by
    rw [loadPtsFile_count, hlen]
    decide
  refine ⟨hlen, rfl, ?_, hcount, ?_⟩
  · rw [loadPtsFile_vertices, List.length_map, hlen]
  · rw [hcount, hlen]
    decide


/-- C7. For the `j`-th accepted line of a `.pts` text, the `j`-th vertex has
as position the numeric value of parts 1 to 3, and as colour parts 4 to 6
divided by 255 when the line has at least 6 parts, white when it has 3, 4 or
5 parts. -/
theorem C7_pts_position_and_color (P : Platform) (s : PointCloudRenderer P)
    (text : List Char) (j : Nat) (raw : List Char)
    (h : ((readLines text).filter ptsAccepted)[j]? = some raw) :
    ∃ v, (loadPtsFile s (some text)).2.m_vertices[j]? = some v ∧
      v.position = ⟨P.toFloat ((splitWs (trimmed raw)).getD 0 []),
                    P.toFloat ((splitWs (trimmed raw)).getD 1 []),
                    P.toFloat ((splitWs (trimmed raw)).getD 2 [])⟩ ∧
      (6 ≤ (splitWs (trimmed raw)).length →
        v.color = ⟨Flt.div (P.toFloat ((splitWs (trimmed raw)).getD 3 [])) (Flt.fin 255),
                   Flt.div (P.toFloat ((splitWs (trimmed raw)).getD 4 [])) (Flt.fin 255),
                   Flt.div (P.toFloat ((splitWs (trimmed raw)).getD 5 [])) (Flt.fin 255)⟩) ∧
      ((splitWs (trimmed raw)).length = 3 ∨ (splitWs (trimmed raw)).length = 4 ∨
          (splitWs (trimmed raw)).length = 5 →
        v.color = ⟨Flt.fin 1, Flt.fin 1, Flt.fin 1⟩) := by
  refine ⟨ptsVertex P (splitWs (trimmed raw)), ?_, rfl, ?_, ?_⟩
  · rw [loadPtsFile_vertices, List.getElem?_map, h]
    rfl
  · intro h6
    simp [ptsVertex, h6]
  · intro h345
    have : ¬ 6 ≤ (splitWs (trimmed raw)).length := by omega
    simp [ptsVertex, this]

/-- Witness of C7. Scenario A, first line: the theorem applies at `j = 0`; the two vertices
have colours (1,0,0) and (1,1,1) and the bounds are (1,2,3) and (4,5,6). -/
theorem C7_pts_position_and_color_witness :
    ((readLines scenarioA).filter ptsAccepted)[0]? = some "1.0 2.0 3.0 255 0 0".toList ∧
    (∃ v, (loadPtsFile (newRenderer refPlatform) (some scenarioA)).2.m_vertices[0]? = some v ∧
      v.position = ⟨Flt.fin 1, Flt.fin 2, Flt.fin 3⟩ ∧
      v.color = ⟨Flt.fin 1, Flt.fin 0, Flt.fin 0⟩) ∧
    (loadPtsFile (newRenderer refPlatform) (some scenarioA)).2.m_vertices
      = [⟨⟨Flt.fin 1, Flt.fin 2, Flt.fin 3⟩, ⟨Flt.fin 1, Flt.fin 0, Flt.fin 0⟩⟩,
         ⟨⟨Flt.fin 4, Flt.fin 5, Flt.fin 6⟩, ⟨Flt.fin 1, Flt.fin 1, Flt.fin 1⟩⟩] ∧
    (loadPtsFile (newRenderer refPlatform) (some scenarioA)).2.m_boundingBoxMin
      = ⟨Flt.fin 1, Flt.fin 2, Flt.fin 3⟩ ∧
    (loadPtsFile (newRenderer refPlatform) (some scenarioA)).2.m_boundingBoxMax
      = ⟨Flt.fin 4, Flt.fin 5, Flt.fin 6⟩ := by
  have h0 : ((readLines scenarioA).filter ptsAccepted)[0]? = some "1.0 2.0 3.0 255 0 0".toList := by
    decide!
  refine ⟨h0, ?_, by decide!, by decide!, by decide!⟩
  obtain ⟨v, hv, hp, hc, _⟩ :=
    C7_pts_position_and_color refPlatform (newRenderer refPlatform) scenarioA 0 _ h0
  refine ⟨v, hv, ?_, ?_⟩
  · rw [hp]; decide!
  · rw [hc (by decide!)]; decide!


/-! ## Order on floats -/

theorem Flt.le_refl_of_isNumber (a : Flt) (h : a.isNumber = true) : Flt.le a a = true := by
  cases a <;> simp_all [Flt.le, Flt.isNumber]

theorem Flt.le_trans (a b c : Flt) (h1 : Flt.le a b = true) (h2 : Flt.le b c = true) :
    Flt.le a c = true := by
  cases a <;> cases b <;> cases c <;> simp_all [Flt.le]
  exact h1.trans h2

theorem Flt.isNumber_of_lt (a b : Flt) (h : Flt.lt a b = true) :
    a.isNumber = true ∧ b.isNumber = true := by
  cases a <;> cases b <;> simp_all [Flt.lt, Flt.isNumber]

theorem Flt.le_of_lt (a b : Flt) (h : Flt.lt a b = true) : Flt.le a b = true := by
  cases a <;> cases b <;> simp_all [Flt.lt, Flt.le]
  exact h.le

theorem Flt.le_of_not_lt (a b : Flt) (ha : a.isNumber = true) (hb : b.isNumber = true)
    (h : Flt.lt a b = false) : Flt.le b a = true := by
  cases a <;> cases b <;> simp_all [Flt.lt, Flt.le, Flt.isNumber]

theorem Flt.eq_of_le_of_not_lt (a b : Flt) (h1 : Flt.le a b = true) (h2 : Flt.lt a b = false) :
    a = b := by
  cases a <;> cases b <;> simp_all [Flt.lt, Flt.le]
  exact le_antisymm h1 h2

theorem Flt.isNumber_of_le (a b : Flt) (h : Flt.le a b = true) :
    a.isNumber = true ∧ b.isNumber = true := by
  cases a <;> cases b <;> simp_all [Flt.le, Flt.isNumber]

theorem Flt.le_of_isFinite (x : Flt) (h : x.isFinite = true) :
    Flt.le x Flt.max = true ∧ Flt.le Flt.lowest x = true := by
  cases x <;> simp_all [Flt.isFinite, Flt.le, Flt.max, Flt.lowest]

theorem stdMin_isNumber (a x : Flt) (h : a.isNumber = true) : (stdMin a x).isNumber = true := by
  unfold stdMin
  by_cases hlt : Flt.lt x a = true
  · simp [hlt, (Flt.isNumber_of_lt x a hlt).1]
  · simp [hlt, h]

theorem stdMax_isNumber (a x : Flt) (h : a.isNumber = true) : (stdMax a x).isNumber = true := by
  unfold stdMax
  by_cases hlt : Flt.lt a x = true
  · simp [hlt, (Flt.isNumber_of_lt a x hlt).2]
  · simp [hlt, h]

theorem stdMin_le_left (a x : Flt) (h : a.isNumber = true) : Flt.le (stdMin a x) a = true := by
  unfold stdMin
  by_cases hlt : Flt.lt x a = true
  · simp [hlt, Flt.le_of_lt x a hlt]
  · simp [hlt, Flt.le_refl_of_isNumber a h]

theorem stdMin_le_right (a x : Flt) (h : a.isNumber = true) (hx : x.isNumber = true) :
    Flt.le (stdMin a x) x = true := by
  unfold stdMin
  by_cases hlt : Flt.lt x a = true
  · simp [hlt, Flt.le_refl_of_isNumber x hx]
  · simp only [hlt]
    exact Flt.le_of_not_lt x a hx h (by simpa using hlt)

theorem le_stdMax_left (a x : Flt) (h : a.isNumber = true) : Flt.le a (stdMax a x) = true := by
  unfold stdMax
  by_cases hlt : Flt.lt a x = true
  · simp [hlt, Flt.le_of_lt a x hlt]
  · simp [hlt, Flt.le_refl_of_isNumber a h]

theorem le_stdMax_right (a x : Flt) (h : a.isNumber = true) (hx : x.isNumber = true) :
    Flt.le x (stdMax a x) = true := by
  unfold stdMax
  by_cases hlt : Flt.lt a x = true
  · simp [hlt, Flt.le_refl_of_isNumber x hx]
  · simp only [hlt]
    exact Flt.le_of_not_lt a x h hx (by simpa using hlt)

theorem stdMin_eq_or (a x : Flt) : stdMin a x = a ∨ stdMin a x = x := by
  unfold stdMin; split <;> simp

theorem stdMax_eq_or (a x : Flt) : stdMax a x = a ∨ stdMax a x = x := by
  unfold stdMax; split <;> simp

theorem stdMin_max_of_isFinite (x : Flt) (h : x.isFinite = true) : stdMin Flt.max x = x := by
  cases x <;> simp_all [stdMin, Flt.lt, Flt.isFinite, Flt.max]
  intro h2
  exact le_antisymm h2 h.2

theorem stdMax_lowest_of_isFinite (x : Flt) (h : x.isFinite = true) :
    stdMax Flt.lowest x = x := by
  cases x <;> simp_all [stdMax, Flt.lt, Flt.isFinite, Flt.lowest]
  intro h2
  exact le_antisymm h.1 h2

theorem Flt.isNumber_of_isFinite (x : Flt) (h : x.isFinite = true) : x.isNumber = true := by
  cases x <;> simp_all [Flt.isFinite, Flt.isNumber]


/-! ## The bounding box of a load -/

theorem addVertex_min_get {P : Platform} (s : PointCloudRenderer P) (v : Vertex)
    (ax : Vec3.Axis) :
    (addVertex s v).m_boundingBoxMin.get ax
      = stdMin (s.m_boundingBoxMin.get ax) (v.position.get ax) := by
  cases ax <;> rfl

theorem addVertex_max_get {P : Platform} (s : PointCloudRenderer P) (v : Vertex)
    (ax : Vec3.Axis) :
    (addVertex s v).m_boundingBoxMax.get ax
      = stdMax (s.m_boundingBoxMax.get ax) (v.position.get ax) := by
  cases ax <;> rfl

theorem addVertex_vertices {P : Platform} (s : PointCloudRenderer P) (v : Vertex) :
    (addVertex s v).m_vertices = s.m_vertices ++ [v] := rfl

theorem boxInv_clearCloud {P : Platform} (s : PointCloudRenderer P) (ax : Vec3.Axis) :
    boxInv (clearCloud s) ax := by
  have e1 : (clearCloud s).m_boundingBoxMin.get ax = Flt.max := by cases ax <;> rfl
  have e2 : (clearCloud s).m_boundingBoxMax.get ax = Flt.lowest := by cases ax <;> rfl
  have hv : ∀ v, v ∉ (clearCloud s).m_vertices := fun v hv => by simp [clearCloud] at hv
  refine ⟨by rw [e1]; rfl, by rw [e2]; rfl, fun v h => absurd h (hv v),
    Or.inr ⟨e1, fun v h => absurd h (hv v)⟩, Or.inr ⟨e2, fun v h => absurd h (hv v)⟩,
    ?_, ?_, fun _ => ⟨e1, e2⟩⟩
  · rw [e1]; simp [Flt.le, Flt.max]
  · rw [e2]; simp [Flt.le, Flt.lowest]

theorem boxInv_addVertex {P : Platform} (s : PointCloudRenderer P) (v : Vertex)
    (ax : Vec3.Axis) (h : boxInv s ax) : boxInv (addVertex s v) ax := by
  obtain ⟨hmin, hmax, hb, hlo, hhi, hle1, hle2, hnan⟩ := h
  refine ⟨?_, ?_, ?_, ?_, ?_, ?_, ?_, ?_⟩
  · rw [addVertex_min_get]; exact stdMin_isNumber _ _ hmin
  · rw [addVertex_max_get]; exact stdMax_isNumber _ _ hmax
  · intro w hw hnum
    rw [addVertex_vertices, List.mem_append, List.mem_singleton] at hw
    unfold boxHolds
    rw [addVertex_min_get, addVertex_max_get]
    rcases hw with hw | rfl
    · obtain ⟨h1, h2⟩ := hb w hw hnum
      exact ⟨Flt.le_trans _ _ _ (stdMin_le_left _ _ hmin) h1,
        Flt.le_trans _ _ _ h2 (le_stdMax_left _ _ hmax)⟩
    · exact ⟨stdMin_le_right _ _ hmin hnum, le_stdMax_right _ _ hmax hnum⟩
  · rw [addVertex_min_get, addVertex_vertices]
    unfold stdMin
    by_cases hlt : Flt.lt (v.position.get ax) (s.m_boundingBoxMin.get ax) = true
    · rw [if_pos hlt]
      exact Or.inl ⟨v, by simp, rfl⟩
    · rw [if_neg hlt]
      rcases hlo with ⟨w, hw, e⟩ | ⟨e, hall⟩
      · exact Or.inl ⟨w, by simp [hw], e⟩
      · by_cases hp : Flt.le (v.position.get ax) Flt.max = true
        · left
          refine ⟨v, by simp, ?_⟩
          rw [e] at hlt ⊢
          exact Flt.eq_of_le_of_not_lt _ _ hp (by simpa using hlt)
        · right
          refine ⟨e, ?_⟩
          intro w hw
          rw [List.mem_append, List.mem_singleton] at hw
          rcases hw with hw | rfl
          · exact hall w hw
          · simpa using hp
  · rw [addVertex_max_get, addVertex_vertices]
    unfold stdMax
    by_cases hlt : Flt.lt (s.m_boundingBoxMax.get ax) (v.position.get ax) = true
    · rw [if_pos hlt]
      exact Or.inl ⟨v, by simp, rfl⟩
    · rw [if_neg hlt]
      rcases hhi with ⟨w, hw, e⟩ | ⟨e, hall⟩
      · exact Or.inl ⟨w, by simp [hw], e⟩
      · by_cases hp : Flt.le Flt.lowest (v.position.get ax) = true
        · left
          refine ⟨v, by simp, ?_⟩
          rw [e] at hlt ⊢
          exact (Flt.eq_of_le_of_not_lt _ _ hp (by simpa using hlt)).symm
        · right
          refine ⟨e, ?_⟩
          intro w hw
          rw [List.mem_append, List.mem_singleton] at hw
          rcases hw with hw | rfl
          · exact hall w hw
          · simpa using hp
  · rw [addVertex_min_get]
    exact Flt.le_trans _ _ _ (stdMin_le_left _ _ hmin) hle1
  · rw [addVertex_max_get]
    exact Flt.le_trans _ _ _ hle2 (le_stdMax_left _ _ hmax)
  · intro hall
    rw [addVertex_vertices] at hall
    have hold := hnan (fun w hw => hall w (by simp [hw]))
    have hv : (v.position.get ax).isNumber = false := hall v (by simp)
    rw [addVertex_min_get, addVertex_max_get, hold.1, hold.2]
    constructor
    · unfold stdMin
      rw [if_neg]
      intro hlt
      rw [(Flt.isNumber_of_lt _ _ hlt).1] at hv
      exact Bool.noConfusion hv
    · unfold stdMax
      rw [if_neg]
      intro hlt
      rw [(Flt.isNumber_of_lt _ _ hlt).2] at hv
      exact Bool.noConfusion hv

theorem boxInv_ptsLine {P : Platform} (s : PointCloudRenderer P) (raw : List Char)
    (ax : Vec3.Axis) (h : boxInv s ax) : boxInv (ptsLine s raw) ax := by
  cases hacc : ptsAccepted raw
  · rw [ptsLine_of_not_accepted s raw hacc]; exact h
  · rw [ptsLine_of_accepted s raw hacc]; exact boxInv_addVertex s _ ax h

theorem boxInv_foldl_ptsLine {P : Platform} (lines : List (List Char))
    (s : PointCloudRenderer P) (ax : Vec3.Axis) (h : boxInv s ax) :
    boxInv (lines.foldl ptsLine s) ax := by
  induction lines generalizing s with
  | nil => exact h
  | cons l ls ih => exact ih _ (boxInv_ptsLine s l ax h)

theorem boxInv_asciiBody {P : Platform} (hd : PlyHeader) (k i : Nat) (f : IStream)
    (line : List Char) (s : PointCloudRenderer P) (ax : Vec3.Axis) (h : boxInv s ax) :
    boxInv (asciiBody hd k i f line s) ax := by
  induction k generalizing i f line s with
  | zero => exact h
  | succ k ih =>
    simp only [asciiBody]
    exact ih _ _ _ _ (boxInv_addVertex s _ ax h)

theorem boxInv_binaryBody {P : Platform} (hd : PlyHeader) (k i : Nat) (f : IStream)
    (s : PointCloudRenderer P) (ax : Vec3.Axis) (h : boxInv s ax) :
    boxInv (binaryBody hd k i f s).2 ax := by
  induction k generalizing i f s with
  | zero => exact h
  | succ k ih =>
    simp only [binaryBody]
    split
    · exact h
    · exact ih _ _ _ (boxInv_addVertex s _ ax h)

theorem boxInv_frameLoaded {P : Platform} (s : PointCloudRenderer P) (ax : Vec3.Axis)
    (h : boxInv s ax) : boxInv (frameLoaded s) ax := h

theorem boxSound_of_boxInv {P : Platform} (r : PointCloudRenderer P)
    (h : ∀ ax, boxInv r ax) : boxSound r := by
  have hminIff : ∀ ax, (∃ v ∈ r.m_vertices, v.position.get ax = r.m_boundingBoxMin.get ax) ↔
      ∃ v ∈ r.m_vertices, Flt.le (v.position.get ax) Flt.max = true := by
    intro ax
    obtain ⟨_, _, _, hlo, _, hle1, _, _⟩ := h ax
    constructor
    · rintro ⟨v, hv, e⟩
      exact ⟨v, hv, by rw [e]; exact hle1⟩
    · rintro ⟨v, hv, hle⟩
      rcases hlo with hatt | ⟨_, hall⟩
      · exact hatt
      · rw [hall v hv] at hle
        exact Bool.noConfusion hle
  have hmaxIff : ∀ ax, (∃ v ∈ r.m_vertices, v.position.get ax = r.m_boundingBoxMax.get ax) ↔
      ∃ v ∈ r.m_vertices, Flt.le Flt.lowest (v.position.get ax) = true := by
    intro ax
    obtain ⟨_, _, _, _, hhi, _, hle2, _⟩ := h ax
    constructor
    · rintro ⟨v, hv, e⟩
      exact ⟨v, hv, by rw [e]; exact hle2⟩
    · rintro ⟨v, hv, hle⟩
      rcases hhi with hatt | ⟨_, hall⟩
      · exact hatt
      · rw [hall v hv] at hle
        exact Bool.noConfusion hle
  have hleIff : ∀ ax, Flt.le (r.m_boundingBoxMin.get ax) (r.m_boundingBoxMax.get ax) = true ↔
      ∃ v ∈ r.m_vertices, (v.position.get ax).isNumber = true := by
    intro ax
    obtain ⟨_, _, hb, _, _, _, _, hnan⟩ := h ax
    constructor
    · intro hle
      by_contra hno
      have hall : ∀ v ∈ r.m_vertices, (v.position.get ax).isNumber = false := by
        intro v hv
        cases hn : (v.position.get ax).isNumber
        · rfl
        · exact absurd ⟨v, hv, hn⟩ hno
      obtain ⟨e1, e2⟩ := hnan hall
      rw [e1, e2] at hle
      simp only [Flt.le, Flt.max, Flt.lowest, FLT_MAX, decide_eq_true_eq] at hle
      norm_num at hle
    · rintro ⟨v, hv, hn⟩
      exact Flt.le_trans _ _ _ (hb v hv hn).1 (hb v hv hn).2
  refine ⟨fun v hv ax hnum => (h ax).2.2.1 v hv hnum, hminIff, hmaxIff, hleIff, ?_⟩
  rintro ax ⟨v, hv, hfin⟩
  exact ⟨(hminIff ax).mpr ⟨v, hv, (Flt.le_of_isFinite _ hfin).1⟩,
    (hmaxIff ax).mpr ⟨v, hv, (Flt.le_of_isFinite _ hfin).2⟩,
    (hleIff ax).mpr ⟨v, hv, Flt.isNumber_of_isFinite _ hfin⟩⟩

theorem boxInv_loadPtsFile {P : Platform} (s : PointCloudRenderer P) (text : List Char)
    (ax : Vec3.Axis) : boxInv (loadPtsFile s (some text)).2 ax :=
  boxInv_frameLoaded _ ax (boxInv_foldl_ptsLine _ _ ax (boxInv_clearCloud s ax))


theorem boxInv_loadPlyFile {P : Platform} (s : PointCloudRenderer P) (bytes : List Char)
    (ax : Vec3.Axis) : boxInv (loadPlyFile s (some bytes)).2 ax := by
  simp only [loadPlyFile]
  split
  · exact boxInv_clearCloud s ax
  · split
    · exact boxInv_frameLoaded _ ax (boxInv_asciiBody _ _ _ _ _ _ ax (boxInv_clearCloud s ax))
    · have hb := boxInv_binaryBody (readPlyHeader P bytes).1
        (readPlyHeader P bytes).1.numVertices.toNat 0 (readPlyHeader P bytes).2.1
        (clearCloud s) ax (boxInv_clearCloud s ax)
      split
      · rename_i heq; rw [heq] at hb; exact hb
      · rename_i heq; rw [heq] at hb; exact boxInv_frameLoaded _ ax hb

/-- C2 (amended). After a successful `loadPtsFile` or `loadPlyFile`: every
vertex coordinate that is not NaN lies between the bounds of its axis; the
lower bound of an axis is attained by a loaded vertex exactly when some
coordinate of the axis is neither NaN nor plus infinity, the upper bound
exactly when some coordinate is neither NaN nor minus infinity; min <= max
holds on an axis exactly when some coordinate of the axis is not NaN; so on
every axis with at least one finite coordinate both bounds are attained and
min <= max. -/
theorem C2_bounding_box_sound (P : Platform) (s : PointCloudRenderer P)
    (file : Option (List Char)) :
    ((loadPtsFile s file).1 = true → boxSound (loadPtsFile s file).2) ∧
    ((loadPlyFile s file).1 = true → boxSound (loadPlyFile s file).2) := by
  cases file with
  | none => exact ⟨fun h => by simp [loadPtsFile] at h, fun h => by simp [loadPlyFile] at h⟩
  | some bytes =>
    exact ⟨fun _ => boxSound_of_boxInv _ (boxInv_loadPtsFile s bytes),
      fun _ => boxSound_of_boxInv _ (boxInv_loadPlyFile s bytes)⟩

/-- Witness of C2. Scenarios A and B and the text `nanThenOne` load with
success, so the bounding-box property holds of the results; in Scenario A the
bounds are (1,2,3) and (4,5,6), and in `nanThenOne`, whose first `x` is NaN,
both bounds of the x axis are 1, the `x` of the second vertex. -/
theorem C2_bounding_box_sound_witness :
    (loadPtsFile (newRenderer refPlatform) (some scenarioA)).1 = true ∧
    (loadPlyFile (newRenderer refPlatform) (some scenarioB)).1 = true ∧
    boxSound (loadPtsFile (newRenderer refPlatform) (some scenarioA)).2 ∧
    boxSound (loadPlyFile (newRenderer refPlatform) (some scenarioB)).2 ∧
    (loadPtsFile (newRenderer refPlatform) (some scenarioA)).2.m_boundingBoxMin
      = ⟨Flt.fin 1, Flt.fin 2, Flt.fin 3⟩ ∧
    (loadPtsFile (newRenderer refPlatform) (some scenarioA)).2.m_boundingBoxMax
      = ⟨Flt.fin 4, Flt.fin 5, Flt.fin 6⟩ ∧
    boxSound (loadPtsFile (newRenderer refPlatform) (some nanThenOne)).2 ∧
    (loadPtsFile (newRenderer refPlatform) (some nanThenOne)).2.m_vertices.map
        (fun v => v.position.x) = [Flt.nan, Flt.fin 1] ∧
    (loadPtsFile (newRenderer refPlatform) (some nanThenOne)).2.m_boundingBoxMin.x = Flt.fin 1 ∧
    (loadPtsFile (newRenderer refPlatform) (some nanThenOne)).2.m_boundingBoxMax.x = Flt.fin 1 :=
  ⟨by decide!, by decide!,
    (C2_bounding_box_sound refPlatform (newRenderer refPlatform) (some scenarioA)).1 (by decide!),
    (C2_bounding_box_sound refPlatform (newRenderer refPlatform) (some scenarioB)).2 (by decide!),
    by decide!, by decide!,
    (C2_bounding_box_sound refPlatform (newRenderer refPlatform) (some nanThenOne)).1 (by decide!),
    by decide!, by decide!, by decide!⟩

/-- Counterexample to C2 as stated, on non-finite coordinates. The binary file `plyNaN`
loads with success and its vertex, whose `x` is NaN, is not bounded on the
x axis; the binary file `plyInf` loads with success, holds one vertex, and
its lower bound on the x axis, `FLT_MAX`, is the `x` of no vertex. -/
theorem C2_counterexample :
    ((loadPlyFile (newRenderer refPlatform) (some plyNaN)).1 = true ∧
      ¬ boxExact (loadPlyFile (newRenderer refPlatform) (some plyNaN)).2) ∧
    ((loadPlyFile (newRenderer refPlatform) (some plyInf)).1 = true ∧
      ¬ boxExact (loadPlyFile (newRenderer refPlatform) (some plyInf)).2) := by
  have e1 : (loadPlyFile (newRenderer refPlatform) (some plyNaN)).2.m_vertices
      = [⟨⟨Flt.nan, Flt.fin 0, Flt.fin 0⟩, ⟨Flt.fin 1, Flt.fin 1, Flt.fin 1⟩⟩] := by decide!
  have e2 : (loadPlyFile (newRenderer refPlatform) (some plyInf)).2.m_vertices
      = [⟨⟨Flt.pinf, Flt.fin 0, Flt.fin 0⟩, ⟨Flt.fin 1, Flt.fin 1, Flt.fin 1⟩⟩] := by decide!
  have m2 : (loadPlyFile (newRenderer refPlatform) (some plyInf)).2.m_boundingBoxMin
      = ⟨Flt.max, Flt.fin 0, Flt.fin 0⟩ := by decide!
  refine ⟨⟨by decide!, ?_⟩, ⟨by decide!, ?_⟩⟩
  · intro h
    have hb := (h.1 _ (by rw [e1]; exact List.mem_singleton.mpr rfl) Vec3.Axis.X).2
    simp [Vec3.get, Flt.le] at hb
  · intro h
    obtain ⟨v, hv, hx⟩ := (h.2 (by rw [e2]; simp) Vec3.Axis.X).1
    rw [e2, List.mem_singleton] at hv
    rw [m2, hv] at hx
    simp [Vec3.get, Flt.max] at hx

/-! ## Words and lines -/

theorem splitAux_acc (p : Char → Bool) (l cur : List Char) (hcur : cur ≠ []) :
    splitAux p l cur = (cur.reverse ++ l.takeWhile (fun c => !p c)) ::
      splitAux p (l.dropWhile (fun c => !p c)) [] := by
  induction l generalizing cur with
  | nil => simp [splitAux, hcur]
  | cons c cs ih =>
    cases hp : p c
    · rw [splitAux]
      simp only [hp, Bool.false_eq_true, if_false]
      rw [ih (c :: cur) (by simp)]
      simp [List.takeWhile_cons, List.dropWhile_cons, hp]
    · rw [splitAux]
      simp [hp, hcur, List.takeWhile_cons, List.dropWhile_cons, splitAux]

theorem splitAux_dropWhile (p : Char → Bool) (l : List Char) :
    splitAux p (l.dropWhile p) [] = splitAux p l [] := by
  induction l with
  | nil => rfl
  | cons c cs ih =>
    cases hp : p c
    · simp [List.dropWhile_cons, hp]
    · simp [List.dropWhile_cons, hp, splitAux, ih]

theorem splitAux_of_head (p : Char → Bool) (c : Char) (cs : List Char) (hp : p c = false) :
    splitAux p (c :: cs) [] = (c :: cs).takeWhile (fun c => !p c) ::
      splitAux p ((c :: cs).dropWhile (fun c => !p c)) [] := by
  rw [splitAux]
  simp only [hp, Bool.false_eq_true, if_false]
  rw [splitAux_acc p cs [c] (by simp)]
  simp [List.takeWhile_cons, List.dropWhile_cons, hp]

theorem head_dropWhile_isspace (l : List Char) (c : Char) (cs : List Char)
    (h : l.dropWhile isspace = c :: cs) : isspace c = false := by
  induction l with
  | nil => simp at h
  | cons a as ih =>
    cases hp : isspace a
    · simp [List.dropWhile_cons, hp] at h
      rw [← h.1]; exact hp
    · simp [List.dropWhile_cons, hp] at h
      exact ih h

/-- A word extraction stores the first word the stream yields, if any. -/
theorem extractWord_fst (f : IStream) :
    (extractWord f).1.getD [] = (streamWords f).getD 0 [] := by
  unfold extractWord streamWords lineWords
  cases hg : f.good
  · simp
  · simp only [Bool.not_true, Bool.false_eq_true, if_false, if_true]
    cases hr : f.rest.dropWhile isspace with
    | nil =>
      have : splitAux isspace f.rest [] = [] := by
        rw [← splitAux_dropWhile, hr]; rfl
      simp [this]
    | cons c cs =>
      have hc := head_dropWhile_isspace _ _ _ hr
      have : splitAux isspace f.rest [] = (c :: cs).takeWhile (fun c => !isspace c) ::
          splitAux isspace ((c :: cs).dropWhile (fun c => !isspace c)) [] := by
        rw [← splitAux_dropWhile, hr, splitAux_of_head _ _ _ hc]
      simp [this]

/-- A word extraction leaves a stream that yields the other words. -/
theorem extractWord_snd (f : IStream) :
    streamWords (extractWord f).2 = (streamWords f).tail := by
  unfold extractWord streamWords lineWords
  cases hg : f.good
  · simp [IStream.good]
  · simp only [Bool.not_true, Bool.false_eq_true, if_false, if_true]
    cases hr : f.rest.dropWhile isspace with
    | nil =>
      have : splitAux isspace f.rest [] = [] := by
        rw [← splitAux_dropWhile, hr]; rfl
      simp [this, IStream.good]
    | cons c cs =>
      have hc := head_dropWhile_isspace _ _ _ hr
      have : splitAux isspace f.rest [] = (c :: cs).takeWhile (fun c => !isspace c) ::
          splitAux isspace ((c :: cs).dropWhile (fun c => !isspace c)) [] := by
        rw [← splitAux_dropWhile, hr, splitAux_of_head _ _ _ hc]
      rw [this]
      simp only [List.isEmpty_cons, Bool.false_eq_true, if_false, List.tail_cons, IStream.good]
      cases hd : List.dropWhile (fun c => !isspace c) (c :: cs) with
      | nil => simp [splitAux]
      | cons d ds => simp

theorem streamWords_open (line : List Char) : streamWords (IStream.open line) = lineWords line := by
  simp [streamWords, IStream.open, IStream.good]


/-! ## The header loop -/

theorem headerLine_keyword (line : List Char) :
    (extractWord (IStream.open line)).1.getD [] = (lineWords line).getD 0 [] := by
  rw [extractWord_fst, streamWords_open]

theorem headerLine_type (line : List Char) :
    (extractWord (extractWord (IStream.open line)).2).1.getD [] = (lineWords line).getD 1 [] := by
  rw [extractWord_fst, extractWord_snd, streamWords_open]
  cases lineWords line <;> simp

theorem headerLine_name (line : List Char) :
    (extractWord (extractWord (extractWord (IStream.open line)).2).2).1.getD []
      = (lineWords line).getD 2 [] := by
  rw [extractWord_fst, extractWord_snd, extractWord_snd, streamWords_open]
  rcases lineWords line with _ | ⟨a, _ | ⟨b, l⟩⟩ <;> simp

/-- The header loop body, with the words it extracts named by their place in the line. -/
theorem headerLine_eq (P : Platform) (h : PlyHeader) (line : List Char) :
    headerLine P h line =
      if (lineWords line).getD 0 [] = "end_header".toList then { h with headerEnd := true }
      else if (lineWords line).getD 0 [] = "format".toList then
        headerFormat h ((lineWords line).getD 1 [])
      else if (lineWords line).getD 0 [] = "element".toList ∧
          containsWord "vertex".toList line = true then
        { h with numVertices :=
            ((extractInt P (extractWord (extractWord (IStream.open line)).2).2).1.getD
              h.numVertices) }
      else if (lineWords line).getD 0 [] = "property".toList then
        headerProperty h ((lineWords line).getD 1 []) ((lineWords line).getD 2 [])
      else h := by
  simp only [headerLine, headerLine_keyword, headerLine_type, headerLine_name]

theorem headerFormat_headerEnd (h : PlyHeader) (w : List Char) :
    (headerFormat h w).headerEnd = h.headerEnd := by
  unfold headerFormat; split_ifs <;> rfl

theorem headerProperty_headerEnd (h : PlyHeader) (t n : List Char) :
    (headerProperty h t n).headerEnd = h.headerEnd := by
  simp only [headerProperty]; split_ifs <;> rfl

/-- The loop body sets `headerEnd` exactly on a line that ends the header. -/
theorem headerLine_headerEnd (P : Platform) (h : PlyHeader) (line : List Char) :
    (headerLine P h line).headerEnd = (isEndHeader line || h.headerEnd) := by
  rw [headerLine_eq]
  unfold isEndHeader
  by_cases h0 : (lineWords line).getD 0 [] = "end_header".toList
  · rw [if_pos h0, h0]; simp
  · have hb : ((lineWords line).getD 0 [] == "end_header".toList) = false := by simpa using h0
    rw [if_neg h0, hb]
    split_ifs <;> simp [headerFormat_headerEnd, headerProperty_headerEnd]

theorem propertyTypeOf_ne_none (t : List Char) (h : propertyTypeOf t ≠ PropertyType.PROP_NONE) :
    (t == "float".toList || t == "float32".toList || t == "uchar".toList ||
      t == "uint8".toList) = true := by
  unfold propertyTypeOf at h
  split_ifs at h with h1 h2
  · rcases h1 with h1 | h1 <;> simp [h1]
  · rcases h2 with h2 | h2 <;> simp [h2]
  · exact absurd rfl h


theorem headerProperty_xIndex (h : PlyHeader) (t n : List Char)
    (hne : (headerProperty h t n).xIndex ≠ h.xIndex) :
    propertyTypeOf t ≠ PropertyType.PROP_NONE ∧ n = "x".toList := by
  simp only [headerProperty] at hne
  split_ifs at hne <;> first | exact absurd rfl hne | exact ⟨by assumption, by assumption⟩

theorem headerProperty_yIndex (h : PlyHeader) (t n : List Char)
    (hne : (headerProperty h t n).yIndex ≠ h.yIndex) :
    propertyTypeOf t ≠ PropertyType.PROP_NONE ∧ n = "y".toList := by
  simp only [headerProperty] at hne
  split_ifs at hne <;> first | exact absurd rfl hne | exact ⟨by assumption, by assumption⟩

theorem headerProperty_zIndex (h : PlyHeader) (t n : List Char)
    (hne : (headerProperty h t n).zIndex ≠ h.zIndex) :
    propertyTypeOf t ≠ PropertyType.PROP_NONE ∧ n = "z".toList := by
  simp only [headerProperty] at hne
  split_ifs at hne <;> first | exact absurd rfl hne | exact ⟨by assumption, by assumption⟩

theorem bindsName_of_property (name line : List Char)
    (h0 : (lineWords line).getD 0 [] = "property".toList)
    (h1 : propertyTypeOf ((lineWords line).getD 1 []) ≠ PropertyType.PROP_NONE)
    (h2 : (lineWords line).getD 2 [] = name) : bindsName name line = true := by
  unfold bindsName
  rw [propertyTypeOf_ne_none _ h1, h0, h2]
  simp

/-- A pass of the header loop changes an index only on a line that binds its name. -/
theorem headerLine_index (P : Platform) (g : PlyHeader → Int) (name : List Char)
    (hf : ∀ h w, g (headerFormat h w) = g h)
    (hn : ∀ h n, g { h with numVertices := n } = g h)
    (he : ∀ h, g { h with headerEnd := true } = g h)
    (hp : ∀ h t n, g (headerProperty h t n) ≠ g h →
      propertyTypeOf t ≠ PropertyType.PROP_NONE ∧ n = name)
    (h : PlyHeader) (line : List Char) (hne : g (headerLine P h line) ≠ g h) :
    bindsName name line = true := by
  rw [headerLine_eq] at hne
  split_ifs at hne with h1 h2 h3 h4
  · exact absurd (he h) hne
  · exact absurd (hf h _) hne
  · exact absurd (hn h _) hne
  · obtain ⟨ht, hname⟩ := hp h _ _ hne
    exact bindsName_of_property name line h4 ht hname
  · exact absurd rfl hne

theorem headerFormat_indices (h : PlyHeader) (w : List Char) :
    (headerFormat h w).xIndex = h.xIndex ∧ (headerFormat h w).yIndex = h.yIndex ∧
    (headerFormat h w).zIndex = h.zIndex := by
  unfold headerFormat; split_ifs <;> exact ⟨rfl, rfl, rfl⟩

theorem headerLine_xIndex (P : Platform) (h : PlyHeader) (line : List Char)
    (hne : (headerLine P h line).xIndex ≠ h.xIndex) : bindsName "x".toList line = true :=
  headerLine_index P (fun h => h.xIndex) "x".toList (fun h w => (headerFormat_indices h w).1)
    (fun _ _ => rfl) (fun _ => rfl) headerProperty_xIndex h line hne

theorem headerLine_yIndex (P : Platform) (h : PlyHeader) (line : List Char)
    (hne : (headerLine P h line).yIndex ≠ h.yIndex) : bindsName "y".toList line = true :=
  headerLine_index P (fun h => h.yIndex) "y".toList (fun h w => (headerFormat_indices h w).2.1)
    (fun _ _ => rfl) (fun _ => rfl) headerProperty_yIndex h line hne

theorem headerLine_zIndex (P : Platform) (h : PlyHeader) (line : List Char)
    (hne : (headerLine P h line).zIndex ≠ h.zIndex) : bindsName "z".toList line = true :=
  headerLine_index P (fun h => h.zIndex) "z".toList (fun h w => (headerFormat_indices h w).2.2)
    (fun _ _ => rfl) (fun _ => rfl) headerProperty_zIndex h line hne

theorem not_isEndHeader_of_bindsName (name line : List Char) (h : bindsName name line = true) :
    isEndHeader line = false := by
  unfold bindsName at h
  unfold isEndHeader
  simp only [Bool.and_eq_true, beq_iff_eq] at h
  rw [h.1.1]
  decide

/-- An index the header loop leaves set was set before the loop or is bound by
a line of the header. -/
theorem headerFold_index (P : Platform) (g : PlyHeader → Int) (name : List Char)
    (hstep : ∀ h line, g (headerLine P h line) ≠ g h → bindsName name line = true)
    (ls : List (List Char)) (h : PlyHeader) (hset : g (headerFold P ls h) ≠ -1) :
    g h ≠ -1 ∨ (ls.takeWhile (fun l => !isEndHeader l)).any (bindsName name) = true := by
  induction ls generalizing h with
  | nil => exact Or.inl hset
  | cons l ls ih =>
    simp only [headerFold] at hset
    by_cases hchg : g (headerLine P h l) = g h
    · split_ifs at hset with hend
      · left; rw [← hchg]; exact hset
      · rcases ih _ hset with h1 | h1
        · left; rw [← hchg]; exact h1
        · right
          have hl : isEndHeader l = false := by
            rw [headerLine_headerEnd] at hend
            cases hh : isEndHeader l
            · rfl
            · exact absurd (by simp [hh]) hend
          simp [List.takeWhile_cons, hl]
          right; simpa using h1
    · right
      have hb := hstep h l hchg
      simp [List.takeWhile_cons, not_isEndHeader_of_bindsName name l hb, hb]

/-- When the header loop leaves `headerEnd` set, it was set before the loop or
some line ends the header. -/
theorem headerFold_headerEnd (P : Platform) (ls : List (List Char)) (h : PlyHeader)
    (hset : (headerFold P ls h).headerEnd = true) :
    h.headerEnd = true ∨ ls.any isEndHeader = true := by
  induction ls generalizing h with
  | nil => exact Or.inl hset
  | cons l ls ih =>
    simp only [headerFold] at hset
    split_ifs at hset with hend
    · rw [headerLine_headerEnd] at hend
      rcases Bool.or_eq_true _ _ ▸ hend with h1 | h1
      · right; simp [h1]
      · left; exact h1
    · rcases ih _ hset with h1 | h1
      · exact absurd h1 hend
      · right; simp [h1]


theorem takeWhile_eq_self_of_dropWhile_nil (p : Char → Bool) (s : List Char)
    (h : s.dropWhile p = []) : s.takeWhile p = s := by
  have := List.takeWhile_append_dropWhile p s
  rw [h, List.append_nil] at this
  exact this

theorem length_lt_of_dropWhile_cons (p : Char → Bool) (s : List Char) (c : Char)
    (r : List Char) (h : s.dropWhile p = c :: r) : r.length < s.length := by
  have := congrArg List.length (List.takeWhile_append_dropWhile p s)
  rw [h, List.length_append, List.length_cons] at this
  omega

theorem readHeader_at_eof (P : Platform) (n : Nat) (line : List Char) (h : PlyHeader)
    (b : Bool) :
    readHeader P (n + 1) ⟨[], true, b⟩ line h = (h, ⟨[], true, true⟩, line) := by
  simp [readHeader, getline, IStream.good]

/-- With fuel beyond the length of the stream, the header loop is the header
loop over the lines of the stream: the fuel never runs out. -/
theorem readHeader_eq_headerFold (P : Platform) (fuel : Nat) (rest line : List Char)
    (h : PlyHeader) (hfuel : rest.length + 2 ≤ fuel) :
    (readHeader P fuel ⟨rest, false, false⟩ line h).1 = headerFold P (readLines rest) h := by
  induction fuel generalizing rest line h with
  | zero => omega
  | succ n ih =>
    rw [readHeader]
    simp only [getline, IStream.good, Bool.not_false, Bool.and_self, Bool.not_true,
      Bool.false_eq_true, if_false]
    cases hd : rest.dropWhile (fun c => c != '\n') with
    | nil =>
      simp only
      have ht := takeWhile_eq_self_of_dropWhile_nil _ _ hd
      rw [ht]
      by_cases hr : rest = []
      · subst hr; simp [readLines_nil, headerFold]
      · rw [readLines_of_no_newline rest hd hr]
        have : rest.isEmpty = false := by cases rest <;> simp_all
        simp only [this, Bool.false_eq_true, if_false, headerFold]
        split_ifs
        · rfl
        · obtain ⟨m, rfl⟩ : ∃ m, n = m + 1 := ⟨n - 1, by omega⟩
          rw [readHeader_at_eof]
    | cons c r =>
      simp only
      rw [readLines_of_newline rest c r hd]
      simp only [Bool.false_eq_true, if_false, headerFold]
      split_ifs
      · rfl
      · have := length_lt_of_dropWhile_cons _ _ _ _ hd
        exact ih r _ _ (by omega)

theorem readPlyHeader_fst (P : Platform) (bytes : List Char) :
    (readPlyHeader P bytes).1 = headerFold P (readLines bytes) PlyHeader.init := by
  unfold readPlyHeader IStream.open
  exact readHeader_eq_headerFold P _ bytes [] _ (le_refl _)


/-- A load that succeeds has left the header loop through `end_header` with
the three position indices set. -/
theorem loadPlyFile_success_header {P : Platform} (s : PointCloudRenderer P)
    (bytes : List Char) (h : (loadPlyFile s (some bytes)).1 = true) :
    (readPlyHeader P bytes).1.headerEnd = true ∧ (readPlyHeader P bytes).1.xIndex ≠ -1 ∧
    (readPlyHeader P bytes).1.yIndex ≠ -1 ∧ (readPlyHeader P bytes).1.zIndex ≠ -1 := by
  by_cases hc : (!(readPlyHeader P bytes).1.headerEnd || (readPlyHeader P bytes).1.xIndex == -1
      || (readPlyHeader P bytes).1.yIndex == -1 || (readPlyHeader P bytes).1.zIndex == -1) = true
  · simp [loadPlyFile, hc] at h
  · simp only [Bool.or_eq_true, Bool.not_eq_true', beq_iff_eq, not_or] at hc
    exact ⟨by simpa using hc.1.1.1, hc.1.1.2, hc.1.2, hc.2⟩

/-- When the test after the header loop lets the file through, the file has
an `end_header` line and its header binds `x`, `y` and `z`. -/
theorem header_binds_of_accepted (P : Platform) (bytes : List Char)
    (hc : ¬ (!(readPlyHeader P bytes).1.headerEnd || (readPlyHeader P bytes).1.xIndex == -1
      || (readPlyHeader P bytes).1.yIndex == -1 || (readPlyHeader P bytes).1.zIndex == -1) = true) :
    (hasEndHeader bytes && headerBinds bytes "x".toList && headerBinds bytes "y".toList
      && headerBinds bytes "z".toList) = true := by
  simp only [Bool.or_eq_true, Bool.not_eq_true', beq_iff_eq, not_or] at hc
  obtain ⟨⟨⟨he, hx⟩, hy⟩, hz⟩ := hc
  have he : (readPlyHeader P bytes).1.headerEnd = true := by simpa using he
  rw [readPlyHeader_fst] at he hx hy hz
  have h1 : hasEndHeader bytes = true := by
    rcases headerFold_headerEnd P _ _ he with h1 | h1
    · simp [PlyHeader.init] at h1
    · exact h1
  have h2 : headerBinds bytes "x".toList = true := by
    rcases headerFold_index P (fun h => h.xIndex) _ (headerLine_xIndex P) _ _ hx with h2 | h2
    · simp [PlyHeader.init] at h2
    · exact h2
  have h3 : headerBinds bytes "y".toList = true := by
    rcases headerFold_index P (fun h => h.yIndex) _ (headerLine_yIndex P) _ _ hy with h3 | h3
    · simp [PlyHeader.init] at h3
    · exact h3
  have h4 : headerBinds bytes "z".toList = true := by
    rcases headerFold_index P (fun h => h.zIndex) _ (headerLine_zIndex P) _ _ hz with h4 | h4
    · simp [PlyHeader.init] at h4
    · exact h4
  rw [h1, h2, h3, h4]; rfl

/-- A file whose header is rejected leaves the renderer with no vertices and
the bounding box at its sentinels, whatever it held before. -/
theorem loadPlyFile_of_invalid_header {P : Platform} (s : PointCloudRenderer P)
    (bytes : List Char)
    (h : (hasEndHeader bytes && headerBinds bytes "x".toList && headerBinds bytes "y".toList
      && headerBinds bytes "z".toList) = false) :
    loadPlyFile s (some bytes) = (false, clearCloud s) := by
  by_cases hc : (!(readPlyHeader P bytes).1.headerEnd || (readPlyHeader P bytes).1.xIndex == -1
      || (readPlyHeader P bytes).1.yIndex == -1 || (readPlyHeader P bytes).1.zIndex == -1) = true
  · simp [loadPlyFile, hc]
  · rw [header_binds_of_accepted P bytes hc] at h
    exact absurd h (by decide)

/-- C4. `loadPlyFile` fails on every file whose header, up to `end_header`,
does not bind all of `x`, `y` and `z` through `property` lines of a
recognized type, and on every file with no `end_header` line. -/
theorem C4_missing_position_fields_rejected (P : Platform) (s : PointCloudRenderer P)
    (bytes : List Char)
    (h : (hasEndHeader bytes && headerBinds bytes "x".toList && headerBinds bytes "y".toList
      && headerBinds bytes "z".toList) = false) :
    (loadPlyFile s (some bytes)).1 = false := by
  rw [loadPlyFile_of_invalid_header s bytes h]

/-- Witness of C4. A header that omits `z`, a header that declares `z` as
`double`, and a file with no `end_header` line are rejected. -/
theorem C4_missing_position_fields_rejected_witness :
    (loadPlyFile (newRenderer refPlatform) (some plyNoZ)).1 = false ∧
    (loadPlyFile (newRenderer refPlatform) (some plyZDouble)).1 = false ∧
    (loadPlyFile (newRenderer refPlatform) (some plyNoEnd)).1 = false :=
  ⟨C4_missing_position_fields_rejected refPlatform _ plyNoZ (by decide!),
   C4_missing_position_fields_rejected refPlatform _ plyZDouble (by decide!),
   C4_missing_position_fields_rejected refPlatform _ plyNoEnd (by decide!)⟩


/-! ## Loads that fail -/

/-- C3 (code bug). A renderer that holds the two points of Scenario A is given
a `.ply` file whose header declares only `x` and `y`. The load fails, and yet
the renderer has lost its vertices and its bounding box: the count goes from 2
to 0 and the bounds from (1,2,3),(4,5,6) to the sentinels, while the model
centre and the camera distance still frame the cloud that is gone. -/
theorem C3_failed_load_clears_store :
    getPointCount loadedA = 2 ∧
    loadedA.m_boundingBoxMin = ⟨Flt.fin 1, Flt.fin 2, Flt.fin 3⟩ ∧
    loadedA.m_boundingBoxMax = ⟨Flt.fin 4, Flt.fin 5, Flt.fin 6⟩ ∧
    (loadPlyFile loadedA (some plyNoZ)).1 = false ∧
    getPointCount (loadPlyFile loadedA (some plyNoZ)).2 = 0 ∧
    (loadPlyFile loadedA (some plyNoZ)).2.m_vertices ≠ loadedA.m_vertices ∧
    (loadPlyFile loadedA (some plyNoZ)).2.m_boundingBoxMin = sentinelMin ∧
    (loadPlyFile loadedA (some plyNoZ)).2.m_boundingBoxMax = sentinelMax ∧
    (loadPlyFile loadedA (some plyNoZ)).2.m_modelCenter = loadedA.m_modelCenter ∧
    (loadPlyFile loadedA (some plyNoZ)).2.m_distance = loadedA.m_distance := by
  have e : loadPlyFile loadedA (some plyNoZ) = (false, clearCloud loadedA) :=
    loadPlyFile_of_invalid_header loadedA plyNoZ (by decide!)
  rw [e]
  refine ⟨by decide!, by decide!, by decide!, rfl, rfl, ?_, rfl, rfl, rfl, rfl⟩
  have h2 : loadedA.m_vertices.length = 2 := by decide!
  intro hcontra
  rw [← hcontra] at h2
  simp [clearCloud] at h2

/-- C5 (code bug). A binary file declares 2 vertices of three floats, 24
bytes, and holds 16. The load fails, and the record decoded before the
failing read, (1, 2, 3), is the vertex sequence the renderer is left with:
the two points it held before are replaced by this partial result. -/
theorem C5_truncated_body_keeps_partial_records :
    getPointCount loadedA = 2 ∧
    (loadPlyFile loadedA (some plyTruncated)).1 = false ∧
    (loadPlyFile loadedA (some plyTruncated)).2.m_vertices
      = [⟨⟨Flt.fin 1, Flt.fin 2, Flt.fin 3⟩, ⟨Flt.fin 1, Flt.fin 1, Flt.fin 1⟩⟩] ∧
    (loadPlyFile loadedA (some plyTruncated)).2.m_boundingBoxMin
      = ⟨Flt.fin 1, Flt.fin 2, Flt.fin 3⟩ ∧
    (loadPlyFile loadedA (some plyTruncated)).2.m_boundingBoxMax
      = ⟨Flt.fin 1, Flt.fin 2, Flt.fin 3⟩ := by
  refine ⟨by decide!, by decide!, by decide!, by decide!, by decide!⟩

/-- C8 (code bug). The header declares `int id`, then `float x`, `float y`,
`float z`; the body line is `7 1 2 3`. The property of unrecognized type takes
no slot in the field layout, so the position is read from the first three
numbers: it is (7, 1, 2), not (1, 2, 3). -/
theorem C8_unrecognized_property_shifts_fields :
    (loadPlyFile (newRenderer refPlatform) (some plyIntId)).1 = true ∧
    (readPlyHeader refPlatform plyIntId).1.properties
      = [⟨"x".toList, PropertyType.PROP_FLOAT⟩, ⟨"y".toList, PropertyType.PROP_FLOAT⟩,
         ⟨"z".toList, PropertyType.PROP_FLOAT⟩] ∧
    (readPlyHeader refPlatform plyIntId).1.xIndex = 0 ∧
    (loadPlyFile (newRenderer refPlatform) (some plyIntId)).2.m_vertices.map (fun v => v.position)
      = [⟨Flt.fin 7, Flt.fin 1, Flt.fin 2⟩] ∧
    (loadPlyFile (newRenderer refPlatform) (some plyIntId)).2.m_vertices.map (fun v => v.position)
      ≠ [⟨Flt.fin 1, Flt.fin 2, Flt.fin 3⟩] := by
  refine ⟨by decide!, by decide!, by decide!, by decide!, by decide!⟩


/-! ## The colour fields of the header -/

/-- What a line that binds a name says of its first three words. -/
theorem words_of_bindsName (name line : List Char) (h : bindsName name line = true) :
    (lineWords line).getD 0 [] = "property".toList ∧
    propertyTypeOf ((lineWords line).getD 1 []) ≠ PropertyType.PROP_NONE ∧
    (lineWords line).getD 2 [] = name := by
  unfold bindsName at h
  simp only [Bool.and_eq_true, Bool.or_eq_true, beq_iff_eq] at h
  obtain ⟨⟨h0, h1⟩, h2⟩ := h
  refine ⟨h0, ?_, h2⟩
  unfold propertyTypeOf
  rcases h1 with ((h1 | h1) | h1) | h1 <;> rw [h1] <;> decide

/-- On a line that binds a name the header loop runs its `property` branch. -/
theorem headerLine_of_bindsName (P : Platform) (h : PlyHeader) (name line : List Char)
    (hb : bindsName name line = true) :
    headerLine P h line = headerProperty h ((lineWords line).getD 1 []) name := by
  obtain ⟨h0, _, h2⟩ := words_of_bindsName name line hb
  rw [headerLine_eq, h0, h2]
  have e1 : ¬ "property".toList = "end_header".toList := by decide
  have e2 : ¬ "property".toList = "format".toList := by decide
  have e3 : ¬ "property".toList = "element".toList := by decide
  simp only [e1, e2, e3, if_false, false_and, if_true]

/-- An index that a line of the header binds is set when the header loop is left. -/
theorem headerFold_index_set (P : Platform) (g : PlyHeader → Int) (name : List Char)
    (hset : ∀ h line, bindsName name line = true → g (headerLine P h line) ≠ -1)
    (hkeep : ∀ h line, g h ≠ -1 → g (headerLine P h line) ≠ -1)
    (ls : List (List Char)) (h : PlyHeader) (hend : h.headerEnd = false)
    (hb : g h ≠ -1 ∨ (ls.takeWhile (fun l => !isEndHeader l)).any (bindsName name) = true) :
    g (headerFold P ls h) ≠ -1 := by
  induction ls generalizing h with
  | nil =>
    rcases hb with hb | hb
    · exact hb
    · simp at hb
  | cons l ls ih =>
    simp only [headerFold]
    cases he : isEndHeader l
    · have hne : (headerLine P h l).headerEnd = false := by
        rw [headerLine_headerEnd, he, hend]; rfl
      rw [if_neg (by simp [hne])]
      refine ih _ hne ?_
      rcases hb with hb | hb
      · exact Or.inl (hkeep h l hb)
      · simp only [List.takeWhile_cons, he, Bool.not_false, if_true, List.any_cons,
          Bool.or_eq_true] at hb
        rcases hb with hb | hb
        · exact Or.inl (hset h l hb)
        · exact Or.inr hb
    · have hy : (headerLine P h l).headerEnd = true := by
        rw [headerLine_headerEnd, he]; rfl
      rw [if_pos hy]
      rcases hb with hb | hb
      · exact hkeep h l hb
      · simp [List.takeWhile_cons, he] at hb

theorem Flt.mul_half (x : Flt) : Flt.mul x (Flt.fin (1/2)) = Flt.div x (Flt.fin 2) := by
  cases x with
  | nan => rfl
  | ninf => simp [Flt.mul, Flt.div, Flt.signedInf]
  | pinf => simp [Flt.mul, Flt.div, Flt.signedInf]
  | fin a =>
    simp only [Flt.mul, Flt.div]
    rw [if_neg (by norm_num)]
    congr 1
    ring

theorem Flt.mul_swap (a b : Flt) : Flt.mul a b = Flt.mul b a := by
  cases a <;> cases b <;> simp [Flt.mul, mul_comm]


theorem Vec3.scale_half (v : Vec3) : Vec3.scale v (Flt.fin (1/2)) = Vec3.divide v (Flt.fin 2) := by
  simp only [Vec3.scale, Vec3.divide, Flt.mul_half]

/-- The tail of the loaders frames the bounding box it finds and keeps the store. -/
theorem frameLoaded_framing {P : Platform} (s : PointCloudRenderer P) :
    ((frameLoaded s).m_modelCenter, (frameLoaded s).m_distance)
      = framingOf P s.m_boundingBoxMin s.m_boundingBoxMax := by
  simp only [frameLoaded, resetView, updateModelViewMatrix, framingOf, Vec3.scale_half,
    Flt.mul_swap (P.length _)]

theorem cloudOf_frameLoaded {P : Platform} (s : PointCloudRenderer P) :
    cloudOf (frameLoaded s) = cloudOf s := rfl

theorem cloudOf_addVertex {P : Platform} (s t : PointCloudRenderer P) (v : Vertex)
    (h : cloudOf s = cloudOf t) : cloudOf (addVertex s v) = cloudOf (addVertex t v) := by
  simp only [cloudOf, Prod.mk.injEq] at h
  obtain ⟨h1, h2, h3⟩ := h
  simp only [cloudOf, addVertex, h1, h2, h3]

theorem cloudOf_asciiBody {P : Platform} (hd : PlyHeader) (k i : Nat) (f : IStream)
    (line : List Char) (s t : PointCloudRenderer P) (h : cloudOf s = cloudOf t) :
    cloudOf (asciiBody hd k i f line s) = cloudOf (asciiBody hd k i f line t) := by
  induction k generalizing i f line s t with
  | zero => exact h
  | succ k ih =>
    simp only [asciiBody]
    exact ih _ _ _ _ _ (cloudOf_addVertex s t _ h)

theorem cloudOf_binaryBody {P : Platform} (hd : PlyHeader) (k i : Nat) (f : IStream)
    (s t : PointCloudRenderer P) (h : cloudOf s = cloudOf t) :
    (binaryBody hd k i f s).1 = (binaryBody hd k i f t).1 ∧
    cloudOf (binaryBody hd k i f s).2 = cloudOf (binaryBody hd k i f t).2 := by
  induction k generalizing i f s t with
  | zero => exact ⟨rfl, h⟩
  | succ k ih =>
    simp only [binaryBody]
    split_ifs
    · exact ⟨rfl, h⟩
    · exact ih _ _ _ _ (cloudOf_addVertex s t _ h)

theorem cloudOf_clearCloud {P : Platform} (s t : PointCloudRenderer P) :
    cloudOf (clearCloud s) = cloudOf (clearCloud t) := rfl

/-- The outcome of `loadPlyFile` and the store after it are functions of the
bytes alone. -/
theorem cloudOf_loadPlyFile {P : Platform} (s t : PointCloudRenderer P) (bytes : List Char) :
    (loadPlyFile s (some bytes)).1 = (loadPlyFile t (some bytes)).1 ∧
    cloudOf (loadPlyFile s (some bytes)).2 = cloudOf (loadPlyFile t (some bytes)).2 := by
  have hb := cloudOf_binaryBody (readPlyHeader P bytes).1
    (readPlyHeader P bytes).1.numVertices.toNat 0 (readPlyHeader P bytes).2.1
    (clearCloud s) (clearCloud t) (cloudOf_clearCloud s t)
  simp only [loadPlyFile]
  split_ifs
  · exact ⟨rfl, rfl⟩
  · exact ⟨rfl, by
      rw [cloudOf_frameLoaded, cloudOf_frameLoaded]
      exact cloudOf_asciiBody _ _ _ _ _ _ _ (cloudOf_clearCloud s t)⟩
  · revert hb
    rcases binaryBody (readPlyHeader P bytes).1 (readPlyHeader P bytes).1.numVertices.toNat 0
      (readPlyHeader P bytes).2.1 (clearCloud s) with ⟨b1, r1⟩
    rcases binaryBody (readPlyHeader P bytes).1 (readPlyHeader P bytes).1.numVertices.toNat 0
      (readPlyHeader P bytes).2.1 (clearCloud t) with ⟨b2, r2⟩
    rintro ⟨hb1, hb2⟩
    simp only at hb1 hb2
    subst hb1
    cases b1
    · exact ⟨rfl, hb2⟩
    · exact ⟨rfl, by rw [cloudOf_frameLoaded, cloudOf_frameLoaded]; exact hb2⟩

/-- A successful `loadPlyFile` ends with the tail that frames the cloud. -/
theorem loadPlyFile_framing {P : Platform} (s : PointCloudRenderer P) (bytes : List Char)
    (h : (loadPlyFile s (some bytes)).1 = true) :
    ((loadPlyFile s (some bytes)).2.m_modelCenter, (loadPlyFile s (some bytes)).2.m_distance)
      = framingOf P (loadPlyFile s (some bytes)).2.m_boundingBoxMin
          (loadPlyFile s (some bytes)).2.m_boundingBoxMax := by
  simp only [loadPlyFile] at h ⊢
  split_ifs at h ⊢
  · exact frameLoaded_framing _
  · revert h
    split
    · intro h; simp at h
    · intro _; exact frameLoaded_framing _


theorem binaryFields_fail_of_fail (P : Platform) (i : Nat) (ps : List PropertyInfo) (j : Nat)
    (f : IStream) (hf : f.fail = true) : (binaryFields P i ps j f).2.fail = true := by
  induction ps generalizing j f with
  | nil => exact hf
  | cons p ps ih =>
    cases hp : p.type <;> simp only [binaryFields, hp]
    · exact ih _ _ hf
    · exact ih _ _ (by simp [readBytes, IStream.good, hf])
    · exact ih _ _ (by simp [readBytes, IStream.good, hf])

/-! ### The contents of uninitialised locals -/

/-- The recomputation establishes the invariant, the identity being neutral
on the left of the matrix product. -/
theorem viewValid_updateModelViewMatrix {P : Platform}
    (hid : ∀ m : P.Mat, P.mul P.identity m = m) (s : PointCloudRenderer P) :
    viewValid (updateModelViewMatrix s) := by
  simp only [viewValid, updateModelViewMatrix, viewMatrix, Platform.translate, Platform.rotate,
    hid, Vec3.neg]

theorem viewValid_frameLoaded {P : Platform}
    (hid : ∀ m : P.Mat, P.mul P.identity m = m) (s : PointCloudRenderer P) :
    viewValid (frameLoaded s) :=
  viewValid_updateModelViewMatrix hid _

theorem viewValid_loadPlyFile {P : Platform}
    (hid : ∀ m : P.Mat, P.mul P.identity m = m) (s : PointCloudRenderer P)
    (bytes : List Char) (h : (loadPlyFile s (some bytes)).1 = true) :
    viewValid (loadPlyFile s (some bytes)).2 := by
  simp only [loadPlyFile] at h ⊢
  split_ifs at h ⊢
  · exact viewValid_frameLoaded hid _
  · revert h
    split
    · intro h; simp at h
    · intro _; exact viewValid_frameLoaded hid _

theorem refPlatform_identity_mul (m : refPlatform.Mat) :
    refPlatform.mul refPlatform.identity m = m := by
  show Mat4.mul Mat4.identity m = m
  simp [Mat4.mul]

/-- C10. With the identity neutral on the left of the matrix product, after a
successful load, after `setViewport` with any parameters, after `resetView`,
after a left-button drag step and after a wheel event the stored model-view
matrix is translate(0,0,-distance) . rotateX(rotation.x) . rotateY(rotation.y)
. translate(-modelCenter) of the stored distance, rotation and model centre; a
move with no button held and a press keep the invariant; and `setViewport`
gives the same state whatever model-view matrix the parameters carry. -/
theorem C10_view_matrix_invariant (P : Platform)
    (hid : ∀ m : P.Mat, P.mul P.identity m = m) (s : PointCloudRenderer P) :
    (∀ file, (loadPtsFile s file).1 = true → viewValid (loadPtsFile s file).2) ∧
    (∀ file, (loadPlyFile s file).1 = true → viewValid (loadPlyFile s file).2) ∧
    (∀ params, viewValid (setViewport s params)) ∧
    viewValid (resetView s) ∧
    (∀ pos, viewValid (mouseMoveEvent s true pos)) ∧
    (∀ angleDeltaY, viewValid (wheelEvent s angleDeltaY)) ∧
    (∀ pos, viewValid s → viewValid (mouseMoveEvent s false pos)) ∧
    (∀ pos, viewValid s → viewValid (mousePressEvent s pos)) ∧
    (∀ params m, setViewport s { params with modelViewMatrix := m } = setViewport s params) := by
  refine ⟨?_, ?_, ?_, ?_, ?_, ?_, ?_, ?_, ?_⟩
  · intro file h
    cases file with
    | none => simp [loadPtsFile] at h
    | some text => exact viewValid_frameLoaded hid _
  · intro file h
    cases file with
    | none => simp [loadPlyFile] at h
    | some bytes => exact viewValid_loadPlyFile hid s bytes h
  · intro params
    exact viewValid_updateModelViewMatrix hid _
  · exact viewValid_updateModelViewMatrix hid _
  · intro pos
    have h := viewValid_updateModelViewMatrix hid
      { s with m_rotation :=
        { x := Flt.add s.m_rotation.x
            (Flt.mul (Flt.fin ((pos.2 - s.m_lastMousePos.2 : Int) : ℚ)) (Flt.fin (1/2)))
          y := Flt.add s.m_rotation.y
            (Flt.mul (Flt.fin ((pos.1 - s.m_lastMousePos.1 : Int) : ℚ)) (Flt.fin (1/2)))
          z := s.m_rotation.z } }
    exact h
  · intro d
    exact viewValid_updateModelViewMatrix hid _
  · intro pos h
    exact h
  · intro pos h
    exact h
  · intro params m
    rfl

/-- Witness of C10. The reference platform has a neutral identity; from a fresh renderer the
invariant holds after Scenario A is loaded, after a reset, after a drag step
by (10, 20), which turns the rotation to (10, 5, 0), and after one wheel
notch, which takes the distance from 5 to 4.5. -/
theorem C10_view_matrix_invariant_witness :
    (∀ m : refPlatform.Mat, refPlatform.mul refPlatform.identity m = m) ∧
    viewValid (loadPtsFile (newRenderer refPlatform) (some scenarioA)).2 ∧
    viewValid (resetView (newRenderer refPlatform)) ∧
    viewValid (mouseMoveEvent (newRenderer refPlatform) true (10, 20)) ∧
    viewValid (wheelEvent (newRenderer refPlatform) 120) ∧
    (wheelEvent (newRenderer refPlatform) 120).m_distance = Flt.fin (9/2) ∧
    (mouseMoveEvent (newRenderer refPlatform) true (10, 20)).m_rotation
      = ⟨Flt.fin 10, Flt.fin 5, Flt.fin 0⟩ :=
  ⟨refPlatform_identity_mul,
   (C10_view_matrix_invariant refPlatform refPlatform_identity_mul
      (newRenderer refPlatform)).1 (some scenarioA) (by decide!),
   (C10_view_matrix_invariant refPlatform refPlatform_identity_mul
      (newRenderer refPlatform)).2.2.2.1,
   (C10_view_matrix_invariant refPlatform refPlatform_identity_mul
      (newRenderer refPlatform)).2.2.2.2.1 (10, 20),
   (C10_view_matrix_invariant refPlatform refPlatform_identity_mul
      (newRenderer refPlatform)).2.2.2.2.2.1 120,
   by decide!, by decide!⟩

/-! ## The size of a binary body -/

theorem recordSize_cons (p : PropertyInfo) (ps : List PropertyInfo) :
    recordSize (p :: ps) =
      (match p.type with
        | PropertyType.PROP_FLOAT => 4
        | PropertyType.PROP_UCHAR => 1
        | PropertyType.PROP_NONE => 0) + recordSize ps := by
  unfold recordSize
  cases hp : p.type <;> simp [List.filter_cons, hp] <;> omega

theorem readBytes_enough (f : IStream) (n : Nat) (hok : streamOk f) (hn : 0 < n)
    (hlen : n ≤ f.rest.length) :
    (readBytes f n).2 = { f with rest := f.rest.drop n } ∧ streamOk (readBytes f n).2 := by
  have hne : f.rest ≠ [] := by
    intro h; rw [h] at hlen; simp at hlen; omega
  have heof : f.eof = false := by
    cases h : f.eof
    · rfl
    · exact absurd (hok.2 h) hne
  have hg : f.good = true := by simp [IStream.good, heof, hok.1]
  simp only [readBytes, hg, Bool.not_true, Bool.false_eq_true, if_false, hlen, if_true]
  exact ⟨trivial, hok.1, fun h => by rw [heof] at h; exact absurd h (by decide)⟩

theorem readBytes_short (f : IStream) (n : Nat) (hlen : f.rest.length < n) :
    (readBytes f n).2.fail = true := by
  unfold readBytes
  split_ifs
  · rfl
  · omega
  · rfl

/-- With a whole record left, the reads of a record succeed and consume it. -/
theorem binaryFields_enough (P : Platform) (i : Nat) (ps : List PropertyInfo) (j : Nat)
    (f : IStream) (hok : streamOk f) (hlen : recordSize ps ≤ f.rest.length) :
    streamOk (binaryFields P i ps j f).2 ∧
    (binaryFields P i ps j f).2.rest = f.rest.drop (recordSize ps) := by
  induction ps generalizing j f with
  | nil => exact ⟨hok, by simp [binaryFields, recordSize]⟩
  | cons p ps ih =>
    rw [recordSize_cons] at hlen ⊢
    cases hp : p.type <;> simp only [binaryFields, hp] at hlen ⊢
    · simpa using ih (j + 1) f hok (by omega)
    · obtain ⟨e, hok1⟩ := readBytes_enough f 4 hok (by omega) (by omega)
      have h := ih (j + 1) (readBytes f 4).2 hok1 (by rw [e]; simp; omega)
      rw [e] at h ⊢
      simpa [List.drop_drop, Nat.add_comm] using h
    · obtain ⟨e, hok1⟩ := readBytes_enough f 1 hok (by omega) (by omega)
      have h := ih (j + 1) (readBytes f 1).2 hok1 (by rw [e]; simp; omega)
      rw [e] at h ⊢
      simpa [List.drop_drop, Nat.add_comm] using h

/-- With less than a whole record left, some read of the record fails. -/
theorem binaryFields_short (P : Platform) (i : Nat) (ps : List PropertyInfo) (j : Nat)
    (f : IStream) (hok : streamOk f) (hlen : f.rest.length < recordSize ps) :
    (binaryFields P i ps j f).2.fail = true := by
  induction ps generalizing j f with
  | nil => simp [recordSize] at hlen
  | cons p ps ih =>
    rw [recordSize_cons] at hlen
    cases hp : p.type <;> simp only [binaryFields, hp] at hlen ⊢
    · exact ih (j + 1) f hok (by omega)
    · by_cases h4 : 4 ≤ f.rest.length
      · obtain ⟨e, hok1⟩ := readBytes_enough f 4 hok (by omega) h4
        exact ih (j + 1) _ hok1 (by rw [e]; simp; omega)
      · exact binaryFields_fail_of_fail P i ps _ _ (readBytes_short f 4 (by omega))
    · by_cases h1 : 1 ≤ f.rest.length
      · obtain ⟨e, hok1⟩ := readBytes_enough f 1 hok (by omega) h1
        exact ih (j + 1) _ hok1 (by rw [e]; simp; omega)
      · exact binaryFields_fail_of_fail P i ps _ _ (readBytes_short f 1 (by omega))

/-- The binary loop over `k` records succeeds exactly when `k` whole records
are left in the stream. -/
theorem binaryBody_succeeds_iff {P : Platform} (hd : PlyHeader) (k i : Nat) (f : IStream)
    (s : PointCloudRenderer P) (hok : streamOk f) :
    (binaryBody hd k i f s).1 = true ↔ k * recordSize hd.properties ≤ f.rest.length := by
  induction k generalizing i f s with
  | zero => simp [binaryBody]
  | succ k ih =>
    simp only [binaryBody]
    by_cases hlen : recordSize hd.properties ≤ f.rest.length
    · obtain ⟨hok1, hrest⟩ := binaryFields_enough P i hd.properties 0 f hok hlen
      rw [if_neg (by simp [hok1.1]), ih _ _ _ hok1, hrest, List.length_drop, Nat.succ_mul]
      omega
    · rw [if_pos (binaryFields_short P i hd.properties 0 f hok (by omega))]
      have : recordSize hd.properties ≤ (k + 1) * recordSize hd.properties :=
        Nat.le_mul_of_pos_left _ (Nat.succ_pos k)
      constructor
      · intro h; simp at h
      · intro h; omega

theorem streamOk_getline (f : IStream) (line : List Char) (h : (getline f line).2.fail = false) :
    streamOk (getline f line).2 := by
  unfold getline at h ⊢
  by_cases hg : (!f.good) = true
  · simp [hg] at h
  · simp only [hg, Bool.false_eq_true, if_false] at h ⊢
    cases hd : List.dropWhile (fun c => c != '\n') f.rest with
    | nil =>
      simp only [hd] at h ⊢
      exact ⟨h, fun _ => rfl⟩
    | cons c r =>
      simp only [hd]
      exact ⟨rfl, fun h => Bool.noConfusion h⟩

/-- When the header loop is left through `end_header`, the stream is as the
last `getline` left it. -/
theorem streamOk_readHeader (P : Platform) (fuel : Nat) (f : IStream) (line : List Char)
    (h : PlyHeader) (h0 : h.headerEnd = false)
    (hend : (readHeader P fuel f line h).1.headerEnd = true) :
    streamOk (readHeader P fuel f line h).2.1 := by
  induction fuel generalizing f line h with
  | zero => simp [readHeader, h0] at hend
  | succ n ih =>
    simp only [readHeader] at hend ⊢
    split_ifs at hend ⊢ with hfail hhe
    · simp [h0] at hend
    · exact streamOk_getline f line (by simpa using hfail)
    · exact ih _ _ _ (by simpa using hhe) hend

theorem headerProperty_x (h : PlyHeader) (t : List Char)
    (ht : propertyTypeOf t ≠ PropertyType.PROP_NONE) :
    (headerProperty h t "x".toList).xIndex = (h.properties.length : Int) := by
  simp [headerProperty, ht]

theorem headerProperty_y (h : PlyHeader) (t : List Char)
    (ht : propertyTypeOf t ≠ PropertyType.PROP_NONE) :
    (headerProperty h t "y".toList).yIndex = (h.properties.length : Int) := by
  have h1 : ¬ "y".toList = "x".toList := by decide
  simp [headerProperty, ht, h1]

theorem headerProperty_z (h : PlyHeader) (t : List Char)
    (ht : propertyTypeOf t ≠ PropertyType.PROP_NONE) :
    (headerProperty h t "z".toList).zIndex = (h.properties.length : Int) := by
  have h1 : ¬ "z".toList = "x".toList := by decide
  have h2 : ¬ "z".toList = "y".toList := by decide
  simp [headerProperty, ht, h1, h2]

theorem headerProperty_position_indices (h : PlyHeader) (t n : List Char) :
    ((headerProperty h t n).xIndex = h.xIndex ∨
      (headerProperty h t n).xIndex = (h.properties.length : Int)) ∧
    ((headerProperty h t n).yIndex = h.yIndex ∨
      (headerProperty h t n).yIndex = (h.properties.length : Int)) ∧
    ((headerProperty h t n).zIndex = h.zIndex ∨
      (headerProperty h t n).zIndex = (h.properties.length : Int)) := by
  simp only [headerProperty]
  split_ifs <;> simp

/-- Once set, a position index stays set through a pass of the header loop. -/
theorem headerLine_position_indices (P : Platform) (h : PlyHeader) (line : List Char) :
    ((headerLine P h line).xIndex = h.xIndex ∨
      (headerLine P h line).xIndex = (h.properties.length : Int)) ∧
    ((headerLine P h line).yIndex = h.yIndex ∨
      (headerLine P h line).yIndex = (h.properties.length : Int)) ∧
    ((headerLine P h line).zIndex = h.zIndex ∨
      (headerLine P h line).zIndex = (h.properties.length : Int)) := by
  rw [headerLine_eq]
  split_ifs
  · exact ⟨Or.inl rfl, Or.inl rfl, Or.inl rfl⟩
  · exact ⟨Or.inl (headerFormat_indices h _).1, Or.inl (headerFormat_indices h _).2.1,
      Or.inl (headerFormat_indices h _).2.2⟩
  · exact ⟨Or.inl rfl, Or.inl rfl, Or.inl rfl⟩
  · exact headerProperty_position_indices h _ _
  · exact ⟨Or.inl rfl, Or.inl rfl, Or.inl rfl⟩

/-- A file with a line that ends the header leaves the header loop with
`headerEnd` set. -/
theorem headerFold_headerEnd_set (P : Platform) (ls : List (List Char)) (h : PlyHeader)
    (hany : ls.any isEndHeader = true) : (headerFold P ls h).headerEnd = true := by
  induction ls generalizing h with
  | nil => simp at hany
  | cons l ls ih =>
    simp only [headerFold]
    split_ifs with hend
    · exact hend
    · refine ih _ ?_
      simp only [List.any_cons, Bool.or_eq_true] at hany
      rcases hany with hl | hl
      · rw [headerLine_headerEnd, hl] at hend
        exact absurd rfl hend
      · exact hl

/-- The test after the header loop lets a file through exactly when the file
has an `end_header` line and its header binds `x`, `y` and `z`. -/
theorem header_accepted_iff (P : Platform) (bytes : List Char) :
    (!(readPlyHeader P bytes).1.headerEnd || (readPlyHeader P bytes).1.xIndex == -1
      || (readPlyHeader P bytes).1.yIndex == -1 || (readPlyHeader P bytes).1.zIndex == -1) = false
    ↔ (hasEndHeader bytes && headerBinds bytes "x".toList && headerBinds bytes "y".toList
      && headerBinds bytes "z".toList) = true := by
  constructor
  · intro h
    exact header_binds_of_accepted P bytes (by simp [h])
  · intro h
    simp only [Bool.and_eq_true] at h
    obtain ⟨⟨⟨he, hx⟩, hy⟩, hz⟩ := h
    have hnn : ∀ h : PlyHeader, ((h.properties.length : Int) ≠ -1) := fun h => by omega
    have h1 : (readPlyHeader P bytes).1.headerEnd = true := by
      rw [readPlyHeader_fst]; exact headerFold_headerEnd_set P _ _ he
    have h2 : (readPlyHeader P bytes).1.xIndex ≠ -1 := by
      rw [readPlyHeader_fst]
      refine headerFold_index_set P (fun h => h.xIndex) "x".toList ?_ ?_ _ _ rfl (Or.inr hx)
      · intro h line hbn
        have ht := (words_of_bindsName _ _ hbn).2.1
        simp only [headerLine_of_bindsName P h _ line hbn, headerProperty_x h _ ht]
        exact hnn h
      · intro h line hset
        rcases (headerLine_position_indices P h line).1 with e | e
        · simp only [e]; exact hset
        · simp only [e]; exact hnn h
    have h3 : (readPlyHeader P bytes).1.yIndex ≠ -1 := by
      rw [readPlyHeader_fst]
      refine headerFold_index_set P (fun h => h.yIndex) "y".toList ?_ ?_ _ _ rfl (Or.inr hy)
      · intro h line hbn
        have ht := (words_of_bindsName _ _ hbn).2.1
        simp only [headerLine_of_bindsName P h _ line hbn, headerProperty_y h _ ht]
        exact hnn h
      · intro h line hset
        rcases (headerLine_position_indices P h line).2.1 with e | e
        · simp only [e]; exact hset
        · simp only [e]; exact hnn h
    have h4 : (readPlyHeader P bytes).1.zIndex ≠ -1 := by
      rw [readPlyHeader_fst]
      refine headerFold_index_set P (fun h => h.zIndex) "z".toList ?_ ?_ _ _ rfl (Or.inr hz)
      · intro h line hbn
        have ht := (words_of_bindsName _ _ hbn).2.1
        simp only [headerLine_of_bindsName P h _ line hbn, headerProperty_z h _ ht]
        exact hnn h
      · intro h line hset
        rcases (headerLine_position_indices P h line).2.2 with e | e
        · simp only [e]; exact hset
        · simp only [e]; exact hnn h
    simp [h1, h2, h3, h4]

/-- A binary file with an `end_header` line whose header binds `x`, `y` and
`z` loads with success exactly when the bytes after the header hold
`numVertices` records of `4 * F + U` bytes, `F` and `U` counting the float
and uchar fields. -/
theorem loadPlyFile_binary_succeeds_iff {P : Platform} (s : PointCloudRenderer P)
    (bytes : List Char)
    (hacc : (hasEndHeader bytes && headerBinds bytes "x".toList && headerBinds bytes "y".toList
      && headerBinds bytes "z".toList) = true)
    (hbin : (readPlyHeader P bytes).1.isBinary = true) :
    (loadPlyFile s (some bytes)).1 = true ↔
      (readPlyHeader P bytes).1.numVertices.toNat * recordSize (readPlyHeader P bytes).1.properties
        ≤ (readPlyHeader P bytes).2.1.rest.length := by
  have hchk := (header_accepted_iff P bytes).mpr hacc
  have hend : (readPlyHeader P bytes).1.headerEnd = true := by
    simp only [Bool.or_eq_false_iff, Bool.not_eq_false'] at hchk
    exact hchk.1.1.1
  have hok : streamOk (readPlyHeader P bytes).2.1 :=
    streamOk_readHeader P _ _ _ _ rfl hend
  rw [← binaryBody_succeeds_iff (readPlyHeader P bytes).1 _ 0 _ (clearCloud s) hok]
  simp only [loadPlyFile, hchk, Bool.false_eq_true, if_false, hbin, Bool.not_true]
  split <;> rename_i heq <;> simp [heq]


/-! ## Fuel of the header loop -/

theorem getline_rest_length (f : IStream) (line : List Char)
    (hfail : (getline f line).2.fail = false) :
    (getline f line).2.rest.length + 1 ≤ f.rest.length := by
  unfold getline at hfail ⊢
  by_cases hg : (!f.good) = true
  · simp [hg] at hfail
  · simp only [hg, Bool.false_eq_true, if_false] at hfail ⊢
    cases hd : List.dropWhile (fun c => c != '\n') f.rest with
    | nil =>
      simp only [hd] at hfail ⊢
      have ht := takeWhile_eq_self_of_dropWhile_nil _ _ hd
      rw [ht] at hfail
      cases hr : f.rest with
      | nil => rw [hr] at hfail; simp at hfail
      | cons c cs => simp
    | cons c r =>
      simp only [hd]
      have := length_lt_of_dropWhile_cons _ _ _ _ hd
      omega

/-- More fuel than the length of the stream plus two changes nothing: the
header loop ends before the fuel does. -/
theorem readHeader_fuel (P : Platform) (n : Nat) (f : IStream) (line : List Char)
    (h : PlyHeader) (hn : f.rest.length + 2 ≤ n) :
    readHeader P (n + 1) f line h = readHeader P n f line h := by
  induction n generalizing f line h with
  | zero => omega
  | succ n ih =>
    rw [readHeader, readHeader.eq_def P (n + 1)]
    simp only
    split_ifs with hfail hend
    · rfl
    · rfl
    · have hlen := getline_rest_length f line (by simpa using hfail)
      exact ih _ _ _ (by omega)


/-! ## The fields of a record -/

/-- The clamp `std::max(0.1f, std::min(d, 1000.0f))` lands in the range for
every float `d`, NaN and the infinities included. -/
theorem inRange_clamp (d : Flt) :
    inRange (stdMax (Flt.fin (1/10)) (stdMin d (Flt.fin 1000))) := by
  unfold inRange stdMax stdMin
  cases d with
  | nan => simp [Flt.lt, Flt.le]; norm_num
  | ninf => simp [Flt.lt, Flt.le]; norm_num
  | pinf => simp [Flt.lt, Flt.le]; norm_num
  | fin q =>
    by_cases h1 : (1000 : ℚ) < q
    · simp [Flt.lt, Flt.le, h1]; norm_num
    · by_cases h2 : (1 / 10 : ℚ) < q
      · have h2' : (10 : ℚ)⁻¹ < q := by simpa using h2
        simp [Flt.lt, Flt.le, h1, h2']
        exact ⟨le_of_lt h2', not_lt.mp h1⟩
      · have h2' : ¬ (10 : ℚ)⁻¹ < q := by simpa using h2
        simp [Flt.lt, Flt.le, h1, h2']; norm_num

theorem wheelEvent_distance {P : Platform} (s : PointCloudRenderer P) (angleDeltaY : Int) :
    (wheelEvent s angleDeltaY).m_distance
      = stdMax (Flt.fin (1/10))
          (stdMin (Flt.mul s.m_distance
            (P.pow (Flt.fin (9/10)) (Flt.div (Flt.fin (angleDeltaY : ℚ)) (Flt.fin 120))))
            (Flt.fin 1000)) := rfl

/-- C13. For every platform, every starting state and every wheel delta the
distance after `wheelEvent` lies in [0.1, 1000.0]; so it does after any
sequence of wheel events that is not empty. On the reference platform, 50
notches of zoom-in from 5.0 end at 0.1 and 60 notches of zoom-out at 1000. -/
theorem C13_zoom_clamp (P : Platform) (s : PointCloudRenderer P) (angleDeltaY : Int)
    (before : List Int) :
    inRange (wheelEvent s angleDeltaY).m_distance ∧
    inRange (wheelEvent (before.foldl wheelEvent s) angleDeltaY).m_distance ∧
    ((List.replicate 50 (120 : Int)).foldl wheelEvent (newRenderer refPlatform)).m_distance
      = Flt.fin (1/10) ∧
    ((List.replicate 60 (-120 : Int)).foldl wheelEvent (newRenderer refPlatform)).m_distance
      = Flt.fin 1000 := by
  refine ⟨?_, ?_, by decide!, by decide!⟩
  · rw [wheelEvent_distance]; exact inRange_clamp _
  · rw [wheelEvent_distance]; exact inRange_clamp _

/-! ## Reset -/

/-- C12. `resetView` sets the rotation to (0,0,0), leaves the matrix equal to
the view matrix of the state (the identity being neutral on the left of the
matrix product), leaves distance, model centre, point size, bounding box,
vertices, projection and last mouse position as they were, and is
idempotent. -/
theorem C12_resetView_idempotent (P : Platform)
    (hid : ∀ m : P.Mat, P.mul P.identity m = m) (s : PointCloudRenderer P) :
    (resetView s).m_rotation = ⟨Flt.fin 0, Flt.fin 0, Flt.fin 0⟩ ∧
    (resetView s).m_modelView
      = viewMatrix P s.m_distance ⟨Flt.fin 0, Flt.fin 0, Flt.fin 0⟩ s.m_modelCenter ∧
    (resetView s).m_distance = s.m_distance ∧
    (resetView s).m_modelCenter = s.m_modelCenter ∧
    (resetView s).m_pointSize = s.m_pointSize ∧
    (resetView s).m_boundingBoxMin = s.m_boundingBoxMin ∧
    (resetView s).m_boundingBoxMax = s.m_boundingBoxMax ∧
    (resetView s).m_vertices = s.m_vertices ∧
    (resetView s).m_projection = s.m_projection ∧
    (resetView s).m_lastMousePos = s.m_lastMousePos ∧
    resetView (resetView s) = resetView s := by
  refine ⟨rfl, ?_, rfl, rfl, rfl, rfl, rfl, rfl, rfl, rfl, rfl⟩
  exact viewValid_updateModelViewMatrix hid _

/-- Witness of C12. On the reference platform, a renderer that holds Scenario
A and was turned by a drag step has rotation (10, 5, 0); after `resetView`
the rotation is (0, 0, 0) and a second `resetView` changes nothing. -/
theorem C12_resetView_idempotent_witness :
    (∀ m : refPlatform.Mat, refPlatform.mul refPlatform.identity m = m) ∧
    (mouseMoveEvent loadedA true (10, 20)).m_rotation = ⟨Flt.fin 10, Flt.fin 5, Flt.fin 0⟩ ∧
    (resetView (mouseMoveEvent loadedA true (10, 20))).m_rotation
      = ⟨Flt.fin 0, Flt.fin 0, Flt.fin 0⟩ ∧
    (resetView (mouseMoveEvent loadedA true (10, 20))).m_distance = loadedA.m_distance ∧
    resetView (resetView (mouseMoveEvent loadedA true (10, 20)))
      = resetView (mouseMoveEvent loadedA true (10, 20)) :=
  ⟨refPlatform_identity_mul, by decide!,
   (C12_resetView_idempotent refPlatform refPlatform_identity_mul
      (mouseMoveEvent loadedA true (10, 20))).1,
   (C12_resetView_idempotent refPlatform refPlatform_identity_mul
      (mouseMoveEvent loadedA true (10, 20))).2.2.1,
   (C12_resetView_idempotent refPlatform refPlatform_identity_mul
      (mouseMoveEvent loadedA true (10, 20))).2.2.2.2.2.2.2.2.2.2⟩

/-! ## States reached through the operations -/

theorem viewValid_of_viewOf {P : Platform} (r s : PointCloudRenderer P)
    (h : viewOf r = viewOf s) (hs : viewValid s) : viewValid r := by
  simp only [viewOf, Prod.mk.injEq] at h
  obtain ⟨h1, h2, h3, h4⟩ := h
  unfold viewValid at hs ⊢
  rw [h1, h2, h3, h4]
  exact hs

theorem viewOf_binaryBody {P : Platform} (hd : PlyHeader) (k i : Nat) (f : IStream)
    (s : PointCloudRenderer P) : viewOf (binaryBody hd k i f s).2 = viewOf s := by
  induction k generalizing i f s with
  | zero => rfl
  | succ k ih =>
    simp only [binaryBody]
    split_ifs
    · rfl
    · rw [ih]; rfl

/-- A load that fails leaves the view fields as they were. -/
theorem viewOf_loadPlyFile_of_fail {P : Platform} (s : PointCloudRenderer P)
    (file : Option (List Char)) (h : (loadPlyFile s file).1 = false) :
    viewOf (loadPlyFile s file).2 = viewOf s := by
  cases file with
  | none => rfl
  | some bytes =>
    have hb := viewOf_binaryBody (readPlyHeader P bytes).1
      (readPlyHeader P bytes).1.numVertices.toNat 0 (readPlyHeader P bytes).2.1 (clearCloud s)
    simp only [loadPlyFile] at h ⊢
    split_ifs at h ⊢
    · rfl
    · revert h
      split
      · rename_i heq
        intro _
        rw [heq] at hb
        exact hb
      · intro h; simp at h

theorem viewOf_loadPtsFile_of_fail {P : Platform} (s : PointCloudRenderer P)
    (file : Option (List Char)) (h : (loadPtsFile s file).1 = false) :
    viewOf (loadPtsFile s file).2 = viewOf s := by
  cases file with
  | none => rfl
  | some text => simp [loadPtsFile] at h

theorem viewValid_loadPtsFile {P : Platform}
    (hid : ∀ m : P.Mat, P.mul P.identity m = m) (s : PointCloudRenderer P)
    (file : Option (List Char)) (h : (loadPtsFile s file).1 = true) :
    viewValid (loadPtsFile s file).2 := by
  cases file with
  | none => simp [loadPtsFile] at h
  | some text => exact viewValid_frameLoaded hid _

theorem viewValid_mouseMoveEvent_left {P : Platform}
    (hid : ∀ m : P.Mat, P.mul P.identity m = m) (s : PointCloudRenderer P) (pos : Int × Int) :
    viewValid (mouseMoveEvent s true pos) :=
  viewValid_updateModelViewMatrix hid
    { s with m_rotation :=
      { x := Flt.add s.m_rotation.x
          (Flt.mul (Flt.fin ((pos.2 - s.m_lastMousePos.2 : Int) : ℚ)) (Flt.fin (1/2)))
        y := Flt.add s.m_rotation.y
          (Flt.mul (Flt.fin ((pos.1 - s.m_lastMousePos.1 : Int) : ℚ)) (Flt.fin (1/2)))
        z := s.m_rotation.z } }

/-- An operation that mutates the viewport state establishes the view-matrix
invariant, and every other operation keeps it. -/
theorem viewValid_step {P : Platform} (hid : ∀ m : P.Mat, P.mul P.identity m = m)
    (s : PointCloudRenderer P) (op : Op P) (h : Op.mutates s op = true ∨ viewValid s) :
    viewValid (step s op) := by
  cases op with
  | loadPts file =>
    cases hl : (loadPtsFile s file).1
    · rcases h with h | h
      · simp [Op.mutates, hl] at h
      · exact viewValid_of_viewOf _ s (viewOf_loadPtsFile_of_fail s file hl) h
    · exact viewValid_loadPtsFile hid s file hl
  | loadPly file =>
    cases hl : (loadPlyFile s file).1
    · rcases h with h | h
      · simp [Op.mutates, hl] at h
      · exact viewValid_of_viewOf _ s (viewOf_loadPlyFile_of_fail s file hl) h
    · cases file with
      | none => simp [loadPlyFile] at hl
      | some bytes => exact viewValid_loadPlyFile hid s bytes hl
  | setViewport params => exact viewValid_updateModelViewMatrix hid _
  | replay v => exact viewValid_updateModelViewMatrix hid _
  | resetView => exact viewValid_updateModelViewMatrix hid _
  | mousePress pos =>
    rcases h with h | h
    · simp [Op.mutates] at h
    · exact h
  | mouseMove left pos =>
    cases left with
    | true => exact viewValid_mouseMoveEvent_left hid s pos
    | false =>
      rcases h with h | h
      · simp [Op.mutates] at h
      · exact h
  | wheel d => exact viewValid_updateModelViewMatrix hid _

theorem viewValid_run {P : Platform} (hid : ∀ m : P.Mat, P.mul P.identity m = m)
    (s : PointCloudRenderer P) (ops : List (Op P)) (h : viewValid s) :
    viewValid (run s ops) := by
  induction ops generalizing s with
  | nil => exact h
  | cons op ops ih => exact ih _ (viewValid_step hid s op (Or.inr h))

/-- Replaying the parameters of a state that satisfies the view-matrix
invariant gives a state with the same parameters. -/
theorem getViewportParameters_setViewport {P : Platform}
    (hid : ∀ m : P.Mat, P.mul P.identity m = m) (s t : PointCloudRenderer P)
    (hs : viewValid s) :
    getViewportParameters (setViewport t (getViewportParameters s)) = getViewportParameters s := by
  have hv := viewValid_updateModelViewMatrix hid
    { t with
      m_modelView := s.m_modelView
      m_projection := s.m_projection
      m_distance := s.m_distance
      m_rotation := s.m_rotation
      m_modelCenter := s.m_modelCenter
      m_pointSize := s.m_pointSize
      m_boundingBoxMin := s.m_boundingBoxMin
      m_boundingBoxMax := s.m_boundingBoxMax }
  unfold viewValid at hv hs
  simp only [getViewportParameters, setViewport]
  rw [hv]
  simp only [updateModelViewMatrix]
  rw [← hs]

theorem onTreeWidgetItemDoubleClicked_registry {P : Platform} (w : MainWindow P) (k : Nat) :
    (onTreeWidgetItemDoubleClicked w k).m_viewportList = w.m_viewportList ∧
    (onTreeWidgetItemDoubleClicked w k).m_dbTreeWidget = w.m_dbTreeWidget ∧
    (onTreeWidgetItemDoubleClicked w k).s_viewportIndex = w.s_viewportIndex := by
  unfold onTreeWidgetItemDoubleClicked
  split <;> exact ⟨rfl, rfl, rfl⟩

/-- C11. Let `s` be reached by an operation that mutates the viewport state
followed by any operations, and `t` be any renderer. The parameters of `s`
captured into a snapshot and replayed onto `t` give a renderer whose
parameters are those of `s`, field by field; the snapshot still holds them;
and a double click on a snapshot of the main window leaves the list of
snapshots, each with its parameters, as it was. -/
theorem C11_snapshot_round_trip (P : Platform) (hid : ∀ m : P.Mat, P.mul P.identity m = m)
    (persp : P.Mat) (name : List Char) (s0 t : PointCloudRenderer P) (op : Op P)
    (ops : List (Op P)) (hm : Op.mutates s0 op = true) (w : MainWindow P) (k : Nat) :
    ∃ t', applyViewport
        (setParameters (ViewportObject.create persp name)
          (getViewportParameters (run (step s0 op) ops))) (some t) = some t' ∧
      (getViewportParameters t').rotation = (run (step s0 op) ops).m_rotation ∧
      (getViewportParameters t').cameraDistance = (run (step s0 op) ops).m_distance ∧
      (getViewportParameters t').modelCenter = (run (step s0 op) ops).m_modelCenter ∧
      (getViewportParameters t').pointSize = (run (step s0 op) ops).m_pointSize ∧
      (getViewportParameters t').boundingBoxMin = (run (step s0 op) ops).m_boundingBoxMin ∧
      (getViewportParameters t').boundingBoxMax = (run (step s0 op) ops).m_boundingBoxMax ∧
      (getViewportParameters t').projectionMatrix = (run (step s0 op) ops).m_projection ∧
      (getViewportParameters t').modelViewMatrix = (run (step s0 op) ops).m_modelView ∧
      getViewportParameters t' = getViewportParameters (run (step s0 op) ops) ∧
      getParameters (setParameters (ViewportObject.create persp name)
          (getViewportParameters (run (step s0 op) ops)))
        = getViewportParameters (run (step s0 op) ops) ∧
      (onTreeWidgetItemDoubleClicked w k).m_viewportList = w.m_viewportList := by
  have hs : viewValid (run (step s0 op) ops) :=
    viewValid_run hid _ ops (viewValid_step hid s0 op (Or.inl hm))
  have hrt := getViewportParameters_setViewport hid (run (step s0 op) ops) t hs
  refine ⟨setViewport t (getViewportParameters (run (step s0 op) ops)), rfl, ?_, ?_, ?_, ?_,
    ?_, ?_, ?_, ?_, hrt, rfl, (onTreeWidgetItemDoubleClicked_registry w k).1⟩
  · exact congrArg ViewportParameters.rotation hrt
  · exact congrArg ViewportParameters.cameraDistance hrt
  · exact congrArg ViewportParameters.modelCenter hrt
  · exact congrArg ViewportParameters.pointSize hrt
  · exact congrArg ViewportParameters.boundingBoxMin hrt
  · exact congrArg ViewportParameters.boundingBoxMax hrt
  · exact congrArg ViewportParameters.projectionMatrix hrt
  · exact congrArg ViewportParameters.modelViewMatrix hrt

/-- Witness of C11. On the reference platform, Scenario A is loaded, the view
is turned by a drag step and zoomed by one notch; the parameters captured then
and replayed onto a fresh renderer give rotation (10, 5, 0) and the distance
of the zoomed state, and the replayed parameters are those captured. -/
theorem C11_snapshot_round_trip_witness :
    (∀ m : refPlatform.Mat, refPlatform.mul refPlatform.identity m = m) ∧
    Op.mutates (newRenderer refPlatform) (Op.loadPts (some scenarioA)) = true ∧
    (∃ t', applyViewport
        (setParameters (ViewportObject.create refPlatform.identity "Viewport #1".toList)
          (getViewportParameters (run (step (newRenderer refPlatform) (Op.loadPts (some scenarioA)))
            [Op.mouseMove true (10, 20), Op.wheel 120]))) (some (newRenderer refPlatform))
          = some t' ∧
      (getViewportParameters t').rotation = ⟨Flt.fin 10, Flt.fin 5, Flt.fin 0⟩ ∧
      getViewportParameters t' =
        getViewportParameters (run (step (newRenderer refPlatform) (Op.loadPts (some scenarioA)))
          [Op.mouseMove true (10, 20), Op.wheel 120])) := by
  have hm : Op.mutates (newRenderer refPlatform) (Op.loadPts (some scenarioA)) = true := by
    decide!
  refine ⟨refPlatform_identity_mul, hm, ?_⟩
  obtain ⟨t', h1, h2, _, _, _, _, _, _, _, h3, _⟩ :=
    C11_snapshot_round_trip refPlatform refPlatform_identity_mul refPlatform.identity
      "Viewport #1".toList (newRenderer refPlatform) (newRenderer refPlatform)
      (Op.loadPts (some scenarioA)) [Op.mouseMove true (10, 20), Op.wheel 120] hm
      (MainWindow.create refPlatform) 0
  refine ⟨t', h1, ?_, h3⟩
  rw [h2]
  decide!

/-! ## The range of the camera distance -/

theorem inRange_five : inRange (Flt.fin 5) := by
  unfold inRange; simp [Flt.le]; norm_num

theorem distance_of_viewOf {P : Platform} (r s : PointCloudRenderer P)
    (h : viewOf r = viewOf s) : r.m_distance = s.m_distance := by
  simp only [viewOf, Prod.mk.injEq] at h
  exact h.2.1

theorem mouseMoveEvent_distance {P : Platform} (s : PointCloudRenderer P) (left : Bool)
    (pos : Int × Int) : (mouseMoveEvent s left pos).m_distance = s.m_distance := by
  cases left <;> rfl

theorem loadPtsFile_distance {P : Platform} (s : PointCloudRenderer P)
    (file : Option (List Char)) (h : (loadPtsFile s file).1 = true) :
    (loadPtsFile s file).2.m_distance
      = (framingOf P (loadPtsFile s file).2.m_boundingBoxMin
          (loadPtsFile s file).2.m_boundingBoxMax).2 := by
  cases file with
  | none => simp [loadPtsFile] at h
  | some text =>
    have hf : ((loadPtsFile s (some text)).2.m_modelCenter,
        (loadPtsFile s (some text)).2.m_distance)
        = framingOf P (List.foldl ptsLine (clearCloud s) (readLines text)).m_boundingBoxMin
            (List.foldl ptsLine (clearCloud s) (readLines text)).m_boundingBoxMax :=
      frameLoaded_framing _
    exact (congrArg Prod.snd hf)

theorem loadPlyFile_distance {P : Platform} (s : PointCloudRenderer P)
    (file : Option (List Char)) (h : (loadPlyFile s file).1 = true) :
    (loadPlyFile s file).2.m_distance
      = (framingOf P (loadPlyFile s file).2.m_boundingBoxMin
          (loadPlyFile s file).2.m_boundingBoxMax).2 := by
  cases file with
  | none => simp [loadPlyFile] at h
  | some bytes => exact congrArg Prod.snd (loadPlyFile_framing s bytes h)

/-- An operation that brings no distance from outside the range keeps the
distance in range. -/
theorem inRange_step {P : Platform} (s : PointCloudRenderer P) (op : Op P)
    (hs : inRange s.m_distance) (hop : Op.keepsRange s op) :
    inRange (step s op).m_distance := by
  cases op with
  | loadPts file =>
    cases hl : (loadPtsFile s file).1
    · rw [show (step s (Op.loadPts file)).m_distance = s.m_distance from
        distance_of_viewOf _ s (viewOf_loadPtsFile_of_fail s file hl)]
      exact hs
    · rw [show (step s (Op.loadPts file)).m_distance = _ from loadPtsFile_distance s file hl]
      exact hop hl
  | loadPly file =>
    cases hl : (loadPlyFile s file).1
    · rw [show (step s (Op.loadPly file)).m_distance = s.m_distance from
        distance_of_viewOf _ s (viewOf_loadPlyFile_of_fail s file hl)]
      exact hs
    · rw [show (step s (Op.loadPly file)).m_distance = _ from loadPlyFile_distance s file hl]
      exact hop hl
  | setViewport params => exact hop
  | replay v => exact hop
  | resetView => exact hs
  | mousePress pos => exact hs
  | mouseMove left pos =>
    rw [show (step s (Op.mouseMove left pos)).m_distance = s.m_distance from
      mouseMoveEvent_distance s left pos]
    exact hs
  | wheel d =>
    rw [show (step s (Op.wheel d)).m_distance = _ from wheelEvent_distance s d]
    exact inRange_clamp _

theorem inRange_run {P : Platform} (s : PointCloudRenderer P) (ops : List (Op P))
    (hs : inRange s.m_distance) (hops : keepsRangeAll s ops) :
    inRange (run s ops).m_distance := by
  induction ops generalizing s with
  | nil => exact hs
  | cons op ops ih => exact ih _ (inRange_step s op hs hops.1) hops.2

/-- The distance after an operation is the distance the operation assigns,
and the distance before it when it assigns none. -/
theorem step_distance {P : Platform} (s : PointCloudRenderer P) (op : Op P) :
    (step s op).m_distance = (Op.assigns s op).getD s.m_distance := by
  cases op with
  | loadPts file =>
    cases hl : (loadPtsFile s file).1
    · rw [show (step s (Op.loadPts file)).m_distance = s.m_distance from
        distance_of_viewOf _ s (viewOf_loadPtsFile_of_fail s file hl)]
      simp [Op.assigns, hl]
    · rw [show (step s (Op.loadPts file)).m_distance = _ from loadPtsFile_distance s file hl]
      simp [Op.assigns, hl]
  | loadPly file =>
    cases hl : (loadPlyFile s file).1
    · rw [show (step s (Op.loadPly file)).m_distance = s.m_distance from
        distance_of_viewOf _ s (viewOf_loadPlyFile_of_fail s file hl)]
      simp [Op.assigns, hl]
    · rw [show (step s (Op.loadPly file)).m_distance = _ from loadPlyFile_distance s file hl]
      simp [Op.assigns, hl]
  | setViewport params => rfl
  | replay v => rfl
  | resetView => rfl
  | mousePress pos => rfl
  | mouseMove left pos => exact mouseMoveEvent_distance s left pos
  | wheel d => exact wheelEvent_distance s d

theorem run_distance {P : Platform} (s : PointCloudRenderer P) (ops : List (Op P)) :
    (run s ops).m_distance = lastAssigned s s.m_distance ops := by
  induction ops generalizing s with
  | nil => rfl
  | cons op ops ih =>
    rw [show run s (op :: ops) = run (step s op) ops from rfl, ih, step_distance]
    rfl

/-- C14 (amended). From the constructed renderer, after any sequence of
loads, `setViewport` calls, snapshot replays, `resetView`, mouse presses,
moves and wheel events the camera distance is the value assigned by the last
operation that assigns one, 5.0 when none does; so it lies in [0.1, 1000.0]
exactly when that value does. A wheel event assigns a value in
[0.1, 1000.0] in every state `s`, so the distance is in range after a wheel
event followed by operations that bring no distance from outside the range,
and from the constructed renderer after any sequence of such operations. -/
theorem C14_distance_range (P : Platform) (s : PointCloudRenderer P) (ops : List (Op P)) :
    (run (newRenderer P) ops).m_distance = lastAssigned (newRenderer P) (Flt.fin 5) ops ∧
    (inRange (run (newRenderer P) ops).m_distance ↔
      inRange (lastAssigned (newRenderer P) (Flt.fin 5) ops)) ∧
    (∀ angleDeltaY v, Op.assigns s (Op.wheel angleDeltaY) = some v → inRange v) ∧
    (∀ angleDeltaY, keepsRangeAll (step s (Op.wheel angleDeltaY)) ops →
      inRange (run s (Op.wheel angleDeltaY :: ops)).m_distance) ∧
    (keepsRangeAll (newRenderer P) ops → inRange (run (newRenderer P) ops).m_distance) := by
  have h1 : (run (newRenderer P) ops).m_distance
      = lastAssigned (newRenderer P) (Flt.fin 5) ops := run_distance _ ops
  refine ⟨h1, by rw [h1], ?_, ?_, fun h => inRange_run _ ops inRange_five h⟩
  · intro d v hv
    simp only [Op.assigns, Option.some.injEq] at hv
    rw [← hv]
    exact inRange_clamp _
  · intro d h
    refine inRange_run _ ops ?_ h
    rw [show (step s (Op.wheel d)).m_distance = _ from wheelEvent_distance s d]
    exact inRange_clamp _

/-- Witness of C14. On the reference platform: a cloud of one point is
loaded, which brings the distance to 0, and one wheel notch brings it to 0.1,
the value last assigned; and after Scenario A is loaded, a drag step, 60
notches of zoom-out, a reset and a `setViewport` with distance 2, none of
which brings a distance from outside the range, the distance is 2. -/
theorem C14_distance_range_witness :
    lastAssigned (newRenderer refPlatform) (Flt.fin 5) [Op.loadPts (some onePoint), Op.wheel 120]
      = Flt.fin (1/10) ∧
    (run (newRenderer refPlatform) [Op.loadPts (some onePoint), Op.wheel 120]).m_distance
      = Flt.fin (1/10) ∧
    inRange (run (newRenderer refPlatform) [Op.loadPts (some onePoint), Op.wheel 120]).m_distance ∧
    keepsRangeAll (newRenderer refPlatform)
      ([Op.loadPts (some scenarioA), Op.mouseMove true (10, 20)] ++
        List.replicate 60 (Op.wheel (-120)) ++
        [Op.resetView, Op.setViewport (withDistance (newRenderer refPlatform) (Flt.fin 2))]) ∧
    inRange (run (newRenderer refPlatform)
      ([Op.loadPts (some scenarioA), Op.mouseMove true (10, 20)] ++
        List.replicate 60 (Op.wheel (-120)) ++
        [Op.resetView, Op.setViewport (withDistance (newRenderer refPlatform) (Flt.fin 2))])).m_distance ∧
    (run (newRenderer refPlatform)
      ([Op.loadPts (some scenarioA), Op.mouseMove true (10, 20)] ++
        List.replicate 60 (Op.wheel (-120)) ++
        [Op.resetView, Op.setViewport (withDistance (newRenderer refPlatform) (Flt.fin 2))])).m_distance
      = Flt.fin 2 := by
  have hl : lastAssigned (newRenderer refPlatform) (Flt.fin 5)
      [Op.loadPts (some onePoint), Op.wheel 120] = Flt.fin (1/10) := by decide!
  have hk : keepsRangeAll (newRenderer refPlatform)
      ([Op.loadPts (some scenarioA), Op.mouseMove true (10, 20)] ++
        List.replicate 60 (Op.wheel (-120)) ++
        [Op.resetView, Op.setViewport (withDistance (newRenderer refPlatform) (Flt.fin 2))]) := by
    simp only [List.replicate, List.cons_append, List.nil_append, keepsRangeAll, Op.keepsRange,
      and_true, true_and]
    refine ⟨fun _ => ⟨by decide!, by decide!⟩, ⟨by decide!, by decide!⟩⟩
  have h1 := C14_distance_range refPlatform (newRenderer refPlatform)
    [Op.loadPts (some onePoint), Op.wheel 120]
  refine ⟨hl, by rw [h1.1, hl], ?_,
    hk, (C14_distance_range refPlatform (newRenderer refPlatform) _).2.2.2.2 hk, by decide!⟩
  exact (C14_distance_range refPlatform (loadPtsFile (newRenderer refPlatform) (some onePoint)).2
    []).2.2.2.1 120 trivial

/-- Counterexample to C14 as stated. From the constructed renderer of the
reference platform, loading a cloud of one point brings the distance to 0,
loading two points 1000 apart brings it to 1500, and `setViewport` with the
camera distance 5000 brings it to 5000; none lies in [0.1, 1000.0]. -/
theorem C14_counterexample :
    ((loadPtsFile (newRenderer refPlatform) (some onePoint)).1 = true ∧
      (run (newRenderer refPlatform) [Op.loadPts (some onePoint)]).m_distance = Flt.fin 0 ∧
      ¬ inRange (run (newRenderer refPlatform) [Op.loadPts (some onePoint)]).m_distance) ∧
    ((loadPtsFile (newRenderer refPlatform) (some widePoints)).1 = true ∧
      (run (newRenderer refPlatform) [Op.loadPts (some widePoints)]).m_distance = Flt.fin 1500 ∧
      ¬ inRange (run (newRenderer refPlatform) [Op.loadPts (some widePoints)]).m_distance) ∧
    ((run (newRenderer refPlatform)
        [Op.setViewport (withDistance (newRenderer refPlatform) (Flt.fin 5000))]).m_distance
        = Flt.fin 5000 ∧
      ¬ inRange (run (newRenderer refPlatform)
        [Op.setViewport (withDistance (newRenderer refPlatform) (Flt.fin 5000))]).m_distance) := by
  have h1 : (run (newRenderer refPlatform) [Op.loadPts (some onePoint)]).m_distance
      = Flt.fin 0 := by decide!
  have h2 : (run (newRenderer refPlatform) [Op.loadPts (some widePoints)]).m_distance
      = Flt.fin 1500 := by decide!
  have h3 : (run (newRenderer refPlatform)
      [Op.setViewport (withDistance (newRenderer refPlatform) (Flt.fin 5000))]).m_distance
      = Flt.fin 5000 := rfl
  refine ⟨⟨by decide!, h1, ?_⟩, ⟨by decide!, h2, ?_⟩, ⟨h3, ?_⟩⟩
  · rw [h1]; intro h; have := h.1; revert this; decide!
  · rw [h2]; intro h; have := h.2; revert this; decide!
  · rw [h3]; intro h; have := h.2; revert this; decide!


/-! ## The registry of snapshots -/

theorem registryInv_create (P : Platform) : registryInv (MainWindow.create P) :=
  ⟨rfl, fun k v h => by simp [MainWindow.create] at h, rfl⟩

theorem registryInv_congr {P : Platform} (w u : MainWindow P)
    (h1 : u.m_viewportList = w.m_viewportList) (h2 : u.m_dbTreeWidget = w.m_dbTreeWidget)
    (h3 : u.s_viewportIndex = w.s_viewportIndex) (hw : registryInv w) : registryInv u := by
  unfold registryInv
  rw [h1, h2, h3]
  exact hw

/-- A capture keeps the invariant: the counter is incremented and the new
snapshot, named after it, joins the end of the list and of the tree. -/
theorem registryInv_capture {P : Platform} (w : MainWindow P) (v : ViewportObject P)
    (hw : registryInv w) (hv : v.m_name = viewportName ((w.s_viewportIndex + 1) % 2 ^ 32)) :
    registryInv (addToDB (incrViewportIndex w) v) := by
  obtain ⟨hc, hn, ht⟩ := hw
  have hidx : (w.s_viewportIndex + 1) % 2 ^ 32 = (w.m_viewportList.length + 1) % 2 ^ 32 := by
    rw [hc, Nat.add_mod, Nat.mod_mod, ← Nat.add_mod]
  refine ⟨?_, ?_, ?_⟩
  · simp only [addToDB, updateTreeWidget, incrViewportIndex, List.length_append,
      List.length_singleton]
    exact hidx
  · intro k u hk
    simp only [addToDB, updateTreeWidget, incrViewportIndex] at hk
    by_cases hlt : k < w.m_viewportList.length
    · rw [List.getElem?_append_left hlt] at hk
      exact hn k u hk
    · have hge : w.m_viewportList.length ≤ k := Nat.le_of_not_lt hlt
      rw [List.getElem?_append_right hge] at hk
      have hk0 : k - w.m_viewportList.length = 0 := by
        by_contra hne
        obtain ⟨j, hj⟩ : ∃ j, k - w.m_viewportList.length = j + 1 :=
          ⟨k - w.m_viewportList.length - 1, by omega⟩
        rw [hj] at hk
        simp at hk
      rw [hk0] at hk
      simp only [List.getElem?_cons_zero, Option.some.injEq] at hk
      have hke : k = w.m_viewportList.length := by omega
      rw [← hk, hv, hidx, hke]
  · simp only [addToDB, updateTreeWidget, incrViewportIndex, getName, List.map_append,
      List.map_cons, List.map_nil]
    rw [ht]

theorem registryInv_doActionSaveViewportAsObject {P : Platform} (persp : P.Mat)
    (w : MainWindow P) (hw : registryInv w) :
    registryInv (doActionSaveViewportAsObject persp w) := by
  unfold doActionSaveViewportAsObject
  split_ifs
  · exact hw
  · exact registryInv_capture w _ hw rfl

/-- The capture with user coordinates either is rejected and changes nothing,
or sets the renderer, increments the counter and appends a snapshot named
after it. -/
theorem doActionSaveViewportWithUserCoords_cases {P : Platform} (persp : P.Mat)
    (w : MainWindow P) (x y z : Option ℚ) :
    doActionSaveViewportWithUserCoords persp w x y z = w ∨
    ∃ r v, doActionSaveViewportWithUserCoords persp w x y z
        = addToDB (incrViewportIndex { w with m_renderer := r }) v ∧
      v.m_name = viewportName ((w.s_viewportIndex + 1) % 2 ^ 32) := by
  simp only [doActionSaveViewportWithUserCoords]
  by_cases h0 : getPointCount w.m_renderer = 0
  · left; rw [if_pos h0]
  · rw [if_neg h0]
    by_cases h1 : Flt.le (P.length (getBoundingBoxSize w.m_renderer)) (Flt.fin 0) = true
    · left; rw [if_pos h1]
    · rw [if_neg h1]
      cases x with
      | none => left; rfl
      | some xv =>
        cases y with
        | none => left; rfl
        | some yv =>
          cases z with
          | none => left; rfl
          | some zv => right; exact ⟨_, _, rfl, rfl⟩

theorem registryInv_doActionSaveViewportWithUserCoords {P : Platform} (persp : P.Mat)
    (w : MainWindow P) (x y z : Option ℚ) (hw : registryInv w) :
    registryInv (doActionSaveViewportWithUserCoords persp w x y z) := by
  rcases doActionSaveViewportWithUserCoords_cases persp w x y z with h | ⟨r, v, h, hv⟩
  · rw [h]; exact hw
  · rw [h]
    exact registryInv_capture { w with m_renderer := r } v
      (registryInv_congr w _ rfl rfl rfl hw) hv

theorem openPointCloudFile_registry {P : Platform} (w : MainWindow P) (c : FileChoice) :
    (openPointCloudFile w c).m_viewportList = w.m_viewportList ∧
    (openPointCloudFile w c).m_dbTreeWidget = w.m_dbTreeWidget ∧
    (openPointCloudFile w c).s_viewportIndex = w.s_viewportIndex := by
  cases c <;> exact ⟨rfl, rfl, rfl⟩

/-- Every action keeps the invariant of the registry. -/
theorem registryInv_act {P : Platform} (persp : P.Mat) (w : MainWindow P) (a : Action P)
    (hw : registryInv w) : registryInv (act persp w a) := by
  cases a with
  | openFile c =>
    exact registryInv_congr w _ (openPointCloudFile_registry w c).1
      (openPointCloudFile_registry w c).2.1 (openPointCloudFile_registry w c).2.2 hw
  | resetView => exact registryInv_congr w _ rfl rfl rfl hw
  | saveAsObject => exact registryInv_doActionSaveViewportAsObject persp w hw
  | saveWithUserCoords x y z => exact registryInv_doActionSaveViewportWithUserCoords persp w x y z hw
  | doubleClick k =>
    exact registryInv_congr w _ (onTreeWidgetItemDoubleClicked_registry w k).1
      (onTreeWidgetItemDoubleClicked_registry w k).2.1
      (onTreeWidgetItemDoubleClicked_registry w k).2.2 hw
  | render op => exact registryInv_congr w _ rfl rfl rfl hw

theorem registryInv_session {P : Platform} (persp : P.Mat) (w : MainWindow P)
    (acts : List (Action P)) (hw : registryInv w) : registryInv (session persp w acts) := by
  induction acts generalizing w with
  | nil => exact hw
  | cons a acts ih => exact ih _ (registryInv_act persp w a hw)

/-- An action only appends to the list of snapshots. -/
theorem act_list_extends {P : Platform} (persp : P.Mat) (w : MainWindow P) (a : Action P) :
    w.m_viewportList <+: (act persp w a).m_viewportList := by
  cases a with
  | openFile c => rw [show (act persp w (Action.openFile c)).m_viewportList = w.m_viewportList
      from (openPointCloudFile_registry w c).1]
  | resetView => exact List.prefix_refl _
  | saveAsObject =>
    simp only [act, doActionSaveViewportAsObject]
    split_ifs
    · exact List.prefix_refl _
    · exact List.prefix_append _ _
  | saveWithUserCoords x y z =>
    rcases doActionSaveViewportWithUserCoords_cases persp w x y z with h | ⟨r, v, h, _⟩
    · rw [show act persp w (Action.saveWithUserCoords x y z) = w from h]
    · rw [show act persp w (Action.saveWithUserCoords x y z) = _ from h]
      exact List.prefix_append _ _
  | doubleClick k => rw [show (act persp w (Action.doubleClick k)).m_viewportList
      = w.m_viewportList from (onTreeWidgetItemDoubleClicked_registry w k).1]
  | render op => exact List.prefix_refl _

theorem session_list_extends {P : Platform} (persp : P.Mat) (w : MainWindow P)
    (acts : List (Action P)) : w.m_viewportList <+: (session persp w acts).m_viewportList := by
  induction acts generalizing w with
  | nil => exact List.prefix_refl _
  | cons a acts ih => exact (act_list_extends persp w a).trans (ih _)

theorem session_append {P : Platform} (persp : P.Mat) (w : MainWindow P)
    (acts more : List (Action P)) :
    session persp w (acts ++ more) = session persp (session persp w acts) more := by
  simp [session, List.foldl_append]

/-- C15 (amended). From a fresh session, after any sequence of actions, the
capture actions accepted or rejected among them, that leaves fewer than
`2 ^ 32` snapshots: the counter equals the length of the list, the `k`-th
snapshot, counted from 1, is named "Viewport #k", the tree shows these names
in the same order, and whatever actions follow, the list stays a prefix of
the later list. -/
theorem C15_snapshot_names (P : Platform) (persp : P.Mat) (acts more : List (Action P))
    (hlen : (freshSession persp acts).m_viewportList.length < 2 ^ 32) :
    (freshSession persp acts).s_viewportIndex = (freshSession persp acts).m_viewportList.length ∧
    (∀ k v, (freshSession persp acts).m_viewportList[k]? = some v →
      v.m_name = viewportName (k + 1)) ∧
    (freshSession persp acts).m_dbTreeWidget
      = (freshSession persp acts).m_viewportList.map (fun v => v.m_name) ∧
    (freshSession persp acts).m_viewportList
      <+: (freshSession persp (acts ++ more)).m_viewportList := by
  obtain ⟨hc, hn, ht⟩ := registryInv_session persp _ acts (registryInv_create P)
  refine ⟨?_, ?_, ht, ?_⟩
  · rw [show (freshSession persp acts).s_viewportIndex = _ from hc]
    exact Nat.mod_eq_of_lt hlen
  · intro k v hk
    have hk' : (session persp (MainWindow.create P) acts).m_viewportList[k]? = some v := hk
    have hlt : k < (freshSession persp acts).m_viewportList.length := by
      by_contra hge
      rw [show (freshSession persp acts).m_viewportList[k]? = none from
        List.getElem?_eq_none (Nat.le_of_not_lt hge)] at hk
      exact Option.noConfusion hk
    rw [hn k v hk', Nat.mod_eq_of_lt (by omega)]
  · unfold freshSession
    rw [session_append]
    exact session_list_extends persp _ more

/-- Witness of C15. In the session `twoCaptures` the rejected capture and the
cancelled one add nothing, and the two accepted captures are named
"Viewport #1" and "Viewport #2", in that order, with the counter at 2. -/
theorem C15_snapshot_names_witness :
    (freshSession refPlatform.identity twoCaptures).m_viewportList.length < 2 ^ 32 ∧
    (freshSession refPlatform.identity twoCaptures).s_viewportIndex = 2 ∧
    (freshSession refPlatform.identity twoCaptures).m_viewportList.map (fun v => v.m_name)
      = ["Viewport #1".toList, "Viewport #2".toList] ∧
    (freshSession refPlatform.identity twoCaptures).m_dbTreeWidget
      = ["Viewport #1".toList, "Viewport #2".toList] := by
  have hlen : (freshSession refPlatform.identity twoCaptures).m_viewportList.length = 2 := by
    decide!
  have h := C15_snapshot_names refPlatform refPlatform.identity twoCaptures []
    (by rw [hlen]; norm_num)
  refine ⟨by rw [hlen]; norm_num, by rw [h.1, hlen], by decide!, ?_⟩
  rw [h.2.2.1]
  decide!

/-- Captures on a window whose renderer holds points: each is accepted. -/
theorem session_replicate_saveAsObject {P : Platform} (persp : P.Mat) (n : Nat)
    (w : MainWindow P) (hw : getPointCount w.m_renderer ≠ 0) :
    (session persp w (List.replicate n Action.saveAsObject)).m_viewportList.length
      = w.m_viewportList.length + n := by
  induction n generalizing w with
  | zero => rfl
  | succ n ih =>
    rw [List.replicate_succ, session, List.foldl_cons]
    have hstep : act persp w Action.saveAsObject
        = addToDB (incrViewportIndex w)
            (setDisplay (setParameters
              (ViewportObject.create persp (viewportName (incrViewportIndex w).s_viewportIndex))
              (getViewportParameters (incrViewportIndex w).m_renderer)) (some ())) := by
      simp only [act, doActionSaveViewportAsObject, hw, if_false]
    have h := ih (act persp w Action.saveAsObject) (by rw [hstep]; exact hw)
    rw [show List.foldl (act persp) (act persp w Action.saveAsObject)
        (List.replicate n Action.saveAsObject)
        = session persp (act persp w Action.saveAsObject)
            (List.replicate n Action.saveAsObject) from rfl, h, hstep]
    simp only [addToDB, updateTreeWidget, incrViewportIndex, List.length_append,
      List.length_singleton]
    omega

/-- Counterexample to C15 as stated. After Scenario A is opened and `2 ^ 32`
captures are made, the list holds 4294967296 snapshots while the counter, an
`unsigned` of 32 bits, is back at 0, and the last snapshot is named
"Viewport #0". -/
theorem C15_counterexample :
    (freshSession refPlatform.identity manyCaptures).m_viewportList.length = 4294967296 ∧
    (freshSession refPlatform.identity manyCaptures).s_viewportIndex = 0 ∧
    (freshSession refPlatform.identity manyCaptures).s_viewportIndex
      ≠ (freshSession refPlatform.identity manyCaptures).m_viewportList.length ∧
    (∃ v, (freshSession refPlatform.identity manyCaptures).m_viewportList[4294967295]? = some v ∧
      v.m_name = "Viewport #0".toList ∧ v.m_name ≠ viewportName 4294967296) := by
  have hinv : registryInv (freshSession refPlatform.identity manyCaptures) :=
    registryInv_session refPlatform.identity _ manyCaptures (registryInv_create refPlatform)
  have hlen : (freshSession refPlatform.identity manyCaptures).m_viewportList.length
      = 4294967296 := by
    unfold freshSession manyCaptures
    rw [session, List.foldl_cons]
    have h := session_replicate_saveAsObject refPlatform.identity 4294967296
      (act refPlatform.identity (MainWindow.create refPlatform)
        (Action.openFile (FileChoice.pts (some scenarioA)))) (by decide!)
    rw [show List.foldl (act refPlatform.identity) _ (List.replicate 4294967296 Action.saveAsObject)
      = session refPlatform.identity _ (List.replicate 4294967296 Action.saveAsObject) from rfl, h]
    rfl
  have hidx : (freshSession refPlatform.identity manyCaptures).s_viewportIndex = 0 := by
    rw [hinv.1, hlen]
    norm_num
  refine ⟨hlen, hidx, by rw [hidx, hlen]; decide, ?_⟩
  have hlt : 4294967295 < (freshSession refPlatform.identity manyCaptures).m_viewportList.length := by
    rw [hlen]; decide
  refine ⟨(freshSession refPlatform.identity manyCaptures).m_viewportList[4294967295],
    List.getElem?_eq_getElem hlt, ?_, ?_⟩
  · rw [hinv.2.1 4294967295 _ (List.getElem?_eq_getElem hlt)]
    decide!
  · rw [hinv.2.1 4294967295 _ (List.getElem?_eq_getElem hlt)]
    decide!

/-! ## The matrix a snapshot stores -/

/-- The capture `doActionSaveViewportAsObject` appends a valid snapshot when
the renderer satisfies the view-matrix invariant. -/
theorem snapshotValid_doActionSaveViewportAsObject {P : Platform} (persp : P.Mat)
    (w : MainWindow P) (hr : viewValid w.m_renderer) (v : ViewportObject P)
    (hv : v ∈ (doActionSaveViewportAsObject persp w).m_viewportList) :
    v ∈ w.m_viewportList ∨ snapshotValid v := by
  unfold doActionSaveViewportAsObject at hv
  split_ifs at hv
  · exact Or.inl hv
  · simp only [addToDB, updateTreeWidget, incrViewportIndex, List.mem_append,
      List.mem_singleton] at hv
    rcases hv with hv | hv
    · exact Or.inl hv
    · right
      rw [hv]
      exact hr

/-- C16 (code bug). On the reference platform Scenario A is opened and a
capture with the user coordinates (0, 0, 0) is made. The snapshot stores the
model centre (0, 0, 0) together with the model-view matrix the renderer had
before, whose translation column is that of the centre (2.5, 3.5, 4.5): the
snapshot is not a valid viewport state, while the renderer, which recomputed
its own matrix, is. -/
theorem C16_user_coords_snapshot_is_stale :
    ∃ v, (freshSession refPlatform.identity userCapture).m_viewportList = [v] ∧
      v.m_name = "Viewport #1".toList ∧
      v.m_params.modelCenter = ⟨Flt.fin 0, Flt.fin 0, Flt.fin 0⟩ ∧
      v.m_params.modelViewMatrix
        = (loadPtsFile (initializeGL (newRenderer refPlatform)) (some scenarioA)).2.m_modelView ∧
      Mat4.entry v.m_params.modelViewMatrix 0 3 = Flt.fin (-5/2) ∧
      Mat4.entry (viewMatrix refPlatform v.m_params.cameraDistance v.m_params.rotation
        v.m_params.modelCenter) 0 3 = Flt.fin 0 ∧
      ¬ snapshotValid v ∧
      viewValid (freshSession refPlatform.identity userCapture).m_renderer ∧
      (freshSession refPlatform.identity userCapture).m_renderer.m_modelView
        ≠ v.m_params.modelViewMatrix := by
  have hl : (freshSession refPlatform.identity userCapture).m_viewportList.length = 1 := by
    decide!
  obtain ⟨v, hv⟩ : ∃ v, (freshSession refPlatform.identity userCapture).m_viewportList = [v] := by
    cases hlist : (freshSession refPlatform.identity userCapture).m_viewportList with
    | nil => rw [hlist] at hl; simp at hl
    | cons a l =>
      cases l with
      | nil => exact ⟨a, rfl⟩
      | cons b l => rw [hlist] at hl; simp at hl
  have hget : (freshSession refPlatform.identity userCapture).m_viewportList[0]? = some v := by
    rw [hv]; rfl
  have hv0 : v = ((freshSession refPlatform.identity userCapture).m_viewportList[0]?).getD
      (ViewportObject.create refPlatform.identity []) := by rw [hget]; rfl
  have e1 : Mat4.entry v.m_params.modelViewMatrix 0 3 = Flt.fin (-5/2) := by
    rw [hv0]; decide!
  have e2 : Mat4.entry (viewMatrix refPlatform v.m_params.cameraDistance v.m_params.rotation
      v.m_params.modelCenter) 0 3 = Flt.fin 0 := by
    rw [hv0]; decide!
  have e3 : Mat4.entry (freshSession refPlatform.identity userCapture).m_renderer.m_modelView 0 3
      = Flt.fin 0 := by decide!
  refine ⟨v, hv, ?_, ?_, ?_, e1, e2, ?_, ?_, ?_⟩
  · rw [hv0]; decide!
  · rw [hv0]; decide!
  · rw [hv0]
    show @Eq Mat4 _ _
    decide!
  · intro hvalid
    unfold snapshotValid at hvalid
    rw [hvalid, e2] at e1
    revert e1
    decide!
  · show @Eq Mat4 _ _
    decide!
  · intro heq
    rw [heq, e1] at e3
    revert e3
    decide!

/-! ## The number of records of the structured format -/

theorem asciiBody_length {P : Platform} (hd : PlyHeader) (k i : Nat) (f : IStream)
    (line : List Char) (s : PointCloudRenderer P) :
    (asciiBody hd k i f line s).m_vertices.length = s.m_vertices.length + k := by
  induction k generalizing i f line s with
  | zero => rfl
  | succ k ih =>
    simp only [asciiBody]
    rw [ih, addVertex_vertices, List.length_append, List.length_singleton]
    omega

theorem binaryBody_length {P : Platform} (hd : PlyHeader) (k i : Nat) (f : IStream)
    (s : PointCloudRenderer P) (h : (binaryBody hd k i f s).1 = true) :
    (binaryBody hd k i f s).2.m_vertices.length = s.m_vertices.length + k := by
  induction k generalizing i f s with
  | zero => rfl
  | succ k ih =>
    simp only [binaryBody] at h ⊢
    split_ifs at h ⊢
    rw [ih _ _ _ h, addVertex_vertices, List.length_append, List.length_singleton]
    omega

/-- A load of the structured format that succeeds leaves as many vertices as
the header declares, none when the declared number is negative; the point
count is that number converted to `int`. -/
theorem loadPlyFile_count {P : Platform} (s : PointCloudRenderer P) (bytes : List Char)
    (h : (loadPlyFile s (some bytes)).1 = true) :
    (loadPlyFile s (some bytes)).2.m_vertices.length
      = (readPlyHeader P bytes).1.numVertices.toNat ∧
    getPointCount (loadPlyFile s (some bytes)).2
      = toInt32 (readPlyHeader P bytes).1.numVertices.toNat := by
  have hlen : (loadPlyFile s (some bytes)).2.m_vertices.length
      = (readPlyHeader P bytes).1.numVertices.toNat := by
    simp only [loadPlyFile] at h ⊢
    split_ifs at h ⊢
    · rw [frameLoaded_vertices, asciiBody_length]
      simp [clearCloud]
    · have hb := binaryBody_length (readPlyHeader P bytes).1
        (readPlyHeader P bytes).1.numVertices.toNat 0 (readPlyHeader P bytes).2.1 (clearCloud s)
      revert h hb
      split
      · intro h; simp at h
      · rename_i heq
        intro _ hb
        rw [heq] at hb
        rw [frameLoaded_vertices, hb rfl]
        simp [clearCloud]
  exact ⟨hlen, by unfold getPointCount; rw [hlen]⟩

/-- In ASCII mode a file whose header is accepted loads with success,
whatever its body. -/
theorem loadPlyFile_ascii_succeeds {P : Platform} (s : PointCloudRenderer P)
    (bytes : List Char)
    (hacc : (hasEndHeader bytes && headerBinds bytes "x".toList && headerBinds bytes "y".toList
      && headerBinds bytes "z".toList) = true)
    (hascii : (readPlyHeader P bytes).1.isBinary = false) :
    (loadPlyFile s (some bytes)).1 = true := by
  have hchk := (header_accepted_iff P bytes).mpr hacc
  simp only [loadPlyFile, hchk, Bool.false_eq_true, if_false, hascii, Bool.not_false, if_true]

/-- C17 (code bug). An ASCII file declares 2 vertices of three floats and
holds the single line `1 2 3` with no line end. The load succeeds with 2
vertices, as many as declared; the record that is missing is decoded from the
line left over from the record before, so the second vertex is (1, 2, 3)
again, not (0, 0, 0), and the bounding box is (1,2,3)-(1,2,3). -/
theorem C17_short_ascii_body_repeats_last_line :
    (loadPlyFile (newRenderer refPlatform) (some plyShort)).1 = true ∧
    (readPlyHeader refPlatform plyShort).1.numVertices = 2 ∧
    getPointCount (loadPlyFile (newRenderer refPlatform) (some plyShort)).2 = 2 ∧
    (loadPlyFile (newRenderer refPlatform) (some plyShort)).2.m_vertices.map (fun v => v.position)
      = [⟨Flt.fin 1, Flt.fin 2, Flt.fin 3⟩, ⟨Flt.fin 1, Flt.fin 2, Flt.fin 3⟩] ∧
    (loadPlyFile (newRenderer refPlatform) (some plyShort)).2.m_vertices.map (fun v => v.position)
      ≠ [⟨Flt.fin 1, Flt.fin 2, Flt.fin 3⟩, ⟨Flt.fin 0, Flt.fin 0, Flt.fin 0⟩] ∧
    (loadPlyFile (newRenderer refPlatform) (some plyShort)).2.m_boundingBoxMin
      = ⟨Flt.fin 1, Flt.fin 2, Flt.fin 3⟩ ∧
    (loadPlyFile (newRenderer refPlatform) (some plyShort)).2.m_boundingBoxMax
      = ⟨Flt.fin 1, Flt.fin 2, Flt.fin 3⟩ := by
  refine ⟨by decide!, by decide!, by decide!, by decide!, by decide!, by decide!, by decide!⟩

end PCV
